import Mathlib

/-!
# web3-edu-core: the session / token manager and the cached catalog

A shallow embedding of the services of `internal/domain/services` (sessions,
users, courses, categories), of the repositories, models, cache client and
token utilities they call, and of the routes of the user handler.

* The relational store is explicit state: one list of rows per table.  A query
  is a function of the state, a write returns the new state.
* Everything the outside world decides during one service call (clock
  readings, random UUIDs, the salt of the hasher, a failure of a store, cache
  or signing call) is read from a `World` value passed to the call.
* Library primitives that are not part of the repository (password hashing,
  JWT encoding and signing, `uuid.Parse`) are the fields of a `Lib` value.
-/

namespace Web3Edu

/-! ## Basic types -/

/-- The Go type `uuid.UUID`, sixteen bytes, read as one big-endian 128-bit number. -/
abbrev UUID := Fin (2 ^ 128)

/-- The value `uuid.Nil`. -/
def UUIDNil : UUID := 0

/-- Instants of `time.Time`, in nanoseconds counted from the zero value of the type. -/
abbrev Time := Int

/-- The zero value of `time.Time`. -/
def zeroTime : Time := 0

/-- One lower-case hexadecimal digit. -/
def hexDigit (n : Nat) : Char :=
  if n % 16 < 10 then Char.ofNat (48 + n % 16) else Char.ofNat (87 + n % 16)

/-- Hexadecimal spelling of `count` bytes of a UUID, starting at byte `first`. -/
def hexBytes (u : UUID) (first count : Nat) : List Char :=
  (List.range (2 * count)).map (fun i => hexDigit (u.val / 16 ^ (31 - (2 * first + i))))

/-- The method `uuid.UUID.String`: the canonical 8-4-4-4-12 spelling. -/
def uuidString (u : UUID) : String :=
  String.mk (hexBytes u 0 4 ++ '-' :: hexBytes u 4 2 ++ '-' :: hexBytes u 6 2
    ++ '-' :: hexBytes u 8 2 ++ '-' :: hexBytes u 10 6)

/-- Errors returned by the services and their collaborators. -/
inductive Err where
  /-- The value `gorm.ErrRecordNotFound`. -/
  | ErrRecordNotFound
  /-- An error made by `errors.New msg` in a service. -/
  | New (msg : String)
  /-- Any other error of the store, the cache, the hasher or the signer. -/
  | other (msg : String)
deriving DecidableEq, Repr

deriving instance DecidableEq for Except

/-! ## Models (`internal/domain/models`) -/

/-- The model `models.User` (table `users`: primary key `id`, unique `email`). -/
structure User where
  ID : UUID
  Email : String
  PasswordHash : String
  FullName : String
  Role : String
  ProfilePicture : String
  CreatedAt : Time
  UpdatedAt : Time
deriving DecidableEq, Repr

/-- The model `models.RefreshToken` (table `refresh_tokens`: primary key `id`,
unique `token`).  The association field `User` is never filled by the services. -/
structure RefreshToken where
  ID : UUID
  UserID : UUID
  Token : String
  ExpiresAt : Time
  CreatedAt : Time
deriving DecidableEq, Repr

/-- A Go `float64` price, as its bit pattern.  The services copy prices and test
them against zero; they do no arithmetic on them. -/
abbrev Price := Nat

/-- The test `p != 0` on a `float64`: false for the two zeros only. -/
def Price.nonzero (p : Price) : Bool := decide (p ≠ 0) && decide (p ≠ 2 ^ 63)

/-- The model `models.Lesson` (table `lessons`, primary key `id`). -/
structure Lesson where
  ID : UUID
  CourseID : UUID
  Title : String
  Description : String
  VideoURL : String
  VideoID : String
  Duration : Int
  OrderNumber : Int
  CreatedAt : Time
  UpdatedAt : Time
deriving DecidableEq, Repr

/-- The model `models.Course` (table `courses`, primary key `id`).  The fields
`Instructor` and `Lessons` are associations: a row of the table leaves them
empty and a query with `Preload` fills them. -/
structure Course where
  ID : UUID
  Title : String
  Description : String
  Thumbnail : String
  InstructorID : UUID
  Instructor : User
  Price : Price
  Level : String
  Duration : Int
  Category : String
  CreatedAt : Time
  UpdatedAt : Time
  Lessons : List Lesson
deriving DecidableEq, Repr

/-- The response `services.UserResponse`. -/
structure UserResponse where
  ID : UUID
  Email : String
  FullName : String
  Role : String
  ProfilePicture : String
deriving DecidableEq, Repr

/-- The response `services.LessonBrief`. -/
structure LessonBrief where
  ID : UUID
  Title : String
  Description : String
  Duration : Int
  OrderNumber : Int
deriving DecidableEq, Repr

/-- The response `services.CourseResponse`. -/
structure CourseResponse where
  ID : UUID
  Title : String
  Description : String
  Thumbnail : String
  InstructorID : UUID
  Instructor : UserResponse
  Price : Price
  Level : String
  Duration : Int
  Category : String
  CreatedAt : Time
  UpdatedAt : Time
  Lessons : List LessonBrief
deriving DecidableEq, Repr

/-- The model `models.Category` (table `categories`: primary key `id`, unique
`name`, unique `slug`).  The association field `Courses` is never filled by the
services. -/
structure Category where
  ID : UUID
  Name : String
  Description : String
  Slug : String
  CreatedAt : Time
  UpdatedAt : Time
deriving DecidableEq, Repr

/-- The response `services.CategoryResponse`. -/
structure CategoryResponse where
  ID : UUID
  Name : String
  Description : String
  Slug : String
  CreatedAt : Time
  UpdatedAt : Time
deriving DecidableEq, Repr

/-- A value held by the cache.  `GetJSON` decodes the stored bytes into the
destination of the caller; for the destination `map[string]string` of
`ResetPassword` the bytes either decode to a string map or fail to decode. -/
inductive CacheVal where
  /-- Bytes that decode into the string map `m`. -/
  | strMap (m : List (String × String))
  /-- Bytes that do not decode into a string map. -/
  | raw (bytes : String)
  /-- The bytes `SetJSON` wrote for the course response `c`.  They decode into `c`
  again, and not into a string map (the price is a number). -/
  | course (c : CourseResponse)
  /-- The bytes `SetJSON` wrote for one page of the course list: the object with
  the fields `courses` and `total`. -/
  | coursePage (courses : List CourseResponse) (total : Int)
  /-- The bytes `SetJSON` wrote for a list of course responses (an array, or
  `null` for the nil list). -/
  | courseList (courses : List CourseResponse)
  /-- The bytes `SetJSON` wrote for a list of category responses (an array, or
  `null` for the nil list). -/
  | categoryList (categories : List CategoryResponse)
deriving DecidableEq, Repr

/-- One key of the cache with its value and the instant at which it expires. -/
structure CacheEntry where
  key : String
  value : CacheVal
  expiresAt : Time
deriving DecidableEq, Repr

/-- The store and the cache.  For the cache the first entry of a key counts. -/
structure State where
  users : List User
  refreshTokens : List RefreshToken
  cache : List CacheEntry
  courses : List Course := []
  lessons : List Lesson := []
  categories : List Category := []
deriving DecidableEq, Repr

/-! ## The outside world -/

/-- The calls that can fail for a reason outside the model (connection loss,
a rejected statement, a signing failure). -/
inductive Site where
  | userGetByEmail | userGetByID | userCreate | userUpdate | userDelete
  | tokenGetByToken | tokenCreate | tokenDelete | tokenDeleteByUserID
  | cacheGet | cacheSet | cacheDelete
  | signToken
  | courseCreate | courseGet | courseUpdate | courseDelete
  | cacheDeleteList | cacheDeleteFeatured
  | courseList | courseCount
  | categoryCreate | categoryGetByID | categoryGetBySlug | categoryUpdate | categoryDelete
  | categoryList
deriving DecidableEq, Repr

/-- The places where the clock is read during a service call. -/
inductive Clock where
  /-- The reading `time.Now()` in `RefreshToken`. -/
  | expiryCheck
  /-- The first reading `time.Now()` in `GenerateToken` (expiry). -/
  | accessExpire
  /-- The second reading `time.Now()` in `GenerateToken` (issued-at). -/
  | accessIssued
  /-- The reading `time.Now()` in `GenerateRefreshToken`. -/
  | refreshExpire
  /-- The creation time the store gives a new row. -/
  | rowCreate
  /-- The update time the store gives a saved row. -/
  | rowUpdate
  /-- The clock of the cache when a key is read. -/
  | cacheRead
  /-- The clock of the cache when a key is written. -/
  | cacheWrite
deriving DecidableEq, Repr

/-- What the outside world decides during one service call.  A call that fails
at a site (`fault site = some msg`) has no effect on the store or the cache. -/
structure World where
  fault : Site → Option String
  clock : Clock → Time
  /-- The value `uuid.New()` in `User.BeforeCreate`. -/
  userID : UUID
  /-- The value `uuid.New()` in `RefreshToken.BeforeCreate`. -/
  tokenID : UUID
  /-- The value `uuid.New()` in `GenerateRefreshToken`. -/
  refreshToken : UUID
  /-- The value `uuid.New()` in `ForgotPassword`. -/
  resetToken : UUID
  /-- The random salt of the password hasher. -/
  salt : Nat
  /-- The value `uuid.New()` in `Course.BeforeCreate`. -/
  courseID : UUID := 0
  /-- The value `uuid.New()` in `Category.BeforeCreate`. -/
  categoryID : UUID := 0

/-- The settings `config.App`. -/
structure App where
  Name : String
  JWTSecret : String
  TokenExpireTime : Int
  RefreshTokenExpireTime : Int
deriving DecidableEq, Repr

/-- The JWT claims `utils.Claims`. -/
structure Claims where
  UserID : UUID
  Email : String
  Role : String
  ExpiresAt : Time
  IssuedAt : Time
  Issuer : String
deriving DecidableEq, Repr

/-- Modelled from the spec: `utils.HashPassword` and `utils.CheckPasswordHash`
are not in the source tree; the spec gives the hasher as `hash(plaintext)` (salted,
one-way, fallible at the call site) and `verify(plaintext, hash)`.  The other
fields are primitives of the libraries `golang-jwt`, `google/uuid`,
`encoding/json`, `gorm` and `unicode`. -/
structure Lib where
  /-- The function `utils.HashPassword`, given the salt drawn for this call. -/
  hash : Nat → String → Except String String
  /-- The function `utils.CheckPasswordHash password hash`. -/
  check : String → String → Bool
  /-- The encoded header and claims of a token, joined by a dot. -/
  encode : Claims → String
  /-- The encoded HS256 signature of a signing input under a secret. -/
  mac : String → String → String
  /-- The function `uuid.Parse`. -/
  parse : String → Option UUID
  /-- The function `json.Unmarshal` into a `CourseResponse`, for bytes that no
  course response was written as. -/
  decodeCourse : CacheVal → Except String CourseResponse :=
    fun _ => .error "json: cannot unmarshal"
  /-- The function `json.Unmarshal` into the page struct of `CourseService.List`,
  for bytes that no page was written as. -/
  decodeCoursePage : CacheVal → Except String (List CourseResponse × Int) :=
    fun _ => .error "json: cannot unmarshal"
  /-- The function `json.Unmarshal` into a `[]CourseResponse`, for bytes that no
  list of course responses was written as. -/
  decodeCourseList : CacheVal → Except String (List CourseResponse) :=
    fun _ => .error "json: cannot unmarshal"
  /-- The function `json.Unmarshal` into a `[]CategoryResponse`, for bytes that no
  list of category responses was written as. -/
  decodeCategoryList : CacheVal → Except String (List CategoryResponse) :=
    fun _ => .error "json: cannot unmarshal"
  /-- The row count of the clause that `Limit(n)` of the query builder emits, or
  `none` when it emits no clause (a negative `n`; in some versions also zero). -/
  limit : Int → Option Nat := fun n => if 0 < n then some n.toNat else none
  /-- The function `unicode.ToLower`. -/
  toLower : Char → Char := Char.toLower
  /-- The function `jwt.ParseWithClaims` for a secret and a token string: the
  claims of the parsed token and its flag `Valid`, or the error of the parser. -/
  parseWithClaims : String → String → Except String (Claims × Bool) :=
    fun _ _ => .error "token is malformed"

/-- A Go slice, as the list of its elements (the nil slice is the empty list). -/
abbrev Slice (α : Type) := List α

/-- Wrap an integer into the range of `int32`. -/
def wrap32 (n : Int) : Int := (n + 2 ^ 31) % 2 ^ 32 - 2 ^ 31

/-- Wrap an integer into the range of `int64`. -/
def wrap64 (n : Int) : Int := (n + 2 ^ 63) % 2 ^ 64 - 2 ^ 63

/-- The duration `time.Duration(n) * time.Hour`, in nanoseconds. -/
def hours (n : Int) : Int := wrap64 (wrap64 n * 3600000000000)

/-! ## The store (`internal/domain/repositories`) -/

/-- Among the rows that satisfy `p`, the one with the least primary key: the
query `Where(...).First(&row)`, which orders by primary key and takes one row. -/
def firstRow {α : Type} (key : α → UUID) (p : α → Bool) : List α → Option α
  | [] => none
  | r :: rs =>
    if p r then
      match firstRow key p rs with
      | some r2 => if key r2 < key r then some r2 else some r
      | none => some r
    else firstRow key p rs

/-- A time column on insert: a zero value is replaced by the current time. -/
def stamp (now t : Time) : Time := if t = zeroTime then now else t

/-- The hook `User.BeforeCreate`. -/
def User.BeforeCreate (w : World) (u : User) : User :=
  if u.ID = UUIDNil then { u with ID := w.userID } else u

/-- The hook `RefreshToken.BeforeCreate`. -/
def RefreshToken.BeforeCreate (w : World) (r : RefreshToken) : RefreshToken :=
  if r.ID = UUIDNil then { r with ID := w.tokenID } else r

namespace UserRepository

/-- The method `UserRepository.Create`: runs the hook, stamps the time columns
that are zero and inserts the row; the insert is rejected when the primary key
or the unique email is taken.  Returns the new state and the row as written
back into the argument. -/
def Create (w : World) (user : User) (s : State) : Except Err (State × User) :=
  match w.fault .userCreate with
  | some e => .error (.other e)
  | none =>
    let u := { User.BeforeCreate w user with
      CreatedAt := stamp (w.clock .rowCreate) user.CreatedAt,
      UpdatedAt := stamp (w.clock .rowCreate) user.UpdatedAt }
    if s.users.any (fun r => decide (r.ID = u.ID) || decide (r.Email = u.Email)) then
      .error (.other "duplicate key value violates unique constraint")
    else .ok ({ s with users := s.users ++ [u] }, u)

/-- The method `UserRepository.GetByID`. -/
def GetByID (w : World) (id : UUID) (s : State) : Except Err User :=
  match w.fault .userGetByID with
  | some e => .error (.other e)
  | none =>
    match firstRow User.ID (fun u => decide (u.ID = id)) s.users with
    | some u => .ok u
    | none => .error .ErrRecordNotFound

/-- The method `UserRepository.GetByEmail`. -/
def GetByEmail (w : World) (email : String) (s : State) : Except Err User :=
  match w.fault .userGetByEmail with
  | some e => .error (.other e)
  | none =>
    match firstRow User.ID (fun u => decide (u.Email = email)) s.users with
    | some u => .ok u
    | none => .error .ErrRecordNotFound

/-- The method `UserRepository.Update` (`db.Save`): a value with a zero primary
key is created; otherwise every column of the row with the primary key of
`user` is overwritten and the update time is stamped, and when no row has that
key the row is inserted.  Rejected when another row has the email. -/
def Update (w : World) (user : User) (s : State) : Except Err (State × User) :=
  match w.fault .userUpdate with
  | some e => .error (.other e)
  | none =>
    let u := { user with UpdatedAt := w.clock .rowUpdate }
    if user.ID = UUIDNil then Create { w with fault := fun _ => none } user s
    else if s.users.any (fun r => decide (r.ID ≠ u.ID) && decide (r.Email = u.Email)) then
      .error (.other "duplicate key value violates unique constraint")
    else if s.users.any (fun r => decide (r.ID = u.ID)) then
      .ok ({ s with users := s.users.map (fun r => if r.ID = u.ID then u else r) }, u)
    else .ok ({ s with users := s.users ++ [u] }, u)

/-- The method `UserRepository.Delete`. -/
def Delete (w : World) (id : UUID) (s : State) : Except Err State :=
  match w.fault .userDelete with
  | some e => .error (.other e)
  | none => .ok { s with users := s.users.filter (fun r => decide (r.ID ≠ id)) }

end UserRepository

namespace RefreshTokenRepository

/-- The method `RefreshTokenRepository.Create`: runs the hook, stamps a zero
creation time and inserts the row; the insert is rejected when the primary key
or the unique token string is taken. -/
def Create (w : World) (token : RefreshToken) (s : State) : Except Err (State × RefreshToken) :=
  match w.fault .tokenCreate with
  | some e => .error (.other e)
  | none =>
    let t := { RefreshToken.BeforeCreate w token with
      CreatedAt := stamp (w.clock .rowCreate) token.CreatedAt }
    if s.refreshTokens.any (fun r => decide (r.ID = t.ID) || decide (r.Token = t.Token)) then
      .error (.other "duplicate key value violates unique constraint")
    else .ok ({ s with refreshTokens := s.refreshTokens ++ [t] }, t)

/-- The method `RefreshTokenRepository.GetByToken`. -/
def GetByToken (w : World) (token : String) (s : State) : Except Err RefreshToken :=
  match w.fault .tokenGetByToken with
  | some e => .error (.other e)
  | none =>
    match firstRow RefreshToken.ID (fun r => decide (r.Token = token)) s.refreshTokens with
    | some r => .ok r
    | none => .error .ErrRecordNotFound

/-- The method `RefreshTokenRepository.Delete`: deletes by primary key; deleting
a key that no row has is not an error. -/
def Delete (w : World) (id : UUID) (s : State) : Except Err State :=
  match w.fault .tokenDelete with
  | some e => .error (.other e)
  | none => .ok { s with refreshTokens := s.refreshTokens.filter (fun r => decide (r.ID ≠ id)) }

/-- The method `RefreshTokenRepository.DeleteByUserID`. -/
def DeleteByUserID (w : World) (userID : UUID) (s : State) : Except Err State :=
  match w.fault .tokenDeleteByUserID with
  | some e => .error (.other e)
  | none =>
    .ok { s with refreshTokens := s.refreshTokens.filter (fun r => decide (r.UserID ≠ userID)) }

end RefreshTokenRepository

/-! ## The cache (`internal/database/redis/cache.go`) -/

namespace Cache

/-- The method `Cache.SetJSON`: the key is overwritten and expires after `ttl`. -/
def SetJSON (w : World) (key : String) (value : CacheVal) (ttl : Int) (s : State) :
    Except Err State :=
  match w.fault .cacheSet with
  | some e => .error (.other e)
  | none =>
    .ok { s with cache := ⟨key, value, w.clock .cacheWrite + ttl⟩ ::
      s.cache.filter (fun e => decide (e.key ≠ key)) }

/-- The method `Cache.GetJSON` with a destination of type `map[string]string`: fails
when the key is absent, has expired, or holds bytes that do not decode. -/
def GetJSON (w : World) (key : String) (s : State) : Except Err (List (String × String)) :=
  match w.fault .cacheGet with
  | some e => .error (.other e)
  | none =>
    match s.cache.find? (fun e => decide (e.key = key)) with
    | none => .error (.other "redis: nil")
    | some e =>
      if e.expiresAt ≤ w.clock .cacheRead then .error (.other "redis: nil")
      else
        match e.value with
        | .strMap m => .ok m
        | .raw _ => .error (.other "json: cannot unmarshal")
        | .course _ => .error (.other "json: cannot unmarshal")
        | .coursePage _ _ => .error (.other "json: cannot unmarshal")
        | .courseList cs =>
          if cs = [] then .ok [] else .error (.other "json: cannot unmarshal")
        | .categoryList cs =>
          if cs = [] then .ok [] else .error (.other "json: cannot unmarshal")

/-- The method `Cache.Delete`. -/
def Delete (w : World) (key : String) (s : State) : Except Err State :=
  match w.fault .cacheDelete with
  | some e => .error (.other e)
  | none => .ok { s with cache := s.cache.filter (fun e => decide (e.key ≠ key)) }

end Cache

/-- Indexing a Go `map[string]string`: the empty string when the key is missing. -/
def mapGet (m : List (String × String)) (k : String) : String :=
  match m.find? (fun kv => decide (kv.1 = k)) with
  | some kv => kv.2
  | none => ""

/-! ## Token utilities (`internal/utils/jwt.go`) -/

namespace utils

/-- The function `utils.GenerateToken`: the signed string is the encoded header
and claims, a dot, and the encoded signature. -/
def GenerateToken (cfg : App) (lib : Lib) (w : World) (userID : UUID) (email role : String) :
    Except Err String :=
  let expireTime := w.clock .accessExpire + hours cfg.TokenExpireTime
  let claims : Claims :=
    { UserID := userID, Email := email, Role := role, ExpiresAt := expireTime,
      IssuedAt := w.clock .accessIssued, Issuer := cfg.Name }
  match w.fault .signToken with
  | some e => .error (.other e)
  | none => .ok (lib.encode claims ++ "." ++ lib.mac cfg.JWTSecret (lib.encode claims))

/-- The function `utils.GenerateRefreshToken`. -/
def GenerateRefreshToken (cfg : App) (w : World) : Except Err (String × Time) :=
  let expiresAt := w.clock .refreshExpire + hours cfg.RefreshTokenExpireTime
  let refreshToken := uuidString w.refreshToken
  .ok (refreshToken, expiresAt)

/-- The function `utils.HashPassword`, from the `Lib` record. -/
def HashPassword (lib : Lib) (w : World) (password : String) : Except Err String :=
  match lib.hash w.salt password with
  | .ok h => .ok h
  | .error e => .error (.other e)

/-- The function `utils.ParseToken`. -/
def ParseToken (cfg : App) (lib : Lib) (tokenString : String) : Except Err Claims :=
  match lib.parseWithClaims cfg.JWTSecret tokenString with
  | .error e => .error (.other e)
  | .ok (claims, valid) => if valid then .ok claims else .error (.New "invalid token")

/-- The function `utils.CheckPasswordHash`, from the `Lib` record. -/
def CheckPasswordHash (lib : Lib) (password hash : String) : Bool :=
  lib.check password hash

end utils

/-! ## The session manager (`internal/domain/services/auth_service.go`) -/

/-- The request `services.RegisterRequest`. -/
structure RegisterRequest where
  Email : String
  Password : String
  FullName : String
  Role : String
  ProfilePicture : String
deriving DecidableEq, Repr

/-- The request `services.LoginRequest`. -/
structure LoginRequest where
  Email : String
  Password : String
deriving DecidableEq, Repr

/-- The request `services.ForgotPasswordRequest`. -/
structure ForgotPasswordRequest where
  Email : String
deriving DecidableEq, Repr

/-- The request `services.ResetPasswordRequest`. -/
structure ResetPasswordRequest where
  Token : String
  Password : String
deriving DecidableEq, Repr

/-- The response `services.TokenResponse`. -/
structure TokenResponse where
  AccessToken : String
  RefreshToken : String
  ExpiresAt : Time
  User : UserResponse
deriving DecidableEq, Repr

namespace AuthService

/-- The method `AuthService.generateTokens`. -/
def generateTokens (cfg : App) (lib : Lib) (w : World) (user : User) (s : State) :
    Except Err TokenResponse × State :=
  match utils.GenerateToken cfg lib w user.ID user.Email user.Role with
  | .error e => (.error e, s)
  | .ok accessToken =>
    match utils.GenerateRefreshToken cfg w with
    | .error e => (.error e, s)
    | .ok (refreshToken, expiresAt) =>
      let token : RefreshToken :=
        { ID := UUIDNil, UserID := user.ID, Token := refreshToken, ExpiresAt := expiresAt,
          CreatedAt := zeroTime }
      match RefreshTokenRepository.Create w token s with
      | .error e => (.error e, s)
      | .ok (s1, _) =>
        (.ok { AccessToken := accessToken, RefreshToken := refreshToken, ExpiresAt := expiresAt,
               User := { ID := user.ID, Email := user.Email, FullName := user.FullName,
                         Role := user.Role, ProfilePicture := user.ProfilePicture } }, s1)

/-- The method `AuthService.Register`. -/
def Register (cfg : App) (lib : Lib) (w : World) (req : RegisterRequest) (s : State) :
    Except Err TokenResponse × State :=
  match UserRepository.GetByEmail w req.Email s with
  | .ok _ => (.error (.New "email already exists"), s)
  | .error e =>
    if e ≠ .ErrRecordNotFound then (.error e, s)
    else
      match utils.HashPassword lib w req.Password with
      | .error e => (.error e, s)
      | .ok hashedPassword =>
        let role := if req.Role = "" then "user" else req.Role
        let user : User :=
          { ID := UUIDNil, Email := req.Email, PasswordHash := hashedPassword,
            FullName := req.FullName, Role := role, ProfilePicture := req.ProfilePicture,
            CreatedAt := zeroTime, UpdatedAt := zeroTime }
        match UserRepository.Create w user s with
        | .error e => (.error e, s)
        | .ok (s1, user1) => generateTokens cfg lib w user1 s1

/-- The method `AuthService.Login`. -/
def Login (cfg : App) (lib : Lib) (w : World) (req : LoginRequest) (s : State) :
    Except Err TokenResponse × State :=
  match UserRepository.GetByEmail w req.Email s with
  | .error e =>
    if e = .ErrRecordNotFound then (.error (.New "invalid email or password"), s)
    else (.error e, s)
  | .ok user =>
    if !utils.CheckPasswordHash lib req.Password user.PasswordHash then
      (.error (.New "invalid email or password"), s)
    else generateTokens cfg lib w user s

/-- The method `AuthService.RefreshToken`. -/
def RefreshToken (cfg : App) (lib : Lib) (w : World) (refreshToken : String) (s : State) :
    Except Err TokenResponse × State :=
  match RefreshTokenRepository.GetByToken w refreshToken s with
  | .error _ => (.error (.New "invalid refresh token"), s)
  | .ok token =>
    if token.ExpiresAt < w.clock .expiryCheck then (.error (.New "refresh token expired"), s)
    else
      match UserRepository.GetByID w token.UserID s with
      | .error e => (.error e, s)
      | .ok user =>
        match RefreshTokenRepository.Delete w token.ID s with
        | .error e => (.error e, s)
        | .ok s1 => generateTokens cfg lib w user s1

/-- The method `AuthService.Logout`. -/
def Logout (w : World) (refreshToken : String) (s : State) : Except Err Unit × State :=
  match RefreshTokenRepository.GetByToken w refreshToken s with
  | .error _ => (.ok (), s)
  | .ok token =>
    match RefreshTokenRepository.Delete w token.ID s with
    | .error e => (.error e, s)
    | .ok s1 => (.ok (), s1)

/-- The method `AuthService.ForgotPassword`. -/
def ForgotPassword (w : World) (req : ForgotPasswordRequest) (s : State) :
    Except Err Unit × State :=
  match UserRepository.GetByEmail w req.Email s with
  | .error e =>
    if e = .ErrRecordNotFound then (.ok (), s) else (.error e, s)
  | .ok user =>
    let token := uuidString w.resetToken
    let key := "reset_token:" ++ token
    let userData := [("user_id", uuidString user.ID), ("email", user.Email)]
    match Cache.SetJSON w key (.strMap userData) (1 * 3600000000000) s with
    | .error e => (.error e, s)
    | .ok s1 => (.ok (), s1)

/-- The method `AuthService.ResetPassword`. -/
def ResetPassword (lib : Lib) (w : World) (req : ResetPasswordRequest) (s : State) :
    Except Err Unit × State :=
  let key := "reset_token:" ++ req.Token
  match Cache.GetJSON w key s with
  | .error _ => (.error (.New "invalid or expired token"), s)
  | .ok userData =>
    match lib.parse (mapGet userData "user_id") with
    | none => (.error (.other "invalid UUID"), s)
    | some userID =>
      match UserRepository.GetByID w userID s with
      | .error e => (.error e, s)
      | .ok user =>
        match utils.HashPassword lib w req.Password with
        | .error e => (.error e, s)
        | .ok hashedPassword =>
          match UserRepository.Update w { user with PasswordHash := hashedPassword } s with
          | .error e => (.error e, s)
          | .ok (s1, user1) =>
            match Cache.Delete w key s1 with
            | .error e => (.error e, s1)
            | .ok s2 =>
              match RefreshTokenRepository.DeleteByUserID w user1.ID s2 with
              | .error e => (.error e, s2)
              | .ok s3 => (.ok (), s3)

end AuthService


/-! ## The user service (`internal/domain/services/user_service.go`) -/

/-- The request `services.UpdateUserRequest`. -/
structure UpdateUserRequest where
  FullName : String
  Password : String
  ProfilePicture : String
deriving DecidableEq, Repr

namespace UserService

/-- The method `UserService.GetByID`. -/
def GetByID (w : World) (id : UUID) (s : State) : Except Err UserResponse :=
  match UserRepository.GetByID w id s with
  | .error e =>
    if e = .ErrRecordNotFound then .error (.New "user not found") else .error e
  | .ok user =>
    .ok { ID := user.ID, Email := user.Email, FullName := user.FullName, Role := user.Role,
          ProfilePicture := user.ProfilePicture }

/-- The method `UserService.Update`. -/
def Update (lib : Lib) (w : World) (id : UUID) (req : UpdateUserRequest) (s : State) :
    Except Err UserResponse × State :=
  match UserRepository.GetByID w id s with
  | .error e =>
    if e = .ErrRecordNotFound then (.error (.New "user not found"), s) else (.error e, s)
  | .ok user =>
    let user1 := if req.FullName ≠ "" then { user with FullName := req.FullName } else user
    let user2 :=
      if req.ProfilePicture ≠ "" then { user1 with ProfilePicture := req.ProfilePicture }
      else user1
    let hashed : Except Err User :=
      if req.Password ≠ "" then
        match utils.HashPassword lib w req.Password with
        | .error e => .error e
        | .ok hashedPassword => .ok { user2 with PasswordHash := hashedPassword }
      else .ok user2
    match hashed with
    | .error e => (.error e, s)
    | .ok user3 =>
      match UserRepository.Update w user3 s with
      | .error e => (.error e, s)
      | .ok (s1, user4) =>
        (.ok { ID := user4.ID, Email := user4.Email, FullName := user4.FullName,
               Role := user4.Role, ProfilePicture := user4.ProfilePicture }, s1)

/-- The method `UserService.Delete`. -/
def Delete (w : World) (id : UUID) (s : State) : Except Err Unit × State :=
  match UserRepository.GetByID w id s with
  | .error e =>
    if e = .ErrRecordNotFound then (.error (.New "user not found"), s) else (.error e, s)
  | .ok _ =>
    match UserRepository.Delete w id s with
    | .error e => (.error e, s)
    | .ok s1 => (.ok (), s1)

end UserService

/-! ## The course catalog (`course_repository.go`, `course_service.go`) -/

/-- The zero value of `models.User`. -/
def zeroUser : User :=
  { ID := UUIDNil, Email := "", PasswordHash := "", FullName := "", Role := "",
    ProfilePicture := "", CreatedAt := zeroTime, UpdatedAt := zeroTime }

/-- The zero value of `services.UserResponse`. -/
def zeroUserResponse : UserResponse :=
  { ID := UUIDNil, Email := "", FullName := "", Role := "", ProfilePicture := "" }

/-- The columns of a course: the value without its associations. -/
def Course.columns (c : Course) : Course := { c with Instructor := zeroUser, Lessons := [] }

/-- The hook `Course.BeforeCreate`. -/
def Course.BeforeCreate (w : World) (c : Course) : Course :=
  if c.ID = UUIDNil then { c with ID := w.courseID } else c

namespace Cache

/-- The method `Cache.Delete` at a given call site: a service that deletes
several keys in one call has one site for each delete. -/
def DeleteAt (site : Site) (w : World) (key : String) (s : State) : Except Err State :=
  match w.fault site with
  | some e => .error (.other e)
  | none => .ok { s with cache := s.cache.filter (fun e => decide (e.key ≠ key)) }

/-- The method `Cache.GetJSON` with a destination of type `CourseResponse`. -/
def GetJSONCourse (lib : Lib) (w : World) (key : String) (s : State) :
    Except Err CourseResponse :=
  match w.fault .cacheGet with
  | some e => .error (.other e)
  | none =>
    match s.cache.find? (fun e => decide (e.key = key)) with
    | none => .error (.other "redis: nil")
    | some e =>
      if e.expiresAt ≤ w.clock .cacheRead then .error (.other "redis: nil")
      else
        match e.value with
        | .course c => .ok c
        | v =>
          match lib.decodeCourse v with
          | .ok c => .ok c
          | .error m => .error (.other m)

end Cache

/-- A cache call whose error the caller drops: the state after it is the state
before it when the call failed. -/
def dropError (r : Except Err State) (s : State) : State :=
  match r with
  | .ok s1 => s1
  | .error _ => s

namespace CourseRepository

/-- The clause `Preload("Instructor")`: the user row with the instructor id, or
the zero user when there is none. -/
def preloadInstructor (s : State) (c : Course) : Course :=
  { c with
    Instructor :=
      Option.getD (firstRow User.ID (fun u => decide (u.ID = c.InstructorID)) s.users) zeroUser }

/-- The clause `Preload("Lessons", ...)`: the lessons of the course by ascending
order number (lessons with the same number keep the order of the table). -/
def preloadLessons (s : State) (c : Course) : Course :=
  { c with
    Lessons :=
      List.insertionSort (fun a b => a.OrderNumber ≤ b.OrderNumber)
        (s.lessons.filter (fun l => decide (l.CourseID = c.ID))) }

/-- The method `CourseRepository.Create`: runs the hook, stamps the time columns
that are zero and inserts the columns; rejected when the primary key is taken.
The price is kept as given (the rounding of the column is not modelled). -/
def Create (w : World) (course : Course) (s : State) : Except Err (State × Course) :=
  match w.fault .courseCreate with
  | some e => .error (.other e)
  | none =>
    let c := { Course.BeforeCreate w course with
      CreatedAt := stamp (w.clock .rowCreate) course.CreatedAt,
      UpdatedAt := stamp (w.clock .rowCreate) course.UpdatedAt }
    if s.courses.any (fun r => decide (r.ID = c.ID)) then
      .error (.other "duplicate key value violates unique constraint")
    else .ok ({ s with courses := s.courses ++ [c.columns] }, c)

/-- The row with the primary key `id`, before any association is loaded. -/
def find (id : UUID) (s : State) : Option Course :=
  firstRow Course.ID (fun c => decide (c.ID = id)) s.courses

/-- The method `CourseRepository.GetByID`. -/
def GetByID (w : World) (id : UUID) (s : State) : Except Err Course :=
  match w.fault .courseGet with
  | some e => .error (.other e)
  | none =>
    match find id s with
    | some c => .ok (preloadInstructor s c)
    | none => .error .ErrRecordNotFound

/-- The method `CourseRepository.GetByIDWithLessons`. -/
def GetByIDWithLessons (w : World) (id : UUID) (s : State) : Except Err Course :=
  match w.fault .courseGet with
  | some e => .error (.other e)
  | none =>
    match find id s with
    | some c => .ok (preloadLessons s (preloadInstructor s c))
    | none => .error .ErrRecordNotFound

/-- The method `CourseRepository.Update` (`db.Save`): a value with a zero primary
key is created; otherwise the update time is stamped and the columns of the
rows with the primary key are overwritten, and when no row has that key the
row is inserted.  The loaded instructor is saved with "on conflict do nothing",
which leaves the users table as it is. -/
def Update (w : World) (course : Course) (s : State) : Except Err (State × Course) :=
  match w.fault .courseUpdate with
  | some e => .error (.other e)
  | none =>
    let c := { course with UpdatedAt := w.clock .rowUpdate }
    if course.ID = UUIDNil then Create { w with fault := fun _ => none } course s
    else if s.courses.any (fun r => decide (r.ID = c.ID)) then
      .ok ({ s with courses := s.courses.map (fun r => if r.ID = c.ID then c.columns else r) }, c)
    else .ok ({ s with courses := s.courses ++ [c.columns] }, c)

/-- The method `CourseRepository.Delete`. -/
def Delete (w : World) (id : UUID) (s : State) : Except Err State :=
  match w.fault .courseDelete with
  | some e => .error (.other e)
  | none => .ok { s with courses := s.courses.filter (fun r => decide (r.ID ≠ id)) }

end CourseRepository

/-- The request `services.CreateCourseRequest`. -/
structure CreateCourseRequest where
  Title : String
  Description : String
  Thumbnail : String
  InstructorID : UUID
  Price : Price
  Level : String
  Duration : Int
  Category : String
deriving DecidableEq, Repr

/-- The request `services.UpdateCourseRequest`. -/
structure UpdateCourseRequest where
  Title : String
  Description : String
  Thumbnail : String
  Price : Price
  Level : String
  Duration : Int
  Category : String
deriving DecidableEq, Repr

/-- The cache key of one course, `"course:" + id.String()`. -/
def courseKey (id : UUID) : String := "course:" ++ uuidString id

namespace CourseService

/-- The brief form of one lesson in `mapCourseToResponse`. -/
def lessonBrief (l : Lesson) : LessonBrief :=
  { ID := l.ID, Title := l.Title, Description := l.Description, Duration := l.Duration,
    OrderNumber := l.OrderNumber }

/-- The instructor field of `mapCourseToResponse`: filled when the loaded
instructor has an id, the zero response otherwise. -/
def instructorResponse (u : User) : UserResponse :=
  if u.ID ≠ UUIDNil then
    { ID := u.ID, Email := u.Email, FullName := u.FullName, Role := u.Role,
      ProfilePicture := u.ProfilePicture }
  else zeroUserResponse

/-- The method `CourseService.mapCourseToResponse`. -/
def mapCourseToResponse (course : Course) : CourseResponse :=
  { ID := course.ID, Title := course.Title, Description := course.Description,
    Thumbnail := course.Thumbnail, InstructorID := course.InstructorID,
    Instructor := instructorResponse course.Instructor,
    Price := course.Price, Level := course.Level, Duration := course.Duration,
    Category := course.Category, CreatedAt := course.CreatedAt, UpdatedAt := course.UpdatedAt,
    Lessons := course.Lessons.map lessonBrief }

/-- The method `CourseService.Create`. -/
def Create (w : World) (req : CreateCourseRequest) (s : State) :
    Except Err CourseResponse × State :=
  let course : Course :=
    { ID := UUIDNil, Title := req.Title, Description := req.Description,
      Thumbnail := req.Thumbnail, InstructorID := req.InstructorID, Instructor := zeroUser,
      Price := req.Price, Level := req.Level, Duration := req.Duration,
      Category := req.Category, CreatedAt := zeroTime, UpdatedAt := zeroTime, Lessons := [] }
  match CourseRepository.Create w course s with
  | .error e => (.error e, s)
  | .ok (s1, course1) =>
    let s2 := dropError (Cache.DeleteAt .cacheDeleteList w "courses:list" s1) s1
    let s3 := dropError (Cache.DeleteAt .cacheDeleteFeatured w "courses:featured" s2) s2
    (.ok (mapCourseToResponse course1), s3)

/-- The method `CourseService.GetByID`. -/
def GetByID (lib : Lib) (w : World) (id : UUID) (s : State) :
    Except Err CourseResponse × State :=
  match Cache.GetJSONCourse lib w ("course:" ++ uuidString id) s with
  | .ok cachedCourse => (.ok cachedCourse, s)
  | .error _ =>
    match CourseRepository.GetByIDWithLessons w id s with
    | .error e =>
      if e = .ErrRecordNotFound then (.error (.New "course not found"), s) else (.error e, s)
    | .ok course =>
      let response := mapCourseToResponse course
      (.ok response,
        dropError (Cache.SetJSON w ("course:" ++ uuidString id) (.course response)
          (1 * 3600000000000) s) s)

/-- The field updates of `CourseService.Update`: a field of the request that
is empty or zero leaves the field of the course as it is. -/
def applyUpdate (req : UpdateCourseRequest) (course : Course) : Course :=
  { course with
    Title := if req.Title ≠ "" then req.Title else course.Title,
    Description := if req.Description ≠ "" then req.Description else course.Description,
    Thumbnail := if req.Thumbnail ≠ "" then req.Thumbnail else course.Thumbnail,
    Price := if req.Price.nonzero then req.Price else course.Price,
    Level := if req.Level ≠ "" then req.Level else course.Level,
    Duration := if req.Duration ≠ 0 then req.Duration else course.Duration,
    Category := if req.Category ≠ "" then req.Category else course.Category }

/-- The cache deletes at the end of `Update` and `Delete`; their errors are dropped. -/
def invalidate (w : World) (id : UUID) (s : State) : State :=
  let s1 := dropError (Cache.Delete w ("course:" ++ uuidString id) s) s
  let s2 := dropError (Cache.DeleteAt .cacheDeleteList w "courses:list" s1) s1
  dropError (Cache.DeleteAt .cacheDeleteFeatured w "courses:featured" s2) s2

/-- The method `CourseService.Update`. -/
def Update (w : World) (id : UUID) (req : UpdateCourseRequest) (s : State) :
    Except Err CourseResponse × State :=
  match CourseRepository.GetByID w id s with
  | .error e =>
    if e = .ErrRecordNotFound then (.error (.New "course not found"), s) else (.error e, s)
  | .ok course =>
    match CourseRepository.Update w (applyUpdate req course) s with
    | .error e => (.error e, s)
    | .ok (s1, course1) => (.ok (mapCourseToResponse course1), invalidate w id s1)

/-- The method `CourseService.Delete`. -/
def Delete (w : World) (id : UUID) (s : State) : Except Err Unit × State :=
  match CourseRepository.GetByID w id s with
  | .error e =>
    if e = .ErrRecordNotFound then (.error (.New "course not found"), s) else (.error e, s)
  | .ok _ =>
    match CourseRepository.Delete w id s with
    | .error e => (.error e, s)
    | .ok s1 => (.ok (), invalidate w id s1)

end CourseService

/-! ## Lists of courses (`CourseRepository.List`, `CourseService.List`, `GetFeatured`) -/

/-- The conversion `string(rune(n))` of a Go `int`: the value is cut to 32 bits,
and the string is the UTF-8 spelling of that code point, or of U+FFFD when it
is not a valid code point (negative, a surrogate, or above U+10FFFF). -/
def runeString (n : Int) : String :=
  let r := wrap32 n
  if (0 ≤ r ∧ r < 0xD800) ∨ (0xE000 ≤ r ∧ r ≤ 0x10FFFF) then
    String.singleton (Char.ofNat r.toNat)
  else String.singleton (Char.ofNat 0xFFFD)

/-- The cache key of one page of the unfiltered course list in `CourseService.List`. -/
def listKey (page pageSize : Int) : String :=
  "courses:list:page:" ++ runeString page ++ ":size:" ++ runeString pageSize

namespace Cache

/-- The method `Cache.GetJSON` with any destination: `decode` is `json.Unmarshal`
into the destination. -/
def GetJSONAs {α : Type} (decode : CacheVal → Except String α) (w : World) (key : String)
    (s : State) : Except Err α :=
  match w.fault .cacheGet with
  | some e => .error (.other e)
  | none =>
    match s.cache.find? (fun e => decide (e.key = key)) with
    | none => .error (.other "redis: nil")
    | some e =>
      if e.expiresAt ≤ w.clock .cacheRead then .error (.other "redis: nil")
      else
        match decode e.value with
        | .ok v => .ok v
        | .error m => .error (.other m)

end Cache

/-- Decoding into the page struct of `CourseService.List`. -/
def Lib.asCoursePage (lib : Lib) : CacheVal → Except String (Slice CourseResponse × Int)
  | .coursePage cs total => .ok (cs, total)
  | v => lib.decodeCoursePage v

/-- Decoding into a `[]CourseResponse`. -/
def Lib.asCourseList (lib : Lib) : CacheVal → Except String (Slice CourseResponse)
  | .courseList cs => .ok cs
  | v => lib.decodeCourseList v

/-- Decoding into a `[]CategoryResponse`. -/
def Lib.asCategoryList (lib : Lib) : CacheVal → Except String (Slice CategoryResponse)
  | .categoryList cs => .ok cs
  | v => lib.decodeCategoryList v

/-- The clause `Order("created_at DESC")`: newest first (rows with the same
creation time keep the order of the table). -/
def newestFirst (rows : Slice Course) : Slice Course :=
  rows.insertionSort (fun a b => b.CreatedAt ≤ a.CreatedAt)

/-- The clauses `Offset((page - 1) * pageSize).Limit(pageSize)`: the product is
computed in `int`, and an offset that is not positive emits no clause. -/
def pageWindow (lib : Lib) (page pageSize : Int) (rows : Slice Course) : Slice Course :=
  let offset := wrap64 (wrap64 (page - 1) * pageSize)
  let rest := if 0 < offset then rows.drop offset.toNat else rows
  match lib.limit pageSize with
  | some n => rest.take n
  | none => rest

/-- The statement `r.db.Model(&models.Course{}).Count(&count)` over the selected
rows: its error is dropped, and the count stays zero when it fails. -/
def countRows (w : World) (rows : Slice Course) : Int :=
  match w.fault .courseCount with
  | some _ => 0
  | none => rows.length

/-- The method `CourseRepository.List`. -/
def CourseRepository.List (lib : Lib) (w : World) (page pageSize : Int) (s : State) :
    Except Err (Slice Course × Int) :=
  let count := countRows w s.courses
  match w.fault .courseList with
  | some e => .error (.other e)
  | none =>
    .ok ((pageWindow lib page pageSize (newestFirst s.courses)).map
      (CourseRepository.preloadInstructor s), count)

/-- The method `CourseRepository.ListByCategory`. -/
def CourseRepository.ListByCategory (lib : Lib) (w : World) (category : String)
    (page pageSize : Int) (s : State) : Except Err (Slice Course × Int) :=
  let selected := s.courses.filter (fun c => decide (c.Category = category))
  let count := countRows w selected
  match w.fault .courseList with
  | some e => .error (.other e)
  | none =>
    .ok ((pageWindow lib page pageSize (newestFirst selected)).map
      (CourseRepository.preloadInstructor s), count)

/-- The method `CourseService.List`. -/
def CourseService.List (lib : Lib) (w : World) (page pageSize : Int) (category : String)
    (s : State) : Except Err (Slice CourseResponse × Int) × State :=
  let cachedCourses : Option (Slice CourseResponse × Int) :=
    if category = "" then
      match Cache.GetJSONAs lib.asCoursePage w (listKey page pageSize) s with
      | .ok p => some p
      | .error _ => none
    else none
  match cachedCourses with
  | some p => (.ok p, s)
  | none =>
    let loaded :=
      if category ≠ "" then CourseRepository.ListByCategory lib w category page pageSize s
      else CourseRepository.List lib w page pageSize s
    match loaded with
    | .error e => (.error e, s)
    | .ok (courses, count) =>
      let courseResponses := courses.map CourseService.mapCourseToResponse
      let s1 :=
        if category = "" then
          dropError (Cache.SetJSON w (listKey page pageSize)
            (.coursePage courseResponses count) (30 * 60000000000) s) s
        else s
      (.ok (courseResponses, count), s1)

/-- The method `CourseService.GetFeatured`. -/
def CourseService.GetFeatured (lib : Lib) (w : World) (s : State) :
    Except Err (Slice CourseResponse) × State :=
  match Cache.GetJSONAs lib.asCourseList w "courses:featured" s with
  | .ok cachedCourses => (.ok cachedCourses, s)
  | .error _ =>
    match CourseRepository.List lib w 1 5 s with
    | .error e => (.error e, s)
    | .ok (courses, _) =>
      let courseResponses := courses.map CourseService.mapCourseToResponse
      (.ok courseResponses,
        dropError (Cache.SetJSON w "courses:featured" (.courseList courseResponses)
          (1 * 3600000000000) s) s)

/-! ## Categories (`category_repository.go`, `category_service.go`) -/

/-- The hook `Category.BeforeCreate`. -/
def Category.BeforeCreate (w : World) (c : Category) : Category :=
  if c.ID = UUIDNil then { c with ID := w.categoryID } else c

namespace CategoryRepository

/-- The method `CategoryRepository.Create`: runs the hook, stamps the time
columns that are zero and inserts the row; the insert is rejected when the
primary key, the unique name or the unique slug is taken. -/
def Create (w : World) (category : Category) (s : State) : Except Err (State × Category) :=
  match w.fault .categoryCreate with
  | some e => .error (.other e)
  | none =>
    let c := { Category.BeforeCreate w category with
      CreatedAt := stamp (w.clock .rowCreate) category.CreatedAt,
      UpdatedAt := stamp (w.clock .rowCreate) category.UpdatedAt }
    if s.categories.any (fun r =>
        decide (r.ID = c.ID) || decide (r.Name = c.Name) || decide (r.Slug = c.Slug)) then
      .error (.other "duplicate key value violates unique constraint")
    else .ok ({ s with categories := s.categories ++ [c] }, c)

/-- The method `CategoryRepository.GetByID`. -/
def GetByID (w : World) (id : UUID) (s : State) : Except Err Category :=
  match w.fault .categoryGetByID with
  | some e => .error (.other e)
  | none =>
    match firstRow Category.ID (fun c => decide (c.ID = id)) s.categories with
    | some c => .ok c
    | none => .error .ErrRecordNotFound

/-- The method `CategoryRepository.GetBySlug`. -/
def GetBySlug (w : World) (slug : String) (s : State) : Except Err Category :=
  match w.fault .categoryGetBySlug with
  | some e => .error (.other e)
  | none =>
    match firstRow Category.ID (fun c => decide (c.Slug = slug)) s.categories with
    | some c => .ok c
    | none => .error .ErrRecordNotFound

/-- The method `CategoryRepository.Update` (`db.Save`): a value with a zero
primary key is created; otherwise the update time is stamped and every column
of the rows with the primary key is overwritten, and when no row has that key
the row is inserted.  Rejected when another row has the name or the slug. -/
def Update (w : World) (category : Category) (s : State) : Except Err (State × Category) :=
  match w.fault .categoryUpdate with
  | some e => .error (.other e)
  | none =>
    let c := { category with UpdatedAt := w.clock .rowUpdate }
    if category.ID = UUIDNil then Create { w with fault := fun _ => none } category s
    else if s.categories.any (fun r =>
        decide (r.ID ≠ c.ID) && (decide (r.Name = c.Name) || decide (r.Slug = c.Slug))) then
      .error (.other "duplicate key value violates unique constraint")
    else if s.categories.any (fun r => decide (r.ID = c.ID)) then
      .ok ({ s with categories := s.categories.map (fun r => if r.ID = c.ID then c else r) }, c)
    else .ok ({ s with categories := s.categories ++ [c] }, c)

/-- The method `CategoryRepository.Delete`. -/
def Delete (w : World) (id : UUID) (s : State) : Except Err State :=
  match w.fault .categoryDelete with
  | some e => .error (.other e)
  | none => .ok { s with categories := s.categories.filter (fun r => decide (r.ID ≠ id)) }

end CategoryRepository

/-- The method `CategoryRepository.List`: every row, in the order of the table. -/
def CategoryRepository.List (w : World) (s : State) : Except Err (Slice Category) :=
  match w.fault .categoryList with
  | some e => .error (.other e)
  | none => .ok s.categories

/-- The request `services.CreateCategoryRequest`. -/
structure CreateCategoryRequest where
  Name : String
  Description : String
  Slug : String
deriving DecidableEq, Repr

/-- The request `services.UpdateCategoryRequest`. -/
structure UpdateCategoryRequest where
  Name : String
  Description : String
  Slug : String
deriving DecidableEq, Repr

/-- The character class `[a-z0-9-]` of `generateSlug`. -/
def slugChar (c : Char) : Bool :=
  (decide ('a' ≤ c) && decide (c ≤ 'z')) || (decide ('0' ≤ c) && decide (c ≤ '9')) ||
    decide (c = '-')

/-- Replacing every match of `-+` by `-`: a hyphen followed by a hyphen is dropped. -/
def collapseHyphens : List Char → List Char
  | [] => []
  | c :: rest =>
    if c = '-' ∧ rest.head? = some '-' then collapseHyphens rest
    else c :: collapseHyphens rest

/-- The call `strings.Trim(s, "-")`. -/
def trimHyphens (l : List Char) : List Char :=
  ((l.dropWhile (fun c => decide (c = '-'))).reverse.dropWhile
    (fun c => decide (c = '-'))).reverse

/-- The function `generateSlug`. -/
def generateSlug (lib : Lib) (s : String) : String :=
  let s1 := s.data.map lib.toLower
  let s2 := s1.map (fun c => if c = ' ' then '-' else c)
  let s3 := s2.filter (fun c => slugChar c)
  let s4 := collapseHyphens s3
  String.mk (trimHyphens s4)

namespace CategoryService

/-- The response the category service builds from a row. -/
def categoryResponse (c : Category) : CategoryResponse :=
  { ID := c.ID, Name := c.Name, Description := c.Description, Slug := c.Slug,
    CreatedAt := c.CreatedAt, UpdatedAt := c.UpdatedAt }

/-- The method `CategoryService.Create`. -/
def Create (lib : Lib) (w : World) (req : CreateCategoryRequest) (s : State) :
    Except Err CategoryResponse × State :=
  let slug := if req.Slug = "" then generateSlug lib req.Name else req.Slug
  match CategoryRepository.GetBySlug w slug s with
  | .ok _ => (.error (.New "slug already exists"), s)
  | .error e =>
    if e ≠ .ErrRecordNotFound then (.error e, s)
    else
      let category : Category :=
        { ID := UUIDNil, Name := req.Name, Description := req.Description, Slug := slug,
          CreatedAt := zeroTime, UpdatedAt := zeroTime }
      match CategoryRepository.Create w category s with
      | .error e => (.error e, s)
      | .ok (s1, category1) =>
        (.ok (categoryResponse category1), dropError (Cache.Delete w "categories:all" s1) s1)

/-- The field updates of `CategoryService.Update`, with the check of a new slug. -/
def applyUpdate (w : World) (id : UUID) (req : UpdateCategoryRequest) (category : Category)
    (s : State) : Except Err Category :=
  let c1 := if req.Name ≠ "" then { category with Name := req.Name } else category
  let c2 := if req.Description ≠ "" then { c1 with Description := req.Description } else c1
  if req.Slug ≠ "" then
    match CategoryRepository.GetBySlug w req.Slug s with
    | .ok existingCategory =>
      if existingCategory.ID ≠ id then .error (.New "slug already exists")
      else .ok { c2 with Slug := req.Slug }
    | .error e =>
      if e ≠ .ErrRecordNotFound then .error e else .ok { c2 with Slug := req.Slug }
  else .ok c2

/-- The method `CategoryService.Update`. -/
def Update (w : World) (id : UUID) (req : UpdateCategoryRequest) (s : State) :
    Except Err CategoryResponse × State :=
  match CategoryRepository.GetByID w id s with
  | .error e =>
    if e = .ErrRecordNotFound then (.error (.New "category not found"), s) else (.error e, s)
  | .ok category =>
    match applyUpdate w id req category s with
    | .error e => (.error e, s)
    | .ok category1 =>
      match CategoryRepository.Update w category1 s with
      | .error e => (.error e, s)
      | .ok (s1, category2) =>
        (.ok (categoryResponse category2), dropError (Cache.Delete w "categories:all" s1) s1)

/-- The method `CategoryService.Delete`. -/
def Delete (w : World) (id : UUID) (s : State) : Except Err Unit × State :=
  match CategoryRepository.GetByID w id s with
  | .error e =>
    if e = .ErrRecordNotFound then (.error (.New "category not found"), s) else (.error e, s)
  | .ok _ =>
    match CategoryRepository.Delete w id s with
    | .error e => (.error e, s)
    | .ok s1 => (.ok (), dropError (Cache.Delete w "categories:all" s1) s1)

end CategoryService

/-- The method `CategoryService.List`. -/
def CategoryService.List (lib : Lib) (w : World) (s : State) :
    Except Err (Slice CategoryResponse) × State :=
  match Cache.GetJSONAs lib.asCategoryList w "categories:all" s with
  | .ok cachedCategories => (.ok cachedCategories, s)
  | .error _ =>
    match CategoryRepository.List w s with
    | .error e => (.error e, s)
    | .ok categories =>
      let categoryResponses := categories.map CategoryService.categoryResponse
      (.ok categoryResponses,
        dropError (Cache.SetJSON w "categories:all" (.categoryList categoryResponses)
          (1 * 3600000000000) s) s)

/-! ## The routes of the user handler (`routes.go`, `middleware/auth.go`, `handlers/user.go`) -/

/-- The body `utils.Response` together with the status code it is sent with
(the two are always equal); `Data` is the user of a success response. -/
structure Response where
  Code : Nat
  Message : String
  Data : Option UserResponse
deriving DecidableEq, Repr

/-- The keys of the request context that the middleware sets. -/
structure Context where
  user_id : Option UUID
  email : Option String
  role : Option String
deriving DecidableEq, Repr

/-- The method `error.Error`. -/
def Err.Error : Err → String
  | .ErrRecordNotFound => "record not found"
  | .New msg => msg
  | .other msg => msg

namespace utils

/-- The function `utils.SuccessResponse`. -/
def SuccessResponse (data : UserResponse) : Response :=
  { Code := 200, Message := "success", Data := some data }

/-- The function `utils.ErrorResponse`. -/
def ErrorResponse (code : Nat) (message : String) : Response :=
  { Code := code, Message := message, Data := none }

/-- The function `utils.ValidationErrorResponse`. -/
def ValidationErrorResponse (message : String) : Response :=
  { Code := 400, Message := message, Data := none }

/-- The function `utils.UnauthorizedResponse`. -/
def UnauthorizedResponse : Response :=
  { Code := 401, Message := "unauthorized", Data := none }

/-- The function `utils.ForbiddenResponse`. -/
def ForbiddenResponse : Response :=
  { Code := 403, Message := "forbidden", Data := none }

end utils

/-- The call `strings.SplitN(s, " ", 2)` when it yields two parts: the text
before the first space and the text after it. -/
def splitAtSpace (s : String) : Option (String × String) :=
  match s.data.span (fun c => decide (c ≠ ' ')) with
  | (before, _ :: after) => some (String.mk before, String.mk after)
  | (_, []) => none

namespace middleware

/-- The handler `AuthMiddleware`: the context with the claims of the bearer
token, or the response it aborts the request with. -/
def AuthMiddleware (cfg : App) (lib : Lib) (authHeader : String) : Except Response Context :=
  if authHeader = "" then .error utils.UnauthorizedResponse
  else
    match splitAtSpace authHeader with
    | none => .error utils.UnauthorizedResponse
    | some (scheme, token) =>
      if scheme ≠ "Bearer" then .error utils.UnauthorizedResponse
      else
        match utils.ParseToken cfg lib token with
        | .error _ => .error utils.UnauthorizedResponse
        | .ok claims =>
          .ok { user_id := some claims.UserID, email := some claims.Email,
                role := some claims.Role }

/-- The handler `RoleMiddleware(roles...)`: `none` when the request goes on to
the next handler, the response it aborts the request with otherwise. -/
def RoleMiddleware (roles : List String) (c : Context) : Option Response :=
  match c.role with
  | none => some utils.UnauthorizedResponse
  | some roleStr =>
    if roles.any (fun r => decide (r = roleStr)) then none
    else some utils.ForbiddenResponse

end middleware

namespace UserHandler

/-- The test `id != userID.(uuid.UUID) && role.(string) != "admin"` on the keys
of the context; `none` when a type assertion on a missing key panics (the
second assertion is evaluated only when the ids differ). -/
def denied (c : Context) (id : UUID) : Option Bool :=
  match c.user_id with
  | none => none
  | some userID =>
    if id ≠ userID then
      match c.role with
      | none => none
      | some role => some (decide (role ≠ "admin"))
    else some false

/-- The handler `UserHandler.Get` for the path parameter `idParam`; `none` when
the handler panics. -/
def Get (lib : Lib) (w : World) (c : Context) (idParam : String) (s : State) :
    Option Response :=
  match lib.parse idParam with
  | none => some (utils.ValidationErrorResponse "invalid user ID")
  | some id =>
    match denied c id with
    | none => none
    | some true => some utils.ForbiddenResponse
    | some false =>
      match UserService.GetByID w id s with
      | .error e => some (utils.ErrorResponse 400 e.Error)
      | .ok user => some (utils.SuccessResponse user)

/-- The handler `UserHandler.Update`; `body` is what `ShouldBindJSON` makes of
the request body. -/
def Update (lib : Lib) (w : World) (c : Context) (idParam : String)
    (body : Except String UpdateUserRequest) (s : State) : Option Response × State :=
  match lib.parse idParam with
  | none => (some (utils.ValidationErrorResponse "invalid user ID"), s)
  | some id =>
    match denied c id with
    | none => (none, s)
    | some true => (some utils.ForbiddenResponse, s)
    | some false =>
      match body with
      | .error msg => (some (utils.ValidationErrorResponse msg), s)
      | .ok req =>
        match UserService.Update lib w id req s with
        | (.error e, s1) => (some (utils.ErrorResponse 400 e.Error), s1)
        | (.ok user, s1) => (some (utils.SuccessResponse user), s1)

end UserHandler

namespace routes

/-- The route `users.GET("/:id", middleware.RoleMiddleware("admin"), userHandler.Get)`
of the group behind `AuthMiddleware`. -/
def getUser (cfg : App) (lib : Lib) (w : World) (authHeader idParam : String) (s : State) :
    Option Response :=
  match middleware.AuthMiddleware cfg lib authHeader with
  | .error r => some r
  | .ok c =>
    match middleware.RoleMiddleware ["admin"] c with
    | some r => some r
    | none => UserHandler.Get lib w c idParam s

/-- The route `users.PUT("/:id", middleware.RoleMiddleware("admin"), userHandler.Update)`
of the group behind `AuthMiddleware`. -/
def putUser (cfg : App) (lib : Lib) (w : World) (authHeader idParam : String)
    (body : Except String UpdateUserRequest) (s : State) : Option Response × State :=
  match middleware.AuthMiddleware cfg lib authHeader with
  | .error r => (some r, s)
  | .ok c =>
    match middleware.RoleMiddleware ["admin"] c with
    | some r => (some r, s)
    | none => UserHandler.Update lib w c idParam body s

end routes

/-! ## Sequences of calls -/

/-- One call to a service that writes to the users table, the refresh-token
table or the reset grants. -/
inductive Call where
  | Register (req : RegisterRequest)
  | Login (req : LoginRequest)
  | RefreshToken (refreshToken : String)
  | Logout (refreshToken : String)
  | ForgotPassword (req : ForgotPasswordRequest)
  | ResetPassword (req : ResetPasswordRequest)
  | UserUpdate (id : UUID) (req : UpdateUserRequest)
  | UserDelete (id : UUID)
deriving DecidableEq, Repr

/-- The state after one call made in the world `w`. -/
def Call.run (cfg : App) (lib : Lib) (w : World) : Call → State → State
  | .Register req, s => (AuthService.Register cfg lib w req s).2
  | .Login req, s => (AuthService.Login cfg lib w req s).2
  | .RefreshToken t, s => (AuthService.RefreshToken cfg lib w t s).2
  | .Logout t, s => (AuthService.Logout w t s).2
  | .ForgotPassword req, s => (AuthService.ForgotPassword w req s).2
  | .ResetPassword req, s => (AuthService.ResetPassword lib w req s).2
  | .UserUpdate id req, s => (UserService.Update lib w id req s).2
  | .UserDelete id, s => (UserService.Delete w id s).2

/-- The state after a sequence of calls, each made in its own world. -/
def runCalls (cfg : App) (lib : Lib) : List (World × Call) → State → State
  | [], s => s
  | (w, c) :: rest, s => runCalls cfg lib rest (c.run cfg lib w s)

/-- One call to a service: a call of `Call`, or a call to the course service. -/
inductive Op where
  | call (c : Call)
  | CourseCreate (req : CreateCourseRequest)
  | CourseGetByID (id : UUID)
  | CourseUpdate (id : UUID) (req : UpdateCourseRequest)
  | CourseDelete (id : UUID)
deriving DecidableEq, Repr

/-- The state after one service call made in the world `w`. -/
def Op.run (cfg : App) (lib : Lib) (w : World) : Op → State → State
  | .call c, s => c.run cfg lib w s
  | .CourseCreate req, s => (CourseService.Create w req s).2
  | .CourseGetByID id, s => (CourseService.GetByID lib w id s).2
  | .CourseUpdate id req, s => (CourseService.Update w id req s).2
  | .CourseDelete id, s => (CourseService.Delete w id s).2

/-- The state after a sequence of service calls, each made in its own world. -/
def runOps (cfg : App) (lib : Lib) : List (World × Op) → State → State
  | [], s => s
  | (w, op) :: rest, s => runOps cfg lib rest (op.run cfg lib w s)

/-! ## Two concurrent `RefreshToken` calls

Each call is cut at its round trips to the store; a schedule decides which of
the two calls makes the next round trip. -/

/-- How far one `RefreshToken` call has come. -/
inductive RefreshPC where
  /-- Nothing done yet. -/
  | start
  /-- The lookup found the row and the expiry check passed. -/
  | found (token : RefreshToken)
  /-- The owning user is loaded. -/
  | loaded (token : RefreshToken) (user : User)
  /-- The old row is deleted. -/
  | deleted (user : User)
  /-- The call has returned. -/
  | done (result : Except Err TokenResponse)

/-- The next round trip of a `RefreshToken` call: lookup with expiry check, user
load, delete, issue, in the order of `AuthService.RefreshToken`. -/
def refreshStep (cfg : App) (lib : Lib) (w : World) (refreshToken : String) :
    RefreshPC → State → RefreshPC × State
  | .start, s =>
    match RefreshTokenRepository.GetByToken w refreshToken s with
    | .error _ => (.done (.error (.New "invalid refresh token")), s)
    | .ok token =>
      if token.ExpiresAt < w.clock .expiryCheck then
        (.done (.error (.New "refresh token expired")), s)
      else (.found token, s)
  | .found token, s =>
    match UserRepository.GetByID w token.UserID s with
    | .error e => (.done (.error e), s)
    | .ok user => (.loaded token user, s)
  | .loaded token user, s =>
    match RefreshTokenRepository.Delete w token.ID s with
    | .error e => (.done (.error e), s)
    | .ok s1 => (.deleted user, s1)
  | .deleted user, s =>
    (.done (AuthService.generateTokens cfg lib w user s).1,
      (AuthService.generateTokens cfg lib w user s).2)
  | .done r, s => (.done r, s)

/-- Two calls in flight (`pc true` and `pc false`) over one store. -/
structure Race where
  pc : Bool → RefreshPC
  s : State

/-- The call `who` makes its next round trip, in its world `w who`. -/
def raceStep (cfg : App) (lib : Lib) (w : Bool → World) (refreshToken : String)
    (r : Race) (who : Bool) : Race :=
  let next := refreshStep cfg lib (w who) refreshToken (r.pc who) r.s
  { pc := fun b => if b = who then next.1 else r.pc b, s := next.2 }

/-- Both calls start together and make their round trips in the order of the schedule. -/
def race (cfg : App) (lib : Lib) (w : Bool → World) (refreshToken : String)
    (schedule : List Bool) (s : State) : Race :=
  schedule.foldl (raceStep cfg lib w refreshToken) { pc := fun _ => .start, s := s }

/-! ## Sample values -/

/-- A hasher for the examples: the hash of `p` is `p` behind a marker. -/
def demoLib : Lib :=
  { hash := fun _ p => .ok ("$" ++ p)
    check := fun p h => decide (h = "$" ++ p)
    encode := fun c => "header." ++ uuidString c.UserID
    mac := fun _ _ => "signature"
    parse := fun s =>
      ([0x1b4e28ba2fa111d2883f0016d3cca427, 0x6ba7b8109dad11d180b400c04fd430c8] : List UUID).find?
        (fun u => decide (uuidString u = s)) }

/-- Settings for the examples: access tokens live one hour, refresh tokens a day. -/
def demoCfg : App :=
  { Name := "web3-edu", JWTSecret := "secret", TokenExpireTime := 1, RefreshTokenExpireTime := 24 }

/-- A world without failures in which every clock reads `now`. -/
def calmWorld (now : Time) (userID tokenID refreshToken resetToken : UUID) : World :=
  { fault := fun _ => none, clock := fun _ => now, userID := userID, tokenID := tokenID,
    refreshToken := refreshToken, resetToken := resetToken, salt := 0 }

/-- The user Alice of the examples. -/
def alice : User :=
  { ID := 0x1b4e28ba2fa111d2883f0016d3cca427, Email := "a@x.com", PasswordHash := "$secret1",
    FullName := "Alice", Role := "user", ProfilePicture := "", CreatedAt := 1000, UpdatedAt := 1000 }

/-- A refresh token of Alice that expires at instant 5000. -/
def aliceToken : RefreshToken :=
  { ID := 0x7d4448409dc011d1b2455ffdce74fad2, UserID := 0x1b4e28ba2fa111d2883f0016d3cca427,
    Token := "0c3a5c1e-7f5d-4c55-9d5f-2b8a1f6e4a10", ExpiresAt := 5000, CreatedAt := 1000 }

/-- A state with Alice and her one session. -/
def aliceState : State := { users := [alice], refreshTokens := [aliceToken], cache := [] }

/-- A world without failures except that the lookup of a refresh token cannot
reach the store. -/
def lookupDownWorld (now : Time) : World :=
  { fault := fun site =>
      if site = .tokenGetByToken then some "dial tcp: connection refused" else none
    clock := fun _ => now, userID := 0, tokenID := 0, refreshToken := 0, resetToken := 0,
    salt := 0 }

/-- The state `aliceState` with a reset grant for Alice under the reset token
`3f2504e0-4f89-41d3-9a0c-0305e82c3301`, valid until instant 9000. -/
def resetState : State :=
  { aliceState with
    cache := [⟨"reset_token:3f2504e0-4f89-41d3-9a0c-0305e82c3301",
      .strMap [("user_id", uuidString alice.ID), ("email", "a@x.com")], 9000⟩] }

/-- The request that redeems the grant of `resetState`. -/
def resetReq : ResetPasswordRequest :=
  { Token := "3f2504e0-4f89-41d3-9a0c-0305e82c3301", Password := "newpw1" }

/-- A calm world at instant 2000 with fixed fresh identifiers. -/
def world2000 : World :=
  calmWorld 2000 0x2c1d43b83c8f4e7a9f0a5d7e6b4c3a21 0x9c3a5c1e7f5d4c559d5f2b8a1f6e4a11
    0x3f2504e04f8941d39a0c0305e82c3301 0x5a1f0c9e8b7d4a6f9e3d2c1b0a998877

/-- A calm world at instant 6000, after the session of `aliceToken` has expired. -/
def world6000 : World :=
  calmWorld 6000 0x4b1d43b83c8f4e7a9f0a5d7e6b4c3a22 0x8d3a5c1e7f5d4c559d5f2b8a1f6e4a12
    0x6e2504e04f8941d39a0c0305e82c3302 0x7c1f0c9e8b7d4a6f9e3d2c1b0a998878

/-- The empty store and cache. -/
def emptyState : State := { users := [], refreshTokens := [], cache := [] }

/-- The request of example 1 of the spec, registering Alice. -/
def aliceReq : RegisterRequest :=
  { Email := "a@x.com", Password := "secret1", FullName := "Alice", Role := "",
    ProfilePicture := "" }

/-- A request with an explicit role. -/
def adminReq : RegisterRequest :=
  { Email := "root@x.com", Password := "secret2", FullName := "Root", Role := "admin",
    ProfilePicture := "root.png" }

/-- What `Register` answers to `aliceReq` in `world2000`. -/
def aliceResponse : TokenResponse :=
  { AccessToken := "header.2c1d43b8-3c8f-4e7a-9f0a-5d7e6b4c3a21.signature",
    RefreshToken := "3f2504e0-4f89-41d3-9a0c-0305e82c3301", ExpiresAt := 86400000002000,
    User := { ID := 0x2c1d43b83c8f4e7a9f0a5d7e6b4c3a21, Email := "a@x.com", FullName := "Alice",
              Role := "user", ProfilePicture := "" } }

/-- What `Register` answers to `adminReq` in `world6000`. -/
def adminResponse : TokenResponse :=
  { AccessToken := "header.4b1d43b8-3c8f-4e7a-9f0a-5d7e6b4c3a22.signature",
    RefreshToken := "6e2504e0-4f89-41d3-9a0c-0305e82c3302", ExpiresAt := 86400000006000,
    User := { ID := 0x4b1d43b83c8f4e7a9f0a5d7e6b4c3a22, Email := "root@x.com", FullName := "Root",
              Role := "admin", ProfilePicture := "root.png" } }

/-- A second calm world at instant 2000, with its own fresh identifiers. -/
def world2000b : World :=
  calmWorld 2000 0x2c1d43b83c8f4e7a9f0a5d7e6b4c3a2b 0x9c3a5c1e7f5d4c559d5f2b8a1f6e4a1b
    0x3f2504e04f8941d39a0c0305e82c330b 0x5a1f0c9e8b7d4a6f9e3d2c1b0a99887b

/-- The worlds of two concurrent calls at instant 2000. -/
def raceWorlds (b : Bool) : World := if b then world2000 else world2000b

/-- A calm world at instant 2000 in which only the write of a cache key fails. -/
def cacheDownWorld : World :=
  { world2000 with
    fault := fun site => if site = .cacheSet then some "redis: connection refused" else none }

/-- Alice without a session. -/
def aliceAlone : State := { users := [alice], refreshTokens := [], cache := [] }

/-- The request for a reset grant for Alice. -/
def aliceForgot : ForgotPasswordRequest := { Email := "a@x.com" }

/-- A calm world at instant 1000 in which the new user gets the id of `alice`. -/
def world1000 : World :=
  calmWorld 1000 0x1b4e28ba2fa111d2883f0016d3cca427 0x7d4448409dc011d1b2455ffdce74fad2
    0x0c3a5c1e7f5d4c559d5f2b8a1f6e4a10 0x1a1f0c9e8b7d4a6f9e3d2c1b0a998871

/-- What `Register` answers to `aliceReq` in `world1000`. -/
def aliceResponse1000 : TokenResponse :=
  { AccessToken := "header.1b4e28ba-2fa1-11d2-883f-0016d3cca427.signature",
    RefreshToken := "0c3a5c1e-7f5d-4c55-9d5f-2b8a1f6e4a10", ExpiresAt := 86400000001000,
    User := { ID := 0x1b4e28ba2fa111d2883f0016d3cca427, Email := "a@x.com", FullName := "Alice",
              Role := "user", ProfilePicture := "" } }

/-- The state after Alice has registered in `world1000`. -/
def registeredState : State :=
  (AuthService.Register demoCfg demoLib world1000 aliceReq emptyState).2

/-- The state after a reset grant was issued for Alice in `world2000`. -/
def grantedState : State :=
  (AuthService.ForgotPassword world2000 aliceForgot registeredState).2

/-- The request that redeems the grant of `grantedState` with a new password. -/
def grantedReq : ResetPasswordRequest :=
  { Token := uuidString world2000.resetToken, Password := "newpw1" }

/-- The state after Alice has reset her password in `world6000`. -/
def resetDoneState : State :=
  (AuthService.ResetPassword demoLib world6000 grantedReq grantedState).2

/-- The id that the course of the examples gets. -/
def courseA : UUID := 0x5f0c7a2e1b3d4c8e9a6b0d1e2f3a4b5c

/-- A calm world at instant 2000 in which a new course gets the id `courseA`. -/
def worldCourse : World := { world2000 with courseID := courseA }

/-- A request to create a course taught by Alice, priced 49.99. -/
def courseReq : CreateCourseRequest :=
  { Title := "Solidity 101", Description := "Contracts from scratch", Thumbnail := "",
    InstructorID := alice.ID, Price := 0x4048FEB851EB851F, Level := "beginner",
    Duration := 120, Category := "web3" }

/-- A request that changes the title of a course and nothing else. -/
def renameReq : UpdateCourseRequest :=
  { Title := "Solidity 102", Description := "", Thumbnail := "", Price := 0, Level := "",
    Duration := 0, Category := "" }

/-- A request that changes the full name of a user and nothing else. -/
def renameUserReq : UpdateUserRequest :=
  { FullName := "Alice B.", Password := "", ProfilePicture := "" }

/-- The state after the course of `courseReq` was created and then read once
through `GetByID`, which put its projection into the cache. -/
def catalogState : State :=
  runOps demoCfg demoLib
    [(worldCourse, .CourseCreate courseReq), (world2000, .CourseGetByID courseA)] aliceAlone

/-- A calm world at instant 3000 in which only the delete of the key of one
course fails in the cache. -/
def cacheDeleteDownWorld : World :=
  { fault := fun site => if site = .cacheDelete then some "redis: connection refused" else none
    clock := fun _ => 3000, userID := 0, tokenID := 0, refreshToken := 0, resetToken := 0,
    salt := 0 }

/-- A calm world at instant 3000. -/
def world3000 : World :=
  calmWorld 3000 0x6b1d43b83c8f4e7a9f0a5d7e6b4c3a23 0x6d3a5c1e7f5d4c559d5f2b8a1f6e4a13
    0x6f2504e04f8941d39a0c0305e82c3303 0x6c1f0c9e8b7d4a6f9e3d2c1b0a998873

/-- The id of a second course of the examples. -/
def courseB : UUID := 0x7a1c7a2e1b3d4c8e9a6b0d1e2f3a4b5d

/-- A calm world at instant 3000 in which a new course gets the id `courseB`. -/
def worldCourseB : World := { world3000 with courseID := courseB }

/-- A request to create a second course taught by Alice. -/
def courseReqB : CreateCourseRequest :=
  { Title := "Rust for chains", Description := "Ownership first", Thumbnail := "",
    InstructorID := alice.ID, Price := 0, Level := "advanced", Duration := 90,
    Category := "web3" }

/-- The state `catalogState` after the first page of ten was read through
`CourseService.List`, which put the page into the cache. -/
def pagedState : State := (CourseService.List demoLib world2000 1 10 "" catalogState).2

/-- The state `pagedState` after the course of `courseReqB` was created. -/
def grownState : State := (CourseService.Create worldCourseB courseReqB pagedState).2

/-- A calm world at instant 2000 in which a new category gets a fixed id. -/
def worldCategory : World :=
  { world2000 with categoryID := 0x3d0c7a2e1b3d4c8e9a6b0d1e2f3a4b77 }

/-- A request to create a category without a slug. -/
def categoryReq : CreateCategoryRequest :=
  { Name := "Smart Contracts & DeFi", Description := "On-chain finance", Slug := "" }

/-- The category that `categoryReq` creates in `worldCategory`. -/
def categoryRow : Category :=
  { ID := 0x3d0c7a2e1b3d4c8e9a6b0d1e2f3a4b77, Name := "Smart Contracts & DeFi",
    Description := "On-chain finance", Slug := "smart-contracts-defi", CreatedAt := 2000,
    UpdatedAt := 2000 }

/-- The state `aliceAlone` with the category of `categoryRow`, after
`CategoryService.List` has put the list of categories into the cache. -/
def categoryState : State :=
  (CategoryService.List demoLib world2000 { aliceAlone with categories := [categoryRow] }).2

/-- A calm world at instant 3000 in which a new category gets a second fixed id. -/
def worldCategory2 : World :=
  { world3000 with categoryID := 0x4e0c7a2e1b3d4c8e9a6b0d1e2f3a4b78 }

/-- A request to create a second category, with a slug of its own. -/
def categoryReq2 : CreateCategoryRequest :=
  { Name := "NFTs", Description := "", Slug := "nfts" }

/-- A request that renames a category and nothing else. -/
def renameCategoryReq : UpdateCategoryRequest :=
  { Name := "DeFi", Description := "", Slug := "" }

/-- The library of the examples with a token parser that knows two tokens: the
token of Alice, a regular user, and the token of an administrator. -/
def httpLib : Lib :=
  { demoLib with
    parseWithClaims := fun _ t =>
      if t = "token-of-alice" then
        .ok ({ UserID := alice.ID, Email := "a@x.com", Role := "user", ExpiresAt := 9000,
               IssuedAt := 1000, Issuer := "web3-edu" }, true)
      else if t = "token-of-root" then
        .ok ({ UserID := 0x6ba7b8109dad11d180b400c04fd430c8, Email := "root@x.com",
               Role := "admin", ExpiresAt := 9000, IssuedAt := 1000, Issuer := "web3-edu" }, true)
      else .error "token is malformed" }

/-- A request body that changes the full name. -/
def renameBody : Except String UpdateUserRequest := .ok renameUserReq

/-- The context `AuthMiddleware` builds for the token of Alice. -/
def aliceContext : Context :=
  { user_id := some alice.ID, email := some "a@x.com", role := some "user" }

/-- A calm world at instant 2000 in which only the delete of a key fails in the cache. -/
def grantDeleteDownWorld : World :=
  { world2000 with
    fault := fun site =>
      if site = .cacheDelete then some "redis: connection refused" else none }

/-- The state `resetState` after the password of Alice was replaced by the hash
of the password of `resetReq` at instant 2000. -/
def halfResetState : State :=
  { resetState with
    users := [{ alice with PasswordHash := "$newpw1", UpdatedAt := 2000 }] }

/-- A world at instant 3000 in which the store answers and every call to the
cache fails. -/
def cacheOffWorld : World :=
  { world3000 with
    fault := fun site =>
      if site = .cacheGet ∨ site = .cacheSet ∨ site = .cacheDelete ∨ site = .cacheDeleteList ∨
          site = .cacheDeleteFeatured then some "redis: connection refused"
      else none }

/-! ## Invariants of the store -/

/-- The row that `Register` inserts for `req` in the world `w`, given the hash
of the password. -/
def registeredUser (w : World) (req : RegisterRequest) (hashed : String) : User :=
  { ID := w.userID, Email := req.Email, PasswordHash := hashed, FullName := req.FullName,
    Role := if req.Role = "" then "user" else req.Role, ProfilePicture := req.ProfilePicture,
    CreatedAt := w.clock .rowCreate, UpdatedAt := w.clock .rowCreate }

/-- The refresh-token rows of `s2` are rows of `s1`, in their order, followed by
at most one new row, which carries the token string drawn in the world `w` and
shares it with no row kept. -/
def TokensFrom (w : World) (s1 s2 : State) : Prop :=
  ∃ l, l.Sublist s1.refreshTokens ∧
    (s2.refreshTokens = l ∨
      ∃ x, s2.refreshTokens = l ++ [x] ∧ x.Token = uuidString w.refreshToken ∧
        ∀ y ∈ l, y.Token ≠ x.Token)

/-- The signed string that `GenerateToken` returns for `user` in the world `w`. -/
def signedString (cfg : App) (lib : Lib) (w : World) (user : User) : String :=
  lib.encode { UserID := user.ID, Email := user.Email, Role := user.Role,
               ExpiresAt := w.clock .accessExpire + hours cfg.TokenExpireTime,
               IssuedAt := w.clock .accessIssued, Issuer := cfg.Name } ++ "." ++
    lib.mac cfg.JWTSecret
      (lib.encode { UserID := user.ID, Email := user.Email, Role := user.Role,
                    ExpiresAt := w.clock .accessExpire + hours cfg.TokenExpireTime,
                    IssuedAt := w.clock .accessIssued, Issuer := cfg.Name })

/-- The row that `generateTokens` inserts for `user` in the world `w`. -/
def issuedRow (cfg : App) (w : World) (user : User) : RefreshToken :=
  { ID := w.tokenID, UserID := user.ID, Token := uuidString w.refreshToken,
    ExpiresAt := w.clock .refreshExpire + hours cfg.RefreshTokenExpireTime,
    CreatedAt := w.clock .rowCreate }

/-- The projection of a user that the services return. -/
def userView (user : User) : UserResponse :=
  { ID := user.ID, Email := user.Email, FullName := user.FullName, Role := user.Role,
    ProfilePicture := user.ProfilePicture }


/-- The unique constraint on `refresh_tokens.token`. -/
def TokensUnique (s : State) : Prop := (s.refreshTokens.map RefreshToken.Token).Nodup

instance (s : State) : Decidable (TokensUnique s) := by
  unfold TokensUnique; infer_instance

/-- No row of `refresh_tokens` carries the token string `t`. -/
def NoToken (t : String) (s : State) : Prop := ∀ r ∈ s.refreshTokens, r.Token ≠ t

instance (t : String) (s : State) : Decidable (NoToken t s) := by
  unfold NoToken; infer_instance

/-! ## The invariant of two concurrent calls -/

/-- The call has returned a token pair. -/
def RefreshPC.succeeded : RefreshPC → Bool
  | .done (.ok _) => true
  | _ => false

/-- The call has returned the error "invalid refresh token". -/
def RefreshPC.invalid : RefreshPC → Bool
  | .done (.error e) => decide (e = .New "invalid refresh token")
  | _ => false

/-- The call has returned. -/
def RefreshPC.returned : RefreshPC → Bool
  | .done _ => true
  | _ => false

/-- The call has made its delete round trip. -/
def RefreshPC.passed : RefreshPC → Bool
  | .deleted _ => true
  | .done (.ok _) => true
  | _ => false

/-- What a call in flight holds when the row and the user it works on are the
row of the presented token and its owner, and a failure is "invalid refresh token". -/
def RefreshPC.Good (row : RefreshToken) (user : User) : RefreshPC → Prop
  | .start => True
  | .found token => token = row
  | .loaded token u => token = row ∧ u = user
  | .deleted u => u = user
  | .done (.ok _) => True
  | .done (.error e) => e = .New "invalid refresh token"

/-- The invariant of a race of two calls that present the token of `row`, owned
by `user`, started in the state `s`. -/
structure RaceInv (cfg : App) (w : Bool → World) (t : String) (s : State) (row : RefreshToken)
    (user : User) (r : Race) : Prop where
  users : r.s.users = s.users
  good : ∀ b, (r.pc b).Good row user
  shape : ∀ x ∈ r.s.refreshTokens, x ∈ s.refreshTokens ∨
    ∃ b, (r.pc b).succeeded = true ∧ x = issuedRow cfg (w b) user
  untouched : (∀ b, (r.pc b).passed = false) → r.s.refreshTokens = s.refreshTokens
  gone : (∃ b, (r.pc b).passed = true) → ∀ x ∈ r.s.refreshTokens, x.Token ≠ t
  lost : ∀ b, (r.pc b).invalid = true → (r.pc (!b)).passed = true

/-! ## The cache of courses against the store -/

namespace CourseService

/-- What `GetByID` returns when it is answered from the store: the projection of
the loaded course, or the translated error of the load. -/
def fromStore (w : World) (id : UUID) (s : State) : Except Err CourseResponse :=
  match CourseRepository.GetByIDWithLessons w id s with
  | .error e => if e = .ErrRecordNotFound then .error (.New "course not found") else .error e
  | .ok course => .ok (mapCourseToResponse course)

end CourseService

/-- The entry the cache holds under a key: the first one with the key. -/
def cached (key : String) (s : State) : Option CacheEntry :=
  s.cache.find? (fun e => decide (e.key = key))

/-- The user row that `Preload("Instructor")` finds for the id `x`, or the zero user. -/
def lookupUser (x : UUID) (s : State) : User :=
  Option.getD (firstRow User.ID (fun u => decide (u.ID = x)) s.users) zeroUser

/-- A step from `s` to `s2` that leaves courses, lessons and the cache keys of
courses alone, and the instructor a course response shows for every user id
outside `bad`. -/
def AuthFrame (bad : UUID → Prop) (s s2 : State) : Prop :=
  s2.courses = s.courses ∧ s2.lessons = s.lessons ∧
  (∀ id, cached (courseKey id) s2 = cached (courseKey id) s) ∧
  ∀ x, ¬ bad x →
    CourseService.instructorResponse (lookupUser x s2) =
      CourseService.instructorResponse (lookupUser x s)

/-- The primary key of `refresh_tokens`. -/
def TokenIDsUnique (s : State) : Prop := (s.refreshTokens.map RefreshToken.ID).Nodup

instance (s : State) : Decidable (TokenIDsUnique s) := by
  unfold TokenIDsUnique; infer_instance

/-- The primary key of `users`. -/
def UserIDsUnique (s : State) : Prop := (s.users.map User.ID).Nodup

instance (s : State) : Decidable (UserIDsUnique s) := by
  unfold UserIDsUnique; infer_instance

/-! ## What the store alone yields for the cached reads -/

/-- What `CourseService.List` returns when it is answered from the store. -/
def CourseService.listFromStore (lib : Lib) (w : World) (page pageSize : Int)
    (category : String) (s : State) : Except Err (Slice CourseResponse × Int) :=
  let loaded :=
    if category ≠ "" then CourseRepository.ListByCategory lib w category page pageSize s
    else CourseRepository.List lib w page pageSize s
  match loaded with
  | .error e => .error e
  | .ok (courses, count) => .ok (courses.map CourseService.mapCourseToResponse, count)

/-- What `CourseService.GetFeatured` returns when it is answered from the store. -/
def CourseService.featuredFromStore (lib : Lib) (w : World) (s : State) :
    Except Err (Slice CourseResponse) :=
  match CourseRepository.List lib w 1 5 s with
  | .error e => .error e
  | .ok (courses, _) => .ok (courses.map CourseService.mapCourseToResponse)

/-- What `CategoryService.List` returns when it is answered from the store. -/
def CategoryService.listFromStore (w : World) (s : State) :
    Except Err (Slice CategoryResponse) :=
  match CategoryRepository.List w s with
  | .error e => .error e
  | .ok categories => .ok (categories.map CategoryService.categoryResponse)

/-! ## The key of a page, as the specification describes it -/

/-- The normal form `norm(n)` of the specification: `n` cut to a signed 32-bit
value, kept when that is a valid Unicode scalar value (0..0xD7FF or
0xE000..0x10FFFF) and replaced by 0xFFFD otherwise. -/
def keyNorm (n : Int) : Int :=
  if (0 ≤ wrap32 n ∧ wrap32 n ≤ 0xD7FF) ∨ (0xE000 ≤ wrap32 n ∧ wrap32 n ≤ 0x10FFFF) then wrap32 n
  else 0xFFFD

/-- A number that the key spells as the character U+FFFD: cut to 32 bits it is
0xFFFD itself, or it is no valid code point (negative, a surrogate, or above
0x10FFFF). -/
def SpelledReplacement (n : Int) : Prop :=
  wrap32 n = 0xFFFD ∨
    ¬ ((0 ≤ wrap32 n ∧ wrap32 n ≤ 0xD7FF) ∨ (0xE000 ≤ wrap32 n ∧ wrap32 n ≤ 0x10FFFF))

instance (n : Int) : Decidable (SpelledReplacement n) := by
  unfold SpelledReplacement; infer_instance

/-- Two numbers that the key spells alike: they are equal after the cut to 32
bits, or both are spelled as U+FFFD. -/
def SameSpelling (a b : Int) : Prop :=
  wrap32 a = wrap32 b ∨ (SpelledReplacement a ∧ SpelledReplacement b)

instance (a b : Int) : Decidable (SameSpelling a b) := by
  unfold SameSpelling; infer_instance

/-- Slug normal form: only the characters a–z, 0–9 and '-', no '-' at either
end, and no two '-' in a row. -/
def SlugNormal (s : String) : Prop :=
  (∀ c ∈ s.data, slugChar c = true) ∧ s.data.head? ≠ some '-' ∧ s.data.getLast? ≠ some '-' ∧
    s.data.Chain' (fun a b => ¬ (a = '-' ∧ b = '-'))

/-! ## What a mutation leaves in the cache of lists -/

/-- The state `s2` holds no cached list of categories: `CategoryService.List` is
answered from the store, with the projection of the categories the store
holds when the store lookup does not fail. -/
def CategoriesFresh (lib : Lib) (s2 : State) : Prop :=
  cached "categories:all" s2 = none ∧
  ∀ w2, (CategoryService.List lib w2 s2).1 = CategoryService.listFromStore w2 s2 ∧
    (w2.fault .categoryList = none →
      (CategoryService.List lib w2 s2).1 =
        .ok (s2.categories.map CategoryService.categoryResponse))

/-- What the deletes at the end of a course mutation achieve between the state
`s` before the call and the state `s2` after it: no entry is left under
"courses:featured", so `GetFeatured` is answered from the store; the entry of
every page of the list is as before, so a page that the cache answered before
the call is still what `List` returns after it. -/
def ListsAfterMutation (lib : Lib) (s s2 : State) : Prop :=
  cached "courses:featured" s2 = none ∧
  (∀ w2, (CourseService.GetFeatured lib w2 s2).1 = CourseService.featuredFromStore lib w2 s2) ∧
  (∀ page pageSize, cached (listKey page pageSize) s2 = cached (listKey page pageSize) s) ∧
  (∀ w2 page pageSize p,
    Cache.GetJSONAs lib.asCoursePage w2 (listKey page pageSize) s = .ok p →
      (CourseService.List lib w2 page pageSize "" s2).1 = .ok p)
/-! ## Facts about queries -/

theorem firstRow_eq_none {α : Type} (key : α → UUID) (p : α → Bool) (l : List α) :
    firstRow key p l = none ↔ ∀ r ∈ l, p r = false := by
  induction l with
  | nil => simp [firstRow]
  | cons a l ih =>
    by_cases hp : p a = true
    · cases h : firstRow key p l with
      | none => simp [firstRow, hp, h]
      | some r2 =>
        by_cases hk : key r2 < key a <;> simp [firstRow, hp, h, hk]
    · simp only [Bool.not_eq_true] at hp
      simp [firstRow, hp, ih]

theorem firstRow_some {α : Type} (key : α → UUID) (p : α → Bool) (l : List α) (r : α)
    (h : firstRow key p l = some r) : r ∈ l ∧ p r = true := by
  induction l generalizing r with
  | nil => simp [firstRow] at h
  | cons a l ih =>
    by_cases hp : p a = true
    · cases h2 : firstRow key p l with
      | none =>
        simp [firstRow, hp, h2] at h
        subst h; simp [hp]
      | some r2 =>
        by_cases hk : key r2 < key a
        · simp [firstRow, hp, h2, hk] at h
          subst h
          exact ⟨List.mem_cons_of_mem _ (ih r2 h2).1, (ih r2 h2).2⟩
        · simp [firstRow, hp, h2, hk] at h
          subst h; simp [hp]
    · simp only [Bool.not_eq_true] at hp
      simp [firstRow, hp] at h
      exact ⟨List.mem_cons_of_mem _ (ih r h).1, (ih r h).2⟩

theorem GetByToken_ok {w : World} {t : String} {s : State} {r : RefreshToken}
    (h : RefreshTokenRepository.GetByToken w t s = .ok r) :
    w.fault .tokenGetByToken = none ∧ r ∈ s.refreshTokens ∧ r.Token = t := by
  unfold RefreshTokenRepository.GetByToken at h
  cases hf : w.fault .tokenGetByToken with
  | some e => simp [hf] at h
  | none =>
    simp only [hf] at h
    cases hq : firstRow RefreshToken.ID (fun r => decide (r.Token = t)) s.refreshTokens with
    | none => simp [hq] at h
    | some r2 =>
      simp [hq] at h
      subst h
      have := firstRow_some _ _ _ _ hq
      simpa using this

theorem GetByToken_of_noToken (w : World) (t : String) (s : State) (h : NoToken t s) :
    ∃ e, RefreshTokenRepository.GetByToken w t s = .error e := by
  unfold RefreshTokenRepository.GetByToken
  cases hf : w.fault .tokenGetByToken with
  | some e => exact ⟨_, rfl⟩
  | none =>
    have : firstRow RefreshToken.ID (fun r => decide (r.Token = t)) s.refreshTokens = none := by
      rw [firstRow_eq_none]
      intro r hr
      simpa using h r hr
    simp [this]

/-- Without a row for `t`, `RefreshToken t` answers "invalid refresh token" and
leaves the state alone, in every world. -/
theorem RefreshToken_of_noToken (cfg : App) (lib : Lib) (w : World) (t : String) (s : State)
    (h : NoToken t s) :
    AuthService.RefreshToken cfg lib w t s = (.error (.New "invalid refresh token"), s) := by
  obtain ⟨e, he⟩ := GetByToken_of_noToken w t s h
  simp [AuthService.RefreshToken, he]

/-! ## What `generateTokens` does -/

/-- Either `generateTokens` fails with a store or signing error and changes
nothing, or it appends `issuedRow` and returns its token string. -/
theorem generateTokens_cases (cfg : App) (lib : Lib) (w : World) (user : User) (s : State) :
    (∃ m, AuthService.generateTokens cfg lib w user s = (.error (.other m), s)) ∨
    (∃ acc, utils.GenerateToken cfg lib w user.ID user.Email user.Role = .ok acc ∧
      w.fault .tokenCreate = none ∧
      (∀ r ∈ s.refreshTokens, r.ID ≠ w.tokenID ∧ r.Token ≠ uuidString w.refreshToken) ∧
      AuthService.generateTokens cfg lib w user s =
        (.ok { AccessToken := acc, RefreshToken := uuidString w.refreshToken,
               ExpiresAt := w.clock .refreshExpire + hours cfg.RefreshTokenExpireTime,
               User := userView user },
         { s with refreshTokens := s.refreshTokens ++ [issuedRow cfg w user] })) := by
  unfold AuthService.generateTokens
  cases hg : utils.GenerateToken cfg lib w user.ID user.Email user.Role with
  | error e =>
    left
    unfold utils.GenerateToken at hg
    cases hf : w.fault .signToken with
    | none => simp [hf] at hg
    | some m => simp [hf] at hg; subst hg; exact ⟨m, rfl⟩
  | ok acc =>
    simp only [utils.GenerateRefreshToken, RefreshTokenRepository.Create]
    cases hf : w.fault .tokenCreate with
    | some m => left; exact ⟨m, rfl⟩
    | none =>
      simp only [RefreshToken.BeforeCreate, if_true]
      by_cases hd : (s.refreshTokens.any (fun r => decide (r.ID = w.tokenID) ||
          decide (r.Token = uuidString w.refreshToken))) = true
      · left
        refine ⟨"duplicate key value violates unique constraint", ?_⟩
        simp [hd]
      · right
        refine ⟨acc, by trivial, by trivial, ?_, ?_⟩
        · intro r hr
          simp only [List.any_eq_true, not_exists, not_and, Bool.or_eq_true,
            decide_eq_true_eq, not_or] at hd
          exact hd r hr
        · simp [hd, stamp, issuedRow, userView]

/-! ## Which refresh-token rows a call can leave behind -/

theorem tokensFrom_refl (w : World) (s : State) : TokensFrom w s s :=
  ⟨s.refreshTokens, List.Sublist.refl _, Or.inl rfl⟩

theorem tokensFrom_of_sublist (w : World) (s1 s2 : State)
    (h : s2.refreshTokens.Sublist s1.refreshTokens) : TokensFrom w s1 s2 :=
  ⟨s2.refreshTokens, h, Or.inl rfl⟩

theorem tokensFrom_mem {w : World} {s1 s2 : State} (h : TokensFrom w s1 s2) :
    ∀ r ∈ s2.refreshTokens, r ∈ s1.refreshTokens ∨ r.Token = uuidString w.refreshToken := by
  obtain ⟨l, hl, h1 | ⟨x, h1, hx, -⟩⟩ := h
  · intro r hr
    rw [h1] at hr
    exact Or.inl (hl.subset hr)
  · intro r hr
    rw [h1] at hr
    rcases List.mem_append.mp hr with h2 | h2
    · exact Or.inl (hl.subset h2)
    · right; rw [List.mem_singleton.mp h2]; exact hx

/-- A step that keeps rows and adds at most one row with a new token string
keeps the unique constraint on token strings. -/
theorem tokensFrom_unique {w : World} {s1 s2 : State} (hu : TokensUnique s1)
    (h : TokensFrom w s1 s2) : TokensUnique s2 := by
  obtain ⟨l, hl, h1 | ⟨x, h1, -, hx⟩⟩ := h
  · unfold TokensUnique
    rw [h1]
    exact hu.sublist (hl.map _)
  · unfold TokensUnique
    rw [h1, List.map_append, List.map_singleton]
    apply List.Nodup.append (hu.sublist (hl.map _)) (List.nodup_singleton _)
    intro a ha hb
    rw [List.mem_singleton] at hb
    subst hb
    obtain ⟨y, hy, hyx⟩ := List.mem_map.mp ha
    exact hx y hy hyx

theorem generateTokens_tokens (cfg : App) (lib : Lib) (w : World) (user : User) (s s0 : State)
    (h : s.refreshTokens.Sublist s0.refreshTokens) :
    TokensFrom w s0 (AuthService.generateTokens cfg lib w user s).2 := by
  rcases generateTokens_cases cfg lib w user s with ⟨m, hm⟩ | ⟨acc, -, -, hfresh, hok⟩
  · rw [hm]; exact ⟨_, h, Or.inl rfl⟩
  · rw [hok]
    exact ⟨_, h, Or.inr ⟨issuedRow cfg w user, rfl, rfl, fun y hy => (hfresh y hy).2⟩⟩

/-- What a successful `UserRepository.Create` did. -/
theorem userCreate_ok {w : World} {u u1 : User} {s s1 : State}
    (h : UserRepository.Create w u s = .ok (s1, u1)) :
    w.fault .userCreate = none ∧
    (∀ r ∈ s.users, r.ID ≠ u1.ID ∧ r.Email ≠ u1.Email) ∧
    s1 = { s with users := s.users ++ [u1] } ∧
    u1 = { User.BeforeCreate w u with
      CreatedAt := stamp (w.clock .rowCreate) u.CreatedAt,
      UpdatedAt := stamp (w.clock .rowCreate) u.UpdatedAt } := by
  unfold UserRepository.Create at h
  cases hf : w.fault .userCreate with
  | some e => simp [hf] at h
  | none =>
    simp only [hf] at h
    split at h
    · simp at h
    · rename_i hd
      simp only [Except.ok.injEq, Prod.mk.injEq] at h
      obtain ⟨h1, h2⟩ := h
      refine ⟨rfl, ?_, ?_, h2.symm⟩
      · intro r hr
        simp only [List.any_eq_true, not_exists, not_and, Bool.or_eq_true,
          decide_eq_true_eq, not_or] at hd
        rw [← h2]
        exact hd r hr
      · rw [← h1, h2]

theorem userCreate_tokens {w : World} {u u1 : User} {s s1 : State}
    (h : UserRepository.Create w u s = .ok (s1, u1)) : s1.refreshTokens = s.refreshTokens := by
  rw [(userCreate_ok h).2.2.1]

theorem tokenDelete_ok {w : World} {id : UUID} {s s1 : State}
    (h : RefreshTokenRepository.Delete w id s = .ok s1) :
    s1.refreshTokens = s.refreshTokens.filter (fun r => decide (r.ID ≠ id)) ∧
      s1.users = s.users ∧ s1.cache = s.cache := by
  unfold RefreshTokenRepository.Delete at h
  split at h
  · simp at h
  · simp only [Except.ok.injEq] at h
    rw [← h]; exact ⟨rfl, rfl, rfl⟩

theorem userUpdate_frame {w : World} {u u1 : User} {s s1 : State}
    (h : UserRepository.Update w u s = .ok (s1, u1)) :
    s1.refreshTokens = s.refreshTokens ∧ s1.cache = s.cache := by
  unfold UserRepository.Update at h
  cases hf : w.fault .userUpdate with
  | some e => simp [hf] at h
  | none =>
    simp only [hf] at h
    by_cases hz : u.ID = UUIDNil
    · rw [if_pos hz] at h
      rw [(userCreate_ok h).2.2.1]
      exact ⟨rfl, rfl⟩
    · rw [if_neg hz] at h
      split at h
      · simp at h
      · split at h <;>
        · simp only [Except.ok.injEq, Prod.mk.injEq] at h
          rw [← h.1]
          exact ⟨rfl, rfl⟩

theorem userDelete_frame {w : World} {id : UUID} {s s1 : State}
    (h : UserRepository.Delete w id s = .ok s1) :
    s1.refreshTokens = s.refreshTokens ∧ s1.cache = s.cache := by
  unfold UserRepository.Delete at h
  split at h
  · simp at h
  · simp only [Except.ok.injEq] at h
    rw [← h]; exact ⟨rfl, rfl⟩

theorem tokenDeleteByUserID_ok {w : World} {id : UUID} {s s1 : State}
    (h : RefreshTokenRepository.DeleteByUserID w id s = .ok s1) :
    s1 = { s with refreshTokens := s.refreshTokens.filter (fun r => decide (r.UserID ≠ id)) } := by
  unfold RefreshTokenRepository.DeleteByUserID at h
  split at h
  · simp at h
  · simp only [Except.ok.injEq] at h
    rw [← h]

theorem cacheDelete_ok {w : World} {key : String} {s s1 : State}
    (h : Cache.Delete w key s = .ok s1) :
    s1 = { s with cache := s.cache.filter (fun e => decide (e.key ≠ key)) } := by
  unfold Cache.Delete at h
  split at h
  · simp at h
  · simp only [Except.ok.injEq] at h
    rw [← h]

theorem cacheSetJSON_ok {w : World} {key : String} {v : CacheVal} {ttl : Int} {s s1 : State}
    (h : Cache.SetJSON w key v ttl s = .ok s1) :
    s1 = { s with cache := ⟨key, v, w.clock .cacheWrite + ttl⟩ ::
      s.cache.filter (fun e => decide (e.key ≠ key)) } := by
  unfold Cache.SetJSON at h
  split at h
  · simp at h
  · simp only [Except.ok.injEq] at h
    rw [← h]

theorem Register_tokens (cfg : App) (lib : Lib) (w : World) (req : RegisterRequest) (s : State) :
    TokensFrom w s (AuthService.Register cfg lib w req s).2 := by
  simp only [AuthService.Register]
  generalize (if req.Role = "" then "user" else req.Role) = role
  split
  · exact tokensFrom_refl w s
  · split
    · exact tokensFrom_refl w s
    · split
      · exact tokensFrom_refl w s
      · split
        · exact tokensFrom_refl w s
        · rename_i s1 user1 hc
          apply generateTokens_tokens
          rw [userCreate_tokens hc]

theorem Login_tokens (cfg : App) (lib : Lib) (w : World) (req : LoginRequest) (s : State) :
    TokensFrom w s (AuthService.Login cfg lib w req s).2 := by
  simp only [AuthService.Login]
  split
  · split <;> exact tokensFrom_refl w s
  · split
    · exact tokensFrom_refl w s
    · exact generateTokens_tokens cfg lib w _ s s (List.Sublist.refl _)

theorem RefreshToken_tokens (cfg : App) (lib : Lib) (w : World) (t : String) (s : State) :
    TokensFrom w s (AuthService.RefreshToken cfg lib w t s).2 := by
  simp only [AuthService.RefreshToken]
  split
  · exact tokensFrom_refl w s
  · split
    · exact tokensFrom_refl w s
    · split
      · exact tokensFrom_refl w s
      · split
        · exact tokensFrom_refl w s
        · rename_i s1 hd
          apply generateTokens_tokens
          rw [(tokenDelete_ok hd).1]
          exact List.filter_sublist _

theorem Logout_tokens (w : World) (t : String) (s : State) :
    TokensFrom w s (AuthService.Logout w t s).2 := by
  simp only [AuthService.Logout]
  split
  · exact tokensFrom_refl w s
  · split
    · exact tokensFrom_refl w s
    · rename_i s1 hd
      apply tokensFrom_of_sublist
      rw [(tokenDelete_ok hd).1]
      exact List.filter_sublist _

theorem ForgotPassword_tokens (w : World) (req : ForgotPasswordRequest) (s : State) :
    TokensFrom w s (AuthService.ForgotPassword w req s).2 := by
  simp only [AuthService.ForgotPassword]
  split
  · split <;> exact tokensFrom_refl w s
  · split
    · exact tokensFrom_refl w s
    · rename_i s1 hc
      rw [cacheSetJSON_ok hc]
      exact tokensFrom_refl w s

theorem ResetPassword_tokens (lib : Lib) (w : World) (req : ResetPasswordRequest) (s : State) :
    TokensFrom w s (AuthService.ResetPassword lib w req s).2 := by
  simp only [AuthService.ResetPassword]
  split
  · exact tokensFrom_refl w s
  · split
    · exact tokensFrom_refl w s
    · split
      · exact tokensFrom_refl w s
      · split
        · exact tokensFrom_refl w s
        · split
          · exact tokensFrom_refl w s
          · rename_i s1 user1 hu
            have hs1 := userUpdate_frame hu
            split
            · exact tokensFrom_of_sublist w s s1 (by rw [hs1.1])
            · rename_i s2 hc
              have hs2 := cacheDelete_ok hc
              split
              · apply tokensFrom_of_sublist
                rw [hs2, hs1.1]
              · rename_i s3 hd
                apply tokensFrom_of_sublist
                rw [tokenDeleteByUserID_ok hd, hs2]
                simp only [hs1.1]
                exact List.filter_sublist _

theorem UserUpdate_tokens (lib : Lib) (w : World) (id : UUID) (req : UpdateUserRequest)
    (s : State) : TokensFrom w s (UserService.Update lib w id req s).2 := by
  simp only [UserService.Update]
  split
  · split <;> exact tokensFrom_refl w s
  · split
    · exact tokensFrom_refl w s
    · split
      · exact tokensFrom_refl w s
      · rename_i s1 user4 hu
        exact tokensFrom_of_sublist w s s1
          (by rw [(userUpdate_frame hu).1])

theorem UserDelete_tokens (w : World) (id : UUID) (s : State) :
    TokensFrom w s (UserService.Delete w id s).2 := by
  simp only [UserService.Delete]
  split
  · split <;> exact tokensFrom_refl w s
  · split
    · exact tokensFrom_refl w s
    · rename_i s1 hu
      exact tokensFrom_of_sublist w s s1
        (by rw [(userDelete_frame hu).1])

/-- A call leaves behind rows it found and at most rows with the token string
drawn in its world. -/
theorem callRun_tokens (cfg : App) (lib : Lib) (w : World) (c : Call) (s : State) :
    TokensFrom w s (c.run cfg lib w s) := by
  cases c with
  | Register req => exact Register_tokens cfg lib w req s
  | Login req => exact Login_tokens cfg lib w req s
  | RefreshToken t => exact RefreshToken_tokens cfg lib w t s
  | Logout t => exact Logout_tokens w t s
  | ForgotPassword req => exact ForgotPassword_tokens w req s
  | ResetPassword req => exact ResetPassword_tokens lib w req s
  | UserUpdate id req => exact UserUpdate_tokens lib w id req s
  | UserDelete id => exact UserDelete_tokens w id s

/-- The unique constraint on token strings holds after every sequence of calls
made from a state in which it holds, so in every state reached from the empty
store. -/
theorem runCalls_tokensUnique (cfg : App) (lib : Lib) (calls : List (World × Call)) (s : State)
    (h : TokensUnique s) : TokensUnique (runCalls cfg lib calls s) := by
  induction calls generalizing s with
  | nil => exact h
  | cons wc rest ih =>
    obtain ⟨w, c⟩ := wc
    exact ih _ (tokensFrom_unique h (callRun_tokens cfg lib w c s))

theorem runCalls_noToken (cfg : App) (lib : Lib) (t : String) (later : List (World × Call))
    (s : State) (h : NoToken t s) (hfresh : ∀ wc ∈ later, uuidString wc.1.refreshToken ≠ t) :
    NoToken t (runCalls cfg lib later s) := by
  induction later generalizing s with
  | nil => exact h
  | cons wc rest ih =>
    obtain ⟨w, c⟩ := wc
    simp only [runCalls]
    apply ih
    · intro r hr
      rcases tokensFrom_mem (callRun_tokens cfg lib w c s) r hr with h1 | h1
      · exact h r h1
      · rw [h1]; exact hfresh (w, c) (List.mem_cons_self _ _)
    · exact fun wc hwc => hfresh wc (List.mem_cons_of_mem _ hwc)

/-! ## Rotation and logout -/

/-- The path of a successful `RefreshToken`. -/
theorem RefreshToken_ok {cfg : App} {lib : Lib} {w : World} {t : String} {s s1 : State}
    {r : TokenResponse} (h : AuthService.RefreshToken cfg lib w t s = (.ok r, s1)) :
    ∃ row user s0, RefreshTokenRepository.GetByToken w t s = .ok row ∧
      ¬ row.ExpiresAt < w.clock .expiryCheck ∧
      UserRepository.GetByID w row.UserID s = .ok user ∧
      RefreshTokenRepository.Delete w row.ID s = .ok s0 ∧
      AuthService.generateTokens cfg lib w user s0 = (.ok r, s1) := by
  simp only [AuthService.RefreshToken] at h
  split at h
  · simp at h
  · rename_i row hrow
    split at h
    · simp at h
    · rename_i hexp
      split at h
      · simp at h
      · rename_i user huser
        split at h
        · simp at h
        · rename_i s0 hdel
          exact ⟨row, user, s0, hrow, hexp, huser, hdel, h⟩

/-- Under the unique constraint, deleting the row that the lookup of `t` found
leaves no row with the token string `t`. -/
theorem delete_found_noToken {w w2 : World} {t : String} {s s1 : State} {row : RefreshToken}
    (hu : TokensUnique s) (hrow : RefreshTokenRepository.GetByToken w t s = .ok row)
    (hdel : RefreshTokenRepository.Delete w2 row.ID s = .ok s1) : NoToken t s1 := by
  obtain ⟨-, hmem, htok⟩ := GetByToken_ok hrow
  intro r hr hrt
  rw [(tokenDelete_ok hdel).1, List.mem_filter] at hr
  obtain ⟨hr1, hr2⟩ := hr
  have heq : r = row :=
    List.inj_on_of_nodup_map hu hr1 hmem (by rw [hrt, htok])
  simp [heq] at hr2

/-- After a successful `RefreshToken t` whose new token string differs from
`t`, no row carries `t`. -/
theorem RefreshToken_ok_noToken {cfg : App} {lib : Lib} {w : World} {t : String} {s s1 : State}
    {r : TokenResponse} (hu : TokensUnique s)
    (h : AuthService.RefreshToken cfg lib w t s = (.ok r, s1))
    (hfresh : uuidString w.refreshToken ≠ t) : NoToken t s1 := by
  obtain ⟨row, user, s0, hrow, -, -, hdel, hgen⟩ := RefreshToken_ok h
  have h0 : NoToken t s0 := delete_found_noToken hu hrow hdel
  have hfrom := generateTokens_tokens cfg lib w user s0 s0 (List.Sublist.refl _)
  rw [hgen] at hfrom
  intro x hx
  rcases tokensFrom_mem hfrom x hx with h1 | h1
  · exact h0 x h1
  · rw [h1]; exact hfresh

/-- After a `Logout t` whose lookup reached the store, no row carries `t`. -/
theorem Logout_noToken {w : World} {t : String} {s : State} (hu : TokensUnique s)
    (hf : w.fault .tokenGetByToken = none)
    (h : (AuthService.Logout w t s).1 = .ok ()) : NoToken t (AuthService.Logout w t s).2 := by
  simp only [AuthService.Logout] at h ⊢
  split
  · rename_i e he
    intro r hr hrt
    simp only [RefreshTokenRepository.GetByToken, hf] at he
    split at he
    · simp at he
    · rename_i hq
      rw [firstRow_eq_none] at hq
      simpa [hrt] using hq r hr
  · rename_i row hrow
    rw [hrow] at h
    simp only at h
    split
    · rename_i e he
      rw [he] at h
      simp at h
    · rename_i s1 hdel
      exact delete_found_noToken hu hrow hdel

/-- One-time use, apart from a logout whose lookup failed: after a successful
`RefreshToken t`, or after a successful `Logout t` whose lookup reached the
store, `RefreshToken t` answers "invalid refresh token" after any later calls
that draw no refresh token equal to `t`. -/
theorem refresh_token_single_use (cfg : App) (lib : Lib) (w0 w : World) (t : String)
    (s s1 : State) (later : List (World × Call)) (hu : TokensUnique s)
    (hfirst : (∃ r, AuthService.RefreshToken cfg lib w0 t s = (.ok r, s1)) ∨
      (w0.fault .tokenGetByToken = none ∧ AuthService.Logout w0 t s = (.ok (), s1)))
    (hfresh0 : uuidString w0.refreshToken ≠ t)
    (hfresh : ∀ wc ∈ later, uuidString wc.1.refreshToken ≠ t) :
    AuthService.RefreshToken cfg lib w t (runCalls cfg lib later s1) =
      (.error (.New "invalid refresh token"), runCalls cfg lib later s1) := by
  apply RefreshToken_of_noToken
  apply runCalls_noToken _ _ _ _ _ _ hfresh
  rcases hfirst with ⟨r, hr⟩ | ⟨hf, hl⟩
  · exact RefreshToken_ok_noToken hu hr hfresh0
  · have := Logout_noToken hu hf (by rw [hl])
    rw [hl] at this
    exact this

/-- C1, the failing input.  Alice holds a session.  `Logout` is called with her
token while the lookup cannot reach the store: it reports success and keeps the
row, and the next `RefreshToken` with the same token succeeds. -/
theorem logout_failed_lookup_keeps_session :
    AuthService.Logout (lookupDownWorld 2000) aliceToken.Token aliceState = (.ok (), aliceState) ∧
    (AuthService.RefreshToken demoCfg demoLib
      world2000 aliceToken.Token aliceState).1.isOk = true := by
  decide

/-! ## Password reset -/

theorem GetByID_ok {w : World} {id : UUID} {s : State} {u : User}
    (h : UserRepository.GetByID w id s = .ok u) :
    w.fault .userGetByID = none ∧ u ∈ s.users ∧ u.ID = id := by
  unfold UserRepository.GetByID at h
  cases hf : w.fault .userGetByID with
  | some e => simp [hf] at h
  | none =>
    simp only [hf] at h
    split at h
    · rename_i u2 hq
      simp only [Except.ok.injEq] at h
      subst h
      have := firstRow_some _ _ _ _ hq
      simpa using this
    · simp at h

theorem GetByID_error {w : World} {id : UUID} {s : State} {e : Err}
    (h : UserRepository.GetByID w id s = .error e) :
    e = .ErrRecordNotFound ∨ ∃ m, e = .other m := by
  unfold UserRepository.GetByID at h
  split at h
  · simp only [Except.error.injEq] at h
    exact Or.inr ⟨_, h.symm⟩
  · split at h
    · simp at h
    · simp only [Except.error.injEq] at h
      exact Or.inl h.symm

theorem tokenDelete_error {w : World} {id : UUID} {s : State} {e : Err}
    (h : RefreshTokenRepository.Delete w id s = .error e) : ∃ m, e = .other m := by
  unfold RefreshTokenRepository.Delete at h
  split at h
  · simp only [Except.error.injEq] at h
    exact ⟨_, h.symm⟩
  · simp at h

/-- A successful `Update` of a value whose key and email some row already has
keeps the key, the token table and the cache. -/
theorem userUpdate_ok {w : World} {u u1 : User} {s s1 : State}
    (h : UserRepository.Update w u s = .ok (s1, u1))
    (hex : ∃ r ∈ s.users, r.ID = u.ID ∧ r.Email = u.Email) :
    u1 = { u with UpdatedAt := w.clock .rowUpdate } ∧
    s1 = { s with users := s.users.map (fun r => if r.ID = u.ID then u1 else r) } := by
  obtain ⟨r0, hr0, hid, hem⟩ := hex
  unfold UserRepository.Update at h
  cases hf : w.fault .userUpdate with
  | some e => simp [hf] at h
  | none =>
    simp only [hf] at h
    by_cases hz : u.ID = UUIDNil
    · rw [if_pos hz] at h
      have hc := (userCreate_ok h).2.1 r0 hr0
      have h4 := (userCreate_ok h).2.2.2
      exfalso
      apply hc.2
      rw [h4, hem]
      simp only [User.BeforeCreate]
      split <;> rfl
    · rw [if_neg hz] at h
      split at h
      · simp at h
      · split at h
        · simp only [Except.ok.injEq, Prod.mk.injEq] at h
          exact ⟨h.2.symm, by rw [← h.1, ← h.2]⟩
        · rename_i hn
          exfalso
          apply hn
          simp only [List.any_eq_true, decide_eq_true_eq]
          exact ⟨r0, hr0, hid⟩

/-- The path of a successful `ResetPassword`. -/
theorem ResetPassword_ok {lib : Lib} {w : World} {req : ResetPasswordRequest} {s s1 : State}
    (h : AuthService.ResetPassword lib w req s = (.ok (), s1)) :
    ∃ m uid user hashed, Cache.GetJSON w ("reset_token:" ++ req.Token) s = .ok m ∧
      lib.parse (mapGet m "user_id") = some uid ∧
      UserRepository.GetByID w uid s = .ok user ∧
      lib.hash w.salt req.Password = .ok hashed ∧
      s1 = { s with
             users := s.users.map (fun r => if r.ID = uid then
                { user with PasswordHash := hashed, UpdatedAt := w.clock .rowUpdate } else r),
             refreshTokens := s.refreshTokens.filter (fun r => decide (r.UserID ≠ uid)),
             cache := s.cache.filter (fun e => decide (e.key ≠ "reset_token:" ++ req.Token)) } := by
  simp only [AuthService.ResetPassword] at h
  split at h
  · simp at h
  · rename_i m hm
    split at h
    · simp at h
    · rename_i uid huid
      split at h
      · simp at h
      · rename_i user huser
        split at h
        · simp at h
        · rename_i hashed hhash
          split at h
          · simp at h
          · rename_i s2 user1 hupd
            split at h
            · simp at h
            · rename_i s3 hcd
              split at h
              · simp at h
              · rename_i s4 hdu
                obtain ⟨-, hmem, hid⟩ := GetByID_ok huser
                have hup := userUpdate_ok hupd ⟨user, hmem, rfl, rfl⟩
                have hh : lib.hash w.salt req.Password = .ok hashed := by
                  unfold utils.HashPassword at hhash
                  split at hhash
                  · rename_i h' hq
                    simp only [Except.ok.injEq] at hhash
                    rw [hq, hhash]
                  · simp at hhash
                refine ⟨m, uid, user, hashed, hm, huid, huser, hh, ?_⟩
                simp only [Prod.mk.injEq, true_and] at h
                rw [← h, tokenDeleteByUserID_ok hdu, cacheDelete_ok hcd, hup.2, hup.1]
                simp [hid]

/-- C2: after a successful `ResetPassword` carrying the grant of user `u`, a
`RefreshToken` with the token string of any row that `u` owned at that moment
answers "invalid refresh token" (the unique constraint on token strings is
assumed of the state before the reset). -/
theorem reset_password_revokes_sessions (cfg : App) (lib : Lib) (w w2 : World)
    (req : ResetPasswordRequest) (s s1 : State) (m : List (String × String)) (u : User)
    (row : RefreshToken) (hu : TokensUnique s)
    (hok : AuthService.ResetPassword lib w req s = (.ok (), s1))
    (hgrant : Cache.GetJSON w ("reset_token:" ++ req.Token) s = .ok m)
    (huid : lib.parse (mapGet m "user_id") = some u.ID)
    (hrow : row ∈ s.refreshTokens) (hown : row.UserID = u.ID) :
    AuthService.RefreshToken cfg lib w2 row.Token s1 =
      (.error (.New "invalid refresh token"), s1) := by
  apply RefreshToken_of_noToken
  obtain ⟨m2, uid, user, hashed, hm, hp, -, -, hs1⟩ := ResetPassword_ok hok
  rw [hgrant] at hm
  simp only [Except.ok.injEq] at hm
  subst hm
  rw [huid] at hp
  simp only [Option.some.injEq] at hp
  subst hp
  intro r hr hrt
  rw [hs1] at hr
  simp only [List.mem_filter, decide_eq_true_eq] at hr
  have heq : r = row := List.inj_on_of_nodup_map hu hr.1 hrow hrt
  exact hr.2 (by rw [heq, hown])

/-- C3: after a successful `ResetPassword` with the reset token `k`, a repeat
with the same `k` and any password answers "invalid or expired token". -/
theorem reset_token_single_use (lib : Lib) (w w2 : World) (req : ResetPasswordRequest)
    (password2 : String) (s s1 : State)
    (hok : AuthService.ResetPassword lib w req s = (.ok (), s1)) :
    AuthService.ResetPassword lib w2 { Token := req.Token, Password := password2 } s1 =
      (.error (.New "invalid or expired token"), s1) := by
  obtain ⟨m, uid, user, hashed, -, -, -, -, hs1⟩ := ResetPassword_ok hok
  have hget : ∃ e, Cache.GetJSON w2 ("reset_token:" ++ req.Token) s1 = .error e := by
    unfold Cache.GetJSON
    cases hf : w2.fault .cacheGet with
    | some e => exact ⟨_, rfl⟩
    | none =>
      have hnone : s1.cache.find? (fun e => decide (e.key = "reset_token:" ++ req.Token))
          = none := by
        rw [hs1, List.find?_eq_none]
        intro e he
        simp only [List.mem_filter, decide_eq_true_eq] at he
        simpa using he.2
      simp only [hnone]
      exact ⟨_, rfl⟩
  obtain ⟨e, he⟩ := hget
  simp only [AuthService.ResetPassword, he]

/-- C2 at a concrete state: Alice redeems her reset grant and the token of the
session she held is refused afterwards. -/
theorem reset_password_revokes_sessions_witness :
    aliceToken ∈ resetState.refreshTokens ∧
    AuthService.RefreshToken demoCfg demoLib world2000 aliceToken.Token
        (AuthService.ResetPassword demoLib world2000 resetReq resetState).2 =
      (.error (.New "invalid refresh token"),
        (AuthService.ResetPassword demoLib world2000 resetReq resetState).2) :=
  ⟨by decide,
   reset_password_revokes_sessions demoCfg demoLib world2000 world2000 resetReq resetState _
    [("user_id", uuidString alice.ID), ("email", "a@x.com")] alice aliceToken
    (by decide) (by decide) (by decide) (by decide) (by decide) (by decide)⟩

/-- C3 at a concrete state: the reset token of `resetState` works once. -/
theorem reset_token_single_use_witness :
    (AuthService.ResetPassword demoLib world2000 resetReq resetState).1 = .ok () ∧
    AuthService.ResetPassword demoLib world6000 { Token := resetReq.Token, Password := "other" }
        (AuthService.ResetPassword demoLib world2000 resetReq resetState).2 =
      (.error (.New "invalid or expired token"),
        (AuthService.ResetPassword demoLib world2000 resetReq resetState).2) :=
  ⟨by decide,
   reset_token_single_use demoLib world2000 world6000 resetReq "other" resetState _ (by decide)⟩

/-! ## Expiry -/

theorem generateTokens_error {cfg : App} {lib : Lib} {w : World} {user : User} {s : State}
    {e : Err} (h : (AuthService.generateTokens cfg lib w user s).1 = .error e) :
    ∃ m, e = .other m := by
  rcases generateTokens_cases cfg lib w user s with ⟨m, hm⟩ | ⟨acc, -, -, -, hok⟩
  · rw [hm] at h
    simp only [Except.error.injEq] at h
    exact ⟨m, h.symm⟩
  · rw [hok] at h
    simp at h

/-- C4: when the lookup finds a row, `RefreshToken` answers "refresh token
expired" exactly when the stored expiry is strictly before the clock reading,
and on that answer the store and the cache are as before. -/
theorem refresh_token_expiry (cfg : App) (lib : Lib) (w : World) (t : String) (s : State)
    (row : RefreshToken) (h : RefreshTokenRepository.GetByToken w t s = .ok row) :
    ((AuthService.RefreshToken cfg lib w t s).1 = .error (.New "refresh token expired") ↔
      row.ExpiresAt < w.clock .expiryCheck) ∧
    ((AuthService.RefreshToken cfg lib w t s).1 = .error (.New "refresh token expired") →
      (AuthService.RefreshToken cfg lib w t s).2 = s) := by
  have key : (AuthService.RefreshToken cfg lib w t s).1 = .error (.New "refresh token expired") ↔
      row.ExpiresAt < w.clock .expiryCheck := by
    simp only [AuthService.RefreshToken, h]
    by_cases hexp : row.ExpiresAt < w.clock .expiryCheck
    · simp [hexp]
    · simp only [hexp, if_false, iff_false]
      split
      · rename_i e he
        rcases GetByID_error he with h1 | ⟨m, h1⟩ <;> simp [h1]
      · split
        · rename_i e he
          obtain ⟨m, h1⟩ := tokenDelete_error he
          simp [h1]
        · intro hg
          obtain ⟨m, hm⟩ := generateTokens_error hg
          simp at hm
  refine ⟨key, fun hres => ?_⟩
  have hexp := key.mp hres
  simp [AuthService.RefreshToken, h, hexp]

/-- C4 at concrete states: at instant 6000 the token that expired at 5000 is
refused as expired and the row stays; at instant 5000 itself it is accepted. -/
theorem refresh_token_expiry_witness :
    (((AuthService.RefreshToken demoCfg demoLib world6000 aliceToken.Token aliceState).1 =
        .error (.New "refresh token expired") ↔
      aliceToken.ExpiresAt < world6000.clock .expiryCheck) ∧
    ((AuthService.RefreshToken demoCfg demoLib world6000 aliceToken.Token aliceState).1 =
        .error (.New "refresh token expired") →
      (AuthService.RefreshToken demoCfg demoLib world6000 aliceToken.Token aliceState).2 =
        aliceState)) ∧
    (AuthService.RefreshToken demoCfg demoLib world6000 aliceToken.Token aliceState).1 =
      .error (.New "refresh token expired") ∧
    (AuthService.RefreshToken demoCfg demoLib
      (calmWorld 5000 0 0x9c3a5c1e7f5d4c559d5f2b8a1f6e4a11 0x3f2504e04f8941d39a0c0305e82c3301 0)
      aliceToken.Token aliceState).1.isOk = true :=
  ⟨refresh_token_expiry demoCfg demoLib world6000 aliceToken.Token aliceState aliceToken
    (by decide), by decide, by decide⟩

/-! ## Login and registration -/

theorem GetByEmail_notFound {w : World} {email : String} {s : State}
    (hf : w.fault .userGetByEmail = none) (h : ∀ u ∈ s.users, u.Email ≠ email) :
    UserRepository.GetByEmail w email s = .error .ErrRecordNotFound := by
  have hq : firstRow User.ID (fun u => decide (u.Email = email)) s.users = none := by
    rw [firstRow_eq_none]
    intro u hu
    simpa using h u hu
  simp [UserRepository.GetByEmail, hf, hq]

theorem GetByEmail_found {w : World} {email : String} {s : State}
    (hf : w.fault .userGetByEmail = none) (h : ∃ u ∈ s.users, u.Email = email) :
    ∃ u, UserRepository.GetByEmail w email s = .ok u ∧ u ∈ s.users ∧ u.Email = email := by
  cases hq : firstRow User.ID (fun u => decide (u.Email = email)) s.users with
  | none =>
    rw [firstRow_eq_none] at hq
    obtain ⟨u, hu, he⟩ := h
    simpa [he] using hq u hu
  | some u =>
    have := firstRow_some _ _ _ _ hq
    exact ⟨u, by simp [UserRepository.GetByEmail, hf, hq], this.1, by simpa using this.2⟩

theorem GetByEmail_inv {w : World} {email : String} {s : State} :
    (∀ u, UserRepository.GetByEmail w email s = .ok u →
      w.fault .userGetByEmail = none ∧ u ∈ s.users ∧ u.Email = email) ∧
    (UserRepository.GetByEmail w email s = .error .ErrRecordNotFound →
      w.fault .userGetByEmail = none ∧ ∀ u ∈ s.users, u.Email ≠ email) := by
  unfold UserRepository.GetByEmail
  cases hf : w.fault .userGetByEmail with
  | some e => simp
  | none =>
    cases hq : firstRow User.ID (fun u => decide (u.Email = email)) s.users with
    | none =>
      rw [firstRow_eq_none] at hq
      simp only [reduceCtorEq, false_implies, implies_true, true_and]
      intro _ u hu
      simpa using hq u hu
    | some u =>
      have := firstRow_some _ _ _ _ hq
      simp only [Except.ok.injEq, reduceCtorEq, false_implies, and_true, true_and]
      intro u2 h2
      subst h2
      simpa using this

/-- C6: when the lookup of the email reaches the store, `Login` answers the one
error "invalid email or password" both when no user has the email and when the
user found does not verify the password, and in both cases the store and the
cache are as before. -/
theorem login_failures_indistinguishable (cfg : App) (lib : Lib) (w : World)
    (req : LoginRequest) (s : State) (hf : w.fault .userGetByEmail = none) :
    ((∀ u ∈ s.users, u.Email ≠ req.Email) →
      AuthService.Login cfg lib w req s = (.error (.New "invalid email or password"), s)) ∧
    (∀ u, UserRepository.GetByEmail w req.Email s = .ok u →
      utils.CheckPasswordHash lib req.Password u.PasswordHash = false →
      AuthService.Login cfg lib w req s = (.error (.New "invalid email or password"), s)) := by
  constructor
  · intro h
    simp [AuthService.Login, GetByEmail_notFound hf h]
  · intro u hu hc
    simp [AuthService.Login, hu, hc]

/-- C6 at a concrete state: an unknown email and a wrong password for Alice
give the same answer and the same state. -/
theorem login_failures_indistinguishable_witness :
    AuthService.Login demoCfg demoLib world2000 { Email := "nobody@x.com", Password := "secret1" }
        aliceState = (.error (.New "invalid email or password"), aliceState) ∧
    AuthService.Login demoCfg demoLib world2000 { Email := "a@x.com", Password := "wrong" }
        aliceState = (.error (.New "invalid email or password"), aliceState) :=
  ⟨(login_failures_indistinguishable demoCfg demoLib world2000
      { Email := "nobody@x.com", Password := "secret1" } aliceState (by decide)).1 (by decide),
   (login_failures_indistinguishable demoCfg demoLib world2000
      { Email := "a@x.com", Password := "wrong" } aliceState (by decide)).2 alice
      (by decide) (by decide)⟩

/-- The path of a successful `Register`. -/
theorem Register_ok {cfg : App} {lib : Lib} {w : World} {req : RegisterRequest} {s s1 : State}
    {r : TokenResponse} (h : AuthService.Register cfg lib w req s = (.ok r, s1)) :
    ∃ hashed acc, UserRepository.GetByEmail w req.Email s = .error .ErrRecordNotFound ∧
      lib.hash w.salt req.Password = .ok hashed ∧
      (∀ x ∈ s.users, x.ID ≠ w.userID ∧ x.Email ≠ req.Email) ∧
      (∀ x ∈ s.refreshTokens, x.ID ≠ w.tokenID ∧ x.Token ≠ uuidString w.refreshToken) ∧
      s1 = { s with
             users := s.users ++ [registeredUser w req hashed],
             refreshTokens := s.refreshTokens ++ [issuedRow cfg w (registeredUser w req hashed)],
             cache := s.cache } ∧
      r = { AccessToken := acc, RefreshToken := uuidString w.refreshToken,
            ExpiresAt := w.clock .refreshExpire + hours cfg.RefreshTokenExpireTime,
            User := userView (registeredUser w req hashed) } := by
  simp only [AuthService.Register] at h
  split at h
  · simp at h
  · rename_i e he
    split at h
    · simp at h
    · rename_i hnf
      simp only [ne_eq, not_not] at hnf
      subst hnf
      split at h
      · simp at h
      · rename_i hashed hhash
        split at h
        · simp at h
        · rename_i s2 user1 hc
          have hh : lib.hash w.salt req.Password = .ok hashed := by
            unfold utils.HashPassword at hhash
            split at hhash
            · rename_i h' hq
              simp only [Except.ok.injEq] at hhash
              rw [hq, hhash]
            · simp at hhash
          obtain ⟨-, hc2, hc3, hc4⟩ := userCreate_ok hc
          have hu1 : user1 = registeredUser w req hashed := by
            rw [hc4]
            simp [User.BeforeCreate, registeredUser, stamp]
          subst hu1
          rcases generateTokens_cases cfg lib w (registeredUser w req hashed) s2 with
            ⟨m, hm⟩ | ⟨acc, -, -, hfresh, hok⟩
          · rw [hm] at h
            simp at h
          · rw [hok] at h
            simp only [Prod.mk.injEq, Except.ok.injEq] at h
            refine ⟨hashed, acc, he, hh, ?_, ?_, ?_, h.1.symm⟩
            · exact fun x hx => hc2 x hx
            · intro x hx
              apply hfresh
              rw [hc3]
              exact hx
            · rw [← h.2, hc3]

theorem append_dot_ne_empty (a b : String) : a ++ "." ++ b ≠ "" := by
  intro h
  have := congrArg String.length h
  simp only [String.length_append, String.length_empty, Nat.add_eq_zero] at this
  exact absurd this.1.2 (by decide)

theorem uuidString_ne_empty (u : UUID) : uuidString u ≠ "" := by
  intro h
  have := congrArg String.length h
  simp [uuidString, String.length] at this

/-- When signing and the insert do not fail and the drawn identifiers are new,
`generateTokens` succeeds. -/
theorem generateTokens_ok (cfg : App) (lib : Lib) (w : World) (user : User) (s : State)
    (hsign : w.fault .signToken = none) (hcreate : w.fault .tokenCreate = none)
    (hfresh : ∀ r ∈ s.refreshTokens, r.ID ≠ w.tokenID ∧ r.Token ≠ uuidString w.refreshToken) :
    signedString cfg lib w user ≠ "" ∧ AuthService.generateTokens cfg lib w user s =
      (.ok { AccessToken := signedString cfg lib w user,
             RefreshToken := uuidString w.refreshToken,
             ExpiresAt := w.clock .refreshExpire + hours cfg.RefreshTokenExpireTime,
             User := userView user },
       { s with refreshTokens := s.refreshTokens ++ [issuedRow cfg w user] }) := by
  have hd : (s.refreshTokens.any (fun r => decide (r.ID = w.tokenID) ||
      decide (r.Token = uuidString w.refreshToken))) = false := by
    rw [List.any_eq_false]
    intro r hr
    have := hfresh r hr
    simp [this.1, this.2]
  refine ⟨append_dot_ne_empty _ _, ?_⟩
  simp [AuthService.generateTokens, utils.GenerateToken, utils.GenerateRefreshToken,
    RefreshTokenRepository.Create, RefreshToken.BeforeCreate, hsign, hcreate, hd, stamp,
    issuedRow, userView, signedString]

/-- C7: after a successful `Register`, with a hasher that verifies a password
against its own hash and rejects the wrong password `wrong`, in a world without
store failures whose new identifiers are not taken: `Login` with `wrong` answers
"invalid email or password", and `Login` with the registered password returns a
token pair with a non-empty access token and a non-empty refresh token. -/
theorem login_after_register (cfg : App) (lib : Lib) (w0 w1 : World) (req : RegisterRequest)
    (s s1 : State) (r0 : TokenResponse) (wrong : String)
    (hreg : AuthService.Register cfg lib w0 req s = (.ok r0, s1))
    (hverify : ∀ salt p h, lib.hash salt p = .ok h → lib.check p h = true)
    (hwrong : ∀ salt h, lib.hash salt req.Password = .ok h → lib.check wrong h = false)
    (hcalm : ∀ site, w1.fault site = none)
    (hfresh : ∀ r ∈ s1.refreshTokens, r.ID ≠ w1.tokenID ∧ r.Token ≠ uuidString w1.refreshToken) :
    (AuthService.Login cfg lib w1 { Email := req.Email, Password := wrong } s1).1 =
      .error (.New "invalid email or password") ∧
    ∃ r, (AuthService.Login cfg lib w1 { Email := req.Email, Password := req.Password } s1).1 =
        .ok r ∧ r.AccessToken ≠ "" ∧ r.RefreshToken ≠ "" := by
  obtain ⟨hashed, acc, hnf, hh, -, -, hs1, -⟩ := Register_ok hreg
  have hold := (GetByEmail_inv.2 hnf).2
  have hmem : registeredUser w0 req hashed ∈ s1.users := by
    rw [hs1]; simp
  obtain ⟨u, hget, hu, hue⟩ := @GetByEmail_found w1 req.Email s1 (hcalm .userGetByEmail)
    ⟨registeredUser w0 req hashed, hmem, rfl⟩
  have hu2 : u = registeredUser w0 req hashed := by
    rw [hs1] at hu
    simp only [List.mem_append, List.mem_singleton] at hu
    rcases hu with hu | hu
    · exact absurd hue (hold u hu)
    · exact hu
  subst hu2
  constructor
  · simp [AuthService.Login, hget, utils.CheckPasswordHash, registeredUser, hwrong _ _ hh]
  · obtain ⟨hacc, hgen⟩ := generateTokens_ok cfg lib w1 (registeredUser w0 req hashed) s1
      (hcalm .signToken) (hcalm .tokenCreate) hfresh
    refine ⟨{ AccessToken := signedString cfg lib w1 (registeredUser w0 req hashed),
              RefreshToken := uuidString w1.refreshToken,
              ExpiresAt := w1.clock .refreshExpire + hours cfg.RefreshTokenExpireTime,
              User := userView (registeredUser w0 req hashed) },
      ?_, hacc, uuidString_ne_empty w1.refreshToken⟩
    have hc : lib.check req.Password (registeredUser w0 req hashed).PasswordHash = true :=
      hverify _ _ _ hh
    simp only [AuthService.Login, hget, utils.CheckPasswordHash, hc]
    rw [hgen]
    rfl

/-- C7 at a concrete state: example 2 of the spec. -/
theorem login_after_register_witness :
    (AuthService.Register demoCfg demoLib world2000 aliceReq emptyState).1.isOk = true ∧
    (AuthService.Login demoCfg demoLib world6000 { Email := "a@x.com", Password := "wrong" }
      (AuthService.Register demoCfg demoLib world2000 aliceReq emptyState).2).1 =
      .error (.New "invalid email or password") ∧
    ∃ r, (AuthService.Login demoCfg demoLib world6000 { Email := "a@x.com", Password := "secret1" }
      (AuthService.Register demoCfg demoLib world2000 aliceReq emptyState).2).1 = .ok r ∧
      r.AccessToken ≠ "" ∧ r.RefreshToken ≠ "" :=
  ⟨by decide,
   login_after_register demoCfg demoLib world2000 world6000 aliceReq emptyState
    (AuthService.Register demoCfg demoLib world2000 aliceReq emptyState).2
    aliceResponse "wrong" (by decide)
    (by intro salt p h hh; simp [demoLib] at hh ⊢; exact hh.symm)
    (by intro salt h hh; simp [demoLib, aliceReq] at hh ⊢; subst hh; decide)
    (by intro site; rfl) (by decide)⟩

/-- C8: when the lookup of the email reaches the store and a user has the email
of the request, `Register` answers "email already exists" and leaves the store
and the cache as they were; so a `Register` in the state left by a successful
`Register` with the same email gets that answer, whatever its other fields. -/
theorem register_duplicate_email (cfg : App) (lib : Lib) (w : World) (req : RegisterRequest)
    (s : State) (hf : w.fault .userGetByEmail = none) :
    ((∃ u ∈ s.users, u.Email = req.Email) →
      AuthService.Register cfg lib w req s = (.error (.New "email already exists"), s)) ∧
    (∀ (w0 : World) (req0 : RegisterRequest) (s0 : State) (r0 : TokenResponse),
      AuthService.Register cfg lib w0 req0 s0 = (.ok r0, s) → req0.Email = req.Email →
      AuthService.Register cfg lib w req s = (.error (.New "email already exists"), s)) := by
  have first : (∃ u ∈ s.users, u.Email = req.Email) →
      AuthService.Register cfg lib w req s = (.error (.New "email already exists"), s) := by
    intro hex
    obtain ⟨u, hget, -, -⟩ := GetByEmail_found hf hex
    simp [AuthService.Register, hget]
  refine ⟨first, fun w0 req0 s0 r0 hreg hemail => first ?_⟩
  obtain ⟨hashed, acc, -, -, -, -, hs, -⟩ := Register_ok hreg
  refine ⟨registeredUser w0 req0 hashed, ?_, hemail⟩
  rw [hs]
  simp

/-- C8 at a concrete state: example 1 of the spec. -/
theorem register_duplicate_email_witness :
    AuthService.Register demoCfg demoLib world2000 aliceReq emptyState =
      (.ok aliceResponse, (AuthService.Register demoCfg demoLib world2000 aliceReq emptyState).2) ∧
    AuthService.Register demoCfg demoLib world6000
        { Email := "a@x.com", Password := "other", FullName := "Bob", Role := "admin",
          ProfilePicture := "" }
        (AuthService.Register demoCfg demoLib world2000 aliceReq emptyState).2 =
      (.error (.New "email already exists"),
        (AuthService.Register demoCfg demoLib world2000 aliceReq emptyState).2) :=
  ⟨by decide,
   (register_duplicate_email demoCfg demoLib world6000
      { Email := "a@x.com", Password := "other", FullName := "Bob", Role := "admin",
        ProfilePicture := "" }
      (AuthService.Register demoCfg demoLib world2000 aliceReq emptyState).2 (by decide)).2
      world2000 aliceReq emptyState aliceResponse (by decide) (by decide)⟩

/-- C9: a successful `Register` stores on the one user row it adds, and returns
in the user view, the role "user" when the role of the request is empty and the
role of the request otherwise. -/
theorem register_default_role (cfg : App) (lib : Lib) (w : World) (req : RegisterRequest)
    (s s1 : State) (r : TokenResponse)
    (h : AuthService.Register cfg lib w req s = (.ok r, s1)) :
    ∃ u, s1.users = s.users ++ [u] ∧ r.User = userView u ∧
      (req.Role = "" → u.Role = "user" ∧ r.User.Role = "user") ∧
      (req.Role ≠ "" → u.Role = req.Role ∧ r.User.Role = req.Role) := by
  obtain ⟨hashed, acc, -, -, -, -, hs, hr⟩ := Register_ok h
  refine ⟨registeredUser w req hashed, by rw [hs], by rw [hr], ?_, ?_⟩
  · intro he
    rw [hr]
    simp [registeredUser, userView, he]
  · intro he
    rw [hr]
    simp [registeredUser, userView, he]

/-- C9 at concrete states: a request without a role and a request with the role
"admin". -/
theorem register_default_role_witness :
    (∃ u, (AuthService.Register demoCfg demoLib world2000 aliceReq emptyState).2.users =
        emptyState.users ++ [u] ∧ aliceResponse.User = userView u ∧
      (aliceReq.Role = "" → u.Role = "user" ∧ aliceResponse.User.Role = "user") ∧
      (aliceReq.Role ≠ "" → u.Role = aliceReq.Role ∧ aliceResponse.User.Role = aliceReq.Role)) ∧
    (∃ u, (AuthService.Register demoCfg demoLib world6000 adminReq aliceState).2.users =
        aliceState.users ++ [u] ∧ adminResponse.User = userView u ∧
      (adminReq.Role = "" → u.Role = "user" ∧ adminResponse.User.Role = "user") ∧
      (adminReq.Role ≠ "" → u.Role = adminReq.Role ∧ adminResponse.User.Role = adminReq.Role)) ∧
    adminResponse.User.Role = "admin" :=
  ⟨register_default_role demoCfg demoLib world2000 aliceReq emptyState _ aliceResponse
      (by decide),
   register_default_role demoCfg demoLib world6000 adminReq aliceState _ adminResponse
      (by decide),
   by decide⟩

/-- C10: a successful `Register` appends exactly one user row, built from the
email, full name and avatar of the request and the hash of its password, and
exactly one refresh-token row, owned by that user and carrying the refresh
token returned to the caller; the rows that were there stay as they were, and
so does the cache. -/
theorem register_frame (cfg : App) (lib : Lib) (w : World) (req : RegisterRequest)
    (s s1 : State) (r : TokenResponse)
    (h : AuthService.Register cfg lib w req s = (.ok r, s1)) :
    ∃ u row, s1.users = s.users ++ [u] ∧ s1.refreshTokens = s.refreshTokens ++ [row] ∧
      s1.cache = s.cache ∧
      u.Email = req.Email ∧ u.FullName = req.FullName ∧
      u.ProfilePicture = req.ProfilePicture ∧
      lib.hash w.salt req.Password = .ok u.PasswordHash ∧
      (∀ x ∈ s.users, x.ID ≠ u.ID ∧ x.Email ≠ u.Email) ∧
      row.UserID = u.ID ∧ row.Token = r.RefreshToken ∧ r.User.ID = u.ID ∧
      (∀ x ∈ s.refreshTokens, x.ID ≠ row.ID ∧ x.Token ≠ row.Token) := by
  obtain ⟨hashed, acc, -, hh, hu, ht, hs, hr⟩ := Register_ok h
  refine ⟨registeredUser w req hashed, issuedRow cfg w (registeredUser w req hashed),
    by rw [hs], by rw [hs], by rw [hs], rfl, rfl, rfl, hh, hu, rfl, by rw [hr]; rfl,
    by rw [hr]; rfl, ht⟩

/-- C10 at a concrete state: registering a second user next to Alice. -/
theorem register_frame_witness :
    ∃ u row, (AuthService.Register demoCfg demoLib world6000 adminReq aliceState).2.users =
        aliceState.users ++ [u] ∧
      (AuthService.Register demoCfg demoLib world6000 adminReq aliceState).2.refreshTokens =
        aliceState.refreshTokens ++ [row] ∧
      (AuthService.Register demoCfg demoLib world6000 adminReq aliceState).2.cache =
        aliceState.cache ∧
      u.Email = adminReq.Email ∧ u.FullName = adminReq.FullName ∧
      u.ProfilePicture = adminReq.ProfilePicture ∧
      demoLib.hash world6000.salt adminReq.Password = .ok u.PasswordHash ∧
      (∀ x ∈ aliceState.users, x.ID ≠ u.ID ∧ x.Email ≠ u.Email) ∧
      row.UserID = u.ID ∧ row.Token = adminResponse.RefreshToken ∧
      adminResponse.User.ID = u.ID ∧
      (∀ x ∈ aliceState.refreshTokens, x.ID ≠ row.ID ∧ x.Token ≠ row.Token) :=
  register_frame demoCfg demoLib world6000 adminReq aliceState _ adminResponse (by decide)

/-! ## Two concurrent calls -/

/-- Run without interruption, the round trips of `refreshStep` are `RefreshToken`. -/
theorem refreshStep_sequential (cfg : App) (lib : Lib) (w : World) (t : String) (s : State) :
    let r1 := refreshStep cfg lib w t .start s
    let r2 := refreshStep cfg lib w t r1.1 r1.2
    let r3 := refreshStep cfg lib w t r2.1 r2.2
    let r4 := refreshStep cfg lib w t r3.1 r3.2
    r4 = (.done (AuthService.RefreshToken cfg lib w t s).1,
      (AuthService.RefreshToken cfg lib w t s).2) := by
  cases h1 : RefreshTokenRepository.GetByToken w t s with
  | error e => simp [AuthService.RefreshToken, refreshStep, h1]
  | ok token =>
    by_cases hexp : token.ExpiresAt < w.clock .expiryCheck
    · simp [AuthService.RefreshToken, refreshStep, h1, hexp]
    · cases h2 : UserRepository.GetByID w token.UserID s with
      | error e => simp [AuthService.RefreshToken, refreshStep, h1, hexp, h2]
      | ok user =>
        cases h3 : RefreshTokenRepository.Delete w token.ID s with
        | error e => simp [AuthService.RefreshToken, refreshStep, h1, hexp, h2, h3]
        | ok s1 => simp [AuthService.RefreshToken, refreshStep, h1, hexp, h2, h3]

/-- C5, the counterexample: both calls look the token up before either deletes
the row, and both return a token pair. -/
theorem concurrent_refresh_both_succeed :
    ((race demoCfg demoLib raceWorlds aliceToken.Token
        [true, false, true, true, true, false, false, false] aliceState).pc true).succeeded = true ∧
    ((race demoCfg demoLib raceWorlds aliceToken.Token
        [true, false, true, true, true, false, false, false] aliceState).pc false).succeeded = true ∧
    ¬ (((race demoCfg demoLib raceWorlds aliceToken.Token
        [true, false, true, true, true, false, false, false] aliceState).pc true).invalid = true ∨
      ((race demoCfg demoLib raceWorlds aliceToken.Token
        [true, false, true, true, true, false, false, false] aliceState).pc false).invalid = true) := by
  decide

theorem GetByToken_congr (w : World) (t : String) {s1 s2 : State}
    (h : s1.refreshTokens = s2.refreshTokens) :
    RefreshTokenRepository.GetByToken w t s1 = RefreshTokenRepository.GetByToken w t s2 := by
  simp only [RefreshTokenRepository.GetByToken, h]

theorem GetByID_congr (w : World) (id : UUID) {s1 s2 : State} (h : s1.users = s2.users) :
    UserRepository.GetByID w id s1 = UserRepository.GetByID w id s2 := by
  simp only [UserRepository.GetByID, h]

theorem bool_eq_or_eq_not (x b : Bool) : x = b ∨ x = !b := by
  cases x <;> cases b <;> simp

theorem passed_not_invalid (p : RefreshPC) (h : p.passed = true) : p.invalid = false := by
  cases p with
  | done r => cases r <;> simp_all [RefreshPC.passed, RefreshPC.invalid]
  | _ => simp [RefreshPC.invalid]

/-- The invariant after the call `b` has moved to `next` and the state to `s2`,
from what holds of `next`, `s2` and the other call. -/
theorem raceInv_update {cfg : App} {w : Bool → World} {t : String} {s : State}
    {row : RefreshToken} {user : User} {r : Race} (b : Bool) (next : RefreshPC) (s2 : State)
    (h1 : s2.users = s.users) (h2 : next.Good row user) (h2b : (r.pc (!b)).Good row user)
    (h3 : ∀ x ∈ s2.refreshTokens, x ∈ s.refreshTokens ∨
      (next.succeeded = true ∧ x = issuedRow cfg (w b) user) ∨
      ((r.pc (!b)).succeeded = true ∧ x = issuedRow cfg (w (!b)) user))
    (h4 : next.passed = false → (r.pc (!b)).passed = false →
      s2.refreshTokens = s.refreshTokens)
    (h5 : next.passed = true ∨ (r.pc (!b)).passed = true → ∀ x ∈ s2.refreshTokens, x.Token ≠ t)
    (h6 : next.invalid = true → (r.pc (!b)).passed = true)
    (h7 : (r.pc (!b)).invalid = true → next.passed = true) :
    RaceInv cfg w t s row user { pc := fun x => if x = b then next else r.pc x, s := s2 } := by
  have hb : (!b) ≠ b := by cases b <;> simp
  constructor
  · exact h1
  · intro x
    rcases bool_eq_or_eq_not x b with rfl | rfl
    · simpa using h2
    · simpa [hb] using h2b
  · intro x hx
    rcases h3 x hx with h | ⟨h, h'⟩ | ⟨h, h'⟩
    · exact Or.inl h
    · exact Or.inr ⟨b, by simpa using h, h'⟩
    · exact Or.inr ⟨!b, by simpa [hb] using h, h'⟩
  · intro hall
    apply h4
    · simpa using hall b
    · simpa [hb] using hall (!b)
  · rintro ⟨x, hx⟩
    apply h5
    rcases bool_eq_or_eq_not x b with rfl | rfl
    · left; simpa using hx
    · right; simpa [hb] using hx
  · intro x hx
    rcases bool_eq_or_eq_not x b with rfl | rfl
    · simp only [if_true] at hx
      simpa [hb] using h6 hx
    · simp only [hb, if_false] at hx
      simpa using h7 hx

/-- Every round trip of either call keeps the invariant, when the presented
token is valid for both calls, no round trip fails, and the identifiers the two
calls draw are new and differ from each other. -/
theorem raceStep_inv (cfg : App) (lib : Lib) (w : Bool → World) (t : String) (s : State)
    (row : RefreshToken) (user : User) (hu : TokensUnique s)
    (hrow : ∀ b, RefreshTokenRepository.GetByToken (w b) t s = .ok row)
    (hlive : ∀ b, ¬ row.ExpiresAt < (w b).clock .expiryCheck)
    (huser : ∀ b, UserRepository.GetByID (w b) row.UserID s = .ok user)
    (hcalm : ∀ b site, (w b).fault site = none)
    (hfresh : ∀ b, ∀ x ∈ s.refreshTokens,
      x.ID ≠ (w b).tokenID ∧ x.Token ≠ uuidString (w b).refreshToken)
    (hdiff : (w true).tokenID ≠ (w false).tokenID ∧
      uuidString (w true).refreshToken ≠ uuidString (w false).refreshToken)
    (r : Race) (b : Bool) (h : RaceInv cfg w t s row user r) :
    RaceInv cfg w t s row user (raceStep cfg lib w t r b) := by
  obtain ⟨-, hrmem, hrtok⟩ := GetByToken_ok (hrow b)
  have hb : (!b) ≠ b := by cases b <;> simp
  have hbb : (!(!b)) = b := by cases b <;> rfl
  have hnew : ∀ c, uuidString (w c).refreshToken ≠ t := fun c => by
    rw [← hrtok]; exact fun hc => (hfresh c row hrmem).2 hc.symm
  have hshape : (r.pc b).succeeded = false → ∀ x ∈ r.s.refreshTokens, x ∈ s.refreshTokens ∨
      ((r.pc (!b)).succeeded = true ∧ x = issuedRow cfg (w (!b)) user) := by
    intro hs x hx
    rcases h.shape x hx with h1 | ⟨c, hc, hx2⟩
    · exact Or.inl h1
    · rcases bool_eq_or_eq_not c b with rfl | rfl
      · rw [hs] at hc; exact absurd hc (by simp)
      · exact Or.inr ⟨hc, hx2⟩
  have hgood := h.good b
  cases hpc : r.pc b with
  | start =>
    by_cases hp : (r.pc (!b)).passed = true
    · obtain ⟨e, he⟩ := GetByToken_of_noToken (w b) t r.s (h.gone ⟨!b, hp⟩)
      have hstep : refreshStep cfg lib (w b) t .start r.s =
          (.done (.error (.New "invalid refresh token")), r.s) := by
        simp [refreshStep, he]
      simp only [raceStep, hpc, hstep]
      refine raceInv_update b _ r.s h.users rfl (h.good _) ?_ ?_ ?_ ?_ ?_
      · intro x hx
        rcases hshape (by simp [hpc, RefreshPC.succeeded]) x hx with h1 | h1
        · exact Or.inl h1
        · exact Or.inr (Or.inr h1)
      · intro _ h2; rw [hp] at h2; exact absurd h2 (by simp)
      · exact fun _ => h.gone ⟨!b, hp⟩
      · exact fun _ => hp
      · intro h2; rw [passed_not_invalid _ hp] at h2; exact absurd h2 (by simp)
    · simp only [Bool.not_eq_true] at hp
      have hsame : r.s.refreshTokens = s.refreshTokens := by
        apply h.untouched
        intro c
        rcases bool_eq_or_eq_not c b with rfl | rfl
        · simp [hpc, RefreshPC.passed]
        · exact hp
      have hstep : refreshStep cfg lib (w b) t .start r.s = (.found row, r.s) := by
        simp [refreshStep, GetByToken_congr (w b) t hsame, hrow b, hlive b]
      simp only [raceStep, hpc, hstep]
      refine raceInv_update b _ r.s h.users rfl (h.good _) ?_ ?_ ?_ ?_ ?_
      · exact fun x hx => Or.inl (hsame ▸ hx)
      · exact fun _ _ => hsame
      · rintro (h2 | h2)
        · simp [RefreshPC.passed] at h2
        · rw [hp] at h2; exact absurd h2 (by simp)
      · intro h2; simp [RefreshPC.invalid] at h2
      · intro h2
        have := h.lost (!b) h2
        rw [hbb, hpc] at this
        simp [RefreshPC.passed] at this
  | found token =>
    rw [hpc] at hgood
    simp only [RefreshPC.Good] at hgood
    subst hgood
    have hstep : refreshStep cfg lib (w b) t (.found token) r.s = (.loaded token user, r.s) := by
      simp [refreshStep, GetByID_congr (w b) token.UserID h.users, huser b]
    simp only [raceStep, hpc, hstep]
    refine raceInv_update b _ r.s h.users ⟨rfl, rfl⟩ (h.good _) ?_ ?_ ?_ ?_ ?_
    · intro x hx
      rcases hshape (by simp [hpc, RefreshPC.succeeded]) x hx with h1 | h1
      · exact Or.inl h1
      · exact Or.inr (Or.inr h1)
    · intro _ h2
      apply h.untouched
      intro c
      rcases bool_eq_or_eq_not c b with rfl | rfl
      · simp [hpc, RefreshPC.passed]
      · exact h2
    · rintro (h2 | h2)
      · simp [RefreshPC.passed] at h2
      · exact h.gone ⟨!b, h2⟩
    · intro h2; simp [RefreshPC.invalid] at h2
    · intro h2
      have := h.lost (!b) h2
      rw [hbb, hpc] at this
      simp [RefreshPC.passed] at this
  | loaded token u =>
    rw [hpc] at hgood
    simp only [RefreshPC.Good] at hgood
    obtain ⟨rfl, rfl⟩ := hgood
    have hstep : refreshStep cfg lib (w b) t (.loaded token u) r.s =
        (.deleted u, { r.s with refreshTokens :=
          r.s.refreshTokens.filter (fun x => decide (x.ID ≠ token.ID)) }) := by
      simp [refreshStep, RefreshTokenRepository.Delete, hcalm b]
    simp only [raceStep, hpc, hstep]
    refine raceInv_update b _ _ h.users rfl (h.good _) ?_ ?_ ?_ ?_ ?_
    · intro x hx
      rcases hshape (by simp [hpc, RefreshPC.succeeded]) x (List.mem_filter.mp hx).1 with h1 | h1
      · exact Or.inl h1
      · exact Or.inr (Or.inr h1)
    · intro h2; simp [RefreshPC.passed] at h2
    · intro _ x hx hxt
      obtain ⟨hx1, hx2⟩ := List.mem_filter.mp hx
      rcases hshape (by simp [hpc, RefreshPC.succeeded]) x hx1 with h1 | ⟨-, h1⟩
      · have : x = token := List.inj_on_of_nodup_map hu h1 hrmem (by rw [hxt, hrtok])
        simp [this] at hx2
      · rw [h1] at hxt
        exact hnew _ hxt
    · intro h2; simp [RefreshPC.invalid] at h2
    · intro _; rfl
  | deleted u =>
    rw [hpc] at hgood
    simp only [RefreshPC.Good] at hgood
    subst hgood
    have hfr : ∀ x ∈ r.s.refreshTokens,
        x.ID ≠ (w b).tokenID ∧ x.Token ≠ uuidString (w b).refreshToken := by
      intro x hx
      rcases hshape (by simp [hpc, RefreshPC.succeeded]) x hx with h1 | ⟨-, h1⟩
      · exact hfresh b x h1
      · rw [h1]
        cases b
        · exact ⟨hdiff.1, hdiff.2⟩
        · exact ⟨hdiff.1.symm, hdiff.2.symm⟩
    obtain ⟨-, hgen⟩ := generateTokens_ok cfg lib (w b) u r.s (hcalm b _) (hcalm b _) hfr
    have hstep : refreshStep cfg lib (w b) t (.deleted u) r.s =
        (.done (.ok { AccessToken := signedString cfg lib (w b) u,
                      RefreshToken := uuidString (w b).refreshToken,
                      ExpiresAt := (w b).clock .refreshExpire + hours cfg.RefreshTokenExpireTime,
                      User := userView u }),
         { r.s with refreshTokens := r.s.refreshTokens ++ [issuedRow cfg (w b) u] }) := by
      simp [refreshStep, hgen]
    simp only [raceStep, hpc, hstep]
    refine raceInv_update b _ _ h.users trivial (h.good _) ?_ ?_ ?_ ?_ ?_
    · intro x hx
      rcases List.mem_append.mp hx with hx1 | hx1
      · rcases hshape (by simp [hpc, RefreshPC.succeeded]) x hx1 with h1 | h1
        · exact Or.inl h1
        · exact Or.inr (Or.inr h1)
      · exact Or.inr (Or.inl ⟨rfl, List.mem_singleton.mp hx1⟩)
    · intro h2; simp [RefreshPC.passed] at h2
    · intro _ x hx
      rcases List.mem_append.mp hx with hx1 | hx1
      · exact h.gone ⟨b, by simp [hpc, RefreshPC.passed]⟩ x hx1
      · rw [List.mem_singleton.mp hx1]
        exact hnew b
    · intro h2; simp [RefreshPC.invalid] at h2
    · intro _; rfl
  | done res =>
    have hstep : refreshStep cfg lib (w b) t (.done res) r.s = (.done res, r.s) := rfl
    simp only [raceStep, hpc, hstep]
    have hsucc : ∀ x ∈ r.s.refreshTokens, x ∈ s.refreshTokens ∨
        ((RefreshPC.done res).succeeded = true ∧ x = issuedRow cfg (w b) user) ∨
        ((r.pc (!b)).succeeded = true ∧ x = issuedRow cfg (w (!b)) user) := by
      intro x hx
      rcases h.shape x hx with h1 | ⟨c, hc, hx2⟩
      · exact Or.inl h1
      · rcases bool_eq_or_eq_not c b with rfl | rfl
        · exact Or.inr (Or.inl ⟨hpc ▸ hc, hx2⟩)
        · exact Or.inr (Or.inr ⟨hc, hx2⟩)
    refine raceInv_update b _ r.s h.users (hpc ▸ h.good b) (h.good _) hsucc ?_ ?_ ?_ ?_
    · intro h1 h2
      apply h.untouched
      intro c
      rcases bool_eq_or_eq_not c b with rfl | rfl
      · rw [hpc]; exact h1
      · exact h2
    · rintro (h2 | h2)
      · exact h.gone ⟨b, hpc ▸ h2⟩
      · exact h.gone ⟨!b, h2⟩
    · intro h2
      exact h.lost b (hpc ▸ h2)
    · intro h2
      have := h.lost (!b) h2
      rw [hbb, hpc] at this
      exact this

theorem raceInv_foldl (cfg : App) (lib : Lib) (w : Bool → World) (t : String) (s : State)
    (row : RefreshToken) (user : User)
    (hstep : ∀ r b, RaceInv cfg w t s row user r →
      RaceInv cfg w t s row user (raceStep cfg lib w t r b))
    (schedule : List Bool) (r : Race) (h : RaceInv cfg w t s row user r) :
    RaceInv cfg w t s row user (schedule.foldl (raceStep cfg lib w t) r) := by
  induction schedule generalizing r with
  | nil => exact h
  | cons b rest ih => exact ih _ (hstep r b h)

/-- C5 as amended: two calls present the same valid token `t` (found, not
expired, owner present, for both), no round trip fails and the identifiers the
calls draw are new and distinct.  Under every schedule that lets both calls
return, at least one call returns a token pair, and a call that does not
returns "invalid refresh token". -/
theorem concurrent_refresh_outcomes (cfg : App) (lib : Lib) (w : Bool → World) (t : String)
    (s : State) (row : RefreshToken) (user : User) (schedule : List Bool)
    (hu : TokensUnique s)
    (hrow : ∀ b, RefreshTokenRepository.GetByToken (w b) t s = .ok row)
    (hlive : ∀ b, ¬ row.ExpiresAt < (w b).clock .expiryCheck)
    (huser : ∀ b, UserRepository.GetByID (w b) row.UserID s = .ok user)
    (hcalm : ∀ b site, (w b).fault site = none)
    (hfresh : ∀ b, ∀ x ∈ s.refreshTokens,
      x.ID ≠ (w b).tokenID ∧ x.Token ≠ uuidString (w b).refreshToken)
    (hdiff : (w true).tokenID ≠ (w false).tokenID ∧
      uuidString (w true).refreshToken ≠ uuidString (w false).refreshToken)
    (hdone : ∀ b, ((race cfg lib w t schedule s).pc b).returned = true) :
    (∃ b, ((race cfg lib w t schedule s).pc b).succeeded = true) ∧
    ∀ b, ((race cfg lib w t schedule s).pc b).succeeded = true ∨
      ((race cfg lib w t schedule s).pc b).invalid = true := by
  have hinit : RaceInv cfg w t s row user { pc := fun _ => .start, s := s } := by
    constructor
    · rfl
    · intro b; trivial
    · exact fun x hx => Or.inl hx
    · exact fun _ => rfl
    · rintro ⟨b, hb⟩; simp [RefreshPC.passed] at hb
    · intro b hb; simp [RefreshPC.invalid] at hb
  have hinv : RaceInv cfg w t s row user (race cfg lib w t schedule s) :=
    raceInv_foldl cfg lib w t s row user
      (fun r b => raceStep_inv cfg lib w t s row user hu hrow hlive huser hcalm hfresh hdiff r b)
      schedule _ hinit
  have hall : ∀ b, ((race cfg lib w t schedule s).pc b).succeeded = true ∨
      ((race cfg lib w t schedule s).pc b).invalid = true := by
    intro b
    have hg := hinv.good b
    have hd := hdone b
    cases hpc : (race cfg lib w t schedule s).pc b with
    | done res =>
      cases res with
      | ok resp => left; rfl
      | error e =>
        right
        rw [hpc] at hg
        simp only [RefreshPC.Good] at hg
        simp [RefreshPC.invalid, hg]
    | _ => rw [hpc] at hd; simp [RefreshPC.returned] at hd
  refine ⟨?_, hall⟩
  rcases hall true with h1 | h1
  · exact ⟨true, h1⟩
  · have hp := hinv.lost true h1
    rcases hall false with h2 | h2
    · exact ⟨false, h2⟩
    · have := passed_not_invalid _ hp
      simp only [Bool.not_true] at this
      rw [this] at h2
      exact absurd h2 (by simp)

/-- C5 as amended, at a concrete state: run one after the other, the first call
returns a token pair and the second "invalid refresh token". -/
theorem concurrent_refresh_outcomes_witness :
    ((∃ b, ((race demoCfg demoLib raceWorlds aliceToken.Token [true, true, true, true, false]
        aliceState).pc b).succeeded = true) ∧
    ∀ b, ((race demoCfg demoLib raceWorlds aliceToken.Token [true, true, true, true, false]
        aliceState).pc b).succeeded = true ∨
      ((race demoCfg demoLib raceWorlds aliceToken.Token [true, true, true, true, false]
        aliceState).pc b).invalid = true) ∧
    ((race demoCfg demoLib raceWorlds aliceToken.Token [true, true, true, true, false]
        aliceState).pc true).succeeded = true ∧
    ((race demoCfg demoLib raceWorlds aliceToken.Token [true, true, true, true, false]
        aliceState).pc false).invalid = true :=
  ⟨concurrent_refresh_outcomes demoCfg demoLib raceWorlds aliceToken.Token aliceState aliceToken
      alice [true, true, true, true, false] (by decide)
      (by intro b; cases b <;> decide) (by intro b; cases b <;> decide)
      (by intro b; cases b <;> decide) (by intro b site; cases b <;> rfl)
      (by intro b; cases b <;> decide) (by decide) (by intro b; cases b <;> decide),
   by decide, by decide⟩

/-! ## Logout and password reset grants -/

/-- C11: `Logout` with a token string that no row carries returns success and
leaves the state as it was, in every world; and when the first `Logout t`
reaches the store (lookup and delete do not fail, token strings are unique), it
returns success and a second `Logout t`, in any world, returns success and
leaves the state of the first as it is. -/
theorem logout_idempotent (w1 w2 : World) (t : String) (s : State) :
    (NoToken t s → AuthService.Logout w1 t s = (.ok (), s)) ∧
    (TokensUnique s → w1.fault .tokenGetByToken = none → w1.fault .tokenDelete = none →
      (AuthService.Logout w1 t s).1 = .ok () ∧
      AuthService.Logout w2 t (AuthService.Logout w1 t s).2 =
        (.ok (), (AuthService.Logout w1 t s).2)) := by
  have first : ∀ (w : World) (s0 : State), NoToken t s0 →
      AuthService.Logout w t s0 = (.ok (), s0) := by
    intro w s0 h
    obtain ⟨e, he⟩ := GetByToken_of_noToken w t s0 h
    simp [AuthService.Logout, he]
  refine ⟨first w1 s, fun hu hf hd => ?_⟩
  have hok : (AuthService.Logout w1 t s).1 = .ok () := by
    simp only [AuthService.Logout]
    split
    · rfl
    · simp [RefreshTokenRepository.Delete, hd]
  exact ⟨hok, first w2 _ (Logout_noToken hu hf hok)⟩

/-- C11 at a concrete state: Alice logs out twice. -/
theorem logout_idempotent_witness :
    (AuthService.Logout world2000 aliceToken.Token aliceState).1 = .ok () ∧
    (AuthService.Logout world2000 aliceToken.Token aliceState).2 = aliceAlone ∧
    AuthService.Logout world6000 aliceToken.Token
        (AuthService.Logout world2000 aliceToken.Token aliceState).2 =
      (.ok (), (AuthService.Logout world2000 aliceToken.Token aliceState).2) ∧
    AuthService.Logout world2000 aliceToken.Token aliceAlone = (.ok (), aliceAlone) :=
  ⟨((logout_idempotent world2000 world6000 aliceToken.Token aliceState).2
      (by decide) (by decide) (by decide)).1,
   by decide,
   ((logout_idempotent world2000 world6000 aliceToken.Token aliceState).2
      (by decide) (by decide) (by decide)).2,
   (logout_idempotent world2000 world6000 aliceToken.Token aliceAlone).1 (by decide)⟩

/-- C12: when the lookup reaches the store and no user has the email,
`ForgotPassword` returns success and the store and the cache are as before. -/
theorem forgot_password_unknown_email (w : World) (req : ForgotPasswordRequest) (s : State)
    (hf : w.fault .userGetByEmail = none) (h : ∀ u ∈ s.users, u.Email ≠ req.Email) :
    AuthService.ForgotPassword w req s = (.ok (), s) := by
  simp [AuthService.ForgotPassword, GetByEmail_notFound hf h]

/-- C12 at a concrete state: example 4 of the spec. -/
theorem forgot_password_unknown_email_witness :
    AuthService.ForgotPassword world2000 { Email := "unknown@x.com" } aliceState =
      (.ok (), aliceState) :=
  forgot_password_unknown_email world2000 { Email := "unknown@x.com" } aliceState
    (by decide) (by decide)

/-- C13: a successful `ForgotPassword` for the email of the user `u` that the
lookup finds writes one cache entry, under "reset_token:" followed by the
token drawn in this call, holding the id and the email of `u` and expiring one
hour after the write; every other key, every user row and every refresh-token
row is as before. -/
theorem forgot_password_grant (w : World) (req : ForgotPasswordRequest) (s s1 : State)
    (u : User) (hu : UserRepository.GetByEmail w req.Email s = .ok u)
    (h : AuthService.ForgotPassword w req s = (.ok (), s1)) :
    s1 = { s with cache :=
      ⟨"reset_token:" ++ uuidString w.resetToken,
        .strMap [("user_id", uuidString u.ID), ("email", u.Email)],
        w.clock .cacheWrite + 3600000000000⟩ ::
      s.cache.filter (fun e => decide (e.key ≠ "reset_token:" ++ uuidString w.resetToken)) } ∧
    s1.users = s.users ∧ s1.refreshTokens = s.refreshTokens := by
  simp only [AuthService.ForgotPassword, hu] at h
  split at h
  · simp at h
  · rename_i s2 hset
    simp only [Prod.mk.injEq, true_and] at h
    subst h
    have := cacheSetJSON_ok hset
    simp only [one_mul] at this
    rw [this]
    exact ⟨rfl, rfl, rfl⟩

/-- C13 at a concrete state: example 5 of the spec, the grant for Alice. -/
theorem forgot_password_grant_witness :
    (AuthService.ForgotPassword world2000 aliceForgot aliceState).2 =
      { aliceState with cache :=
        ⟨"reset_token:" ++ uuidString world2000.resetToken,
          .strMap [("user_id", uuidString alice.ID), ("email", alice.Email)],
          world2000.clock .cacheWrite + 3600000000000⟩ ::
        (aliceState.cache.filter
          (fun e => decide (e.key ≠ "reset_token:" ++ uuidString world2000.resetToken))) } ∧
    (AuthService.ForgotPassword world2000 aliceForgot aliceState).2.users = aliceState.users ∧
    (AuthService.ForgotPassword world2000 aliceForgot aliceState).2.refreshTokens =
      aliceState.refreshTokens :=
  forgot_password_grant world2000 aliceForgot aliceState _ alice (by decide) (by decide)

/-- C15: when the cache has no entry under "reset_token:" followed by the
token, or the entry it has there has expired, `ResetPassword` answers "invalid
or expired token" and the store and the cache are as before. -/
theorem reset_password_without_grant (lib : Lib) (w : World) (req : ResetPasswordRequest)
    (s : State)
    (h : ∀ e, s.cache.find? (fun e => decide (e.key = "reset_token:" ++ req.Token)) = some e →
      e.expiresAt ≤ w.clock .cacheRead) :
    AuthService.ResetPassword lib w req s = (.error (.New "invalid or expired token"), s) := by
  have hget : ∃ e, Cache.GetJSON w ("reset_token:" ++ req.Token) s = .error e := by
    unfold Cache.GetJSON
    cases hf : w.fault .cacheGet with
    | some m => exact ⟨_, rfl⟩
    | none =>
      cases hq : s.cache.find? (fun e => decide (e.key = "reset_token:" ++ req.Token)) with
      | none => exact ⟨_, rfl⟩
      | some e => simp [h e hq]
  obtain ⟨e, he⟩ := hget
  simp only [AuthService.ResetPassword, he]

/-- C15 at concrete states: a token that was never issued, and the grant of
`resetState` after it has expired at instant 9000. -/
theorem reset_password_without_grant_witness :
    AuthService.ResetPassword demoLib world2000 { Token := "never-issued", Password := "newpw1" }
        resetState = (.error (.New "invalid or expired token"), resetState) ∧
    AuthService.ResetPassword demoLib
        (calmWorld 9000 0 0x9c3a5c1e7f5d4c559d5f2b8a1f6e4a11 0x3f2504e04f8941d39a0c0305e82c3301 0)
        resetReq resetState = (.error (.New "invalid or expired token"), resetState) :=
  ⟨reset_password_without_grant demoLib world2000
      { Token := "never-issued", Password := "newpw1" } resetState (by decide),
   reset_password_without_grant demoLib
      (calmWorld 9000 0 0x9c3a5c1e7f5d4c559d5f2b8a1f6e4a11 0x3f2504e04f8941d39a0c0305e82c3301 0)
      resetReq resetState (by decide)⟩

/-- C18, the failing input.  The lookup of the refresh token cannot reach the
store.  `RefreshToken` answers "invalid refresh token" and `Logout` reports
success; neither returns the error of the store. -/
theorem token_lookup_failure_swallowed :
    RefreshTokenRepository.GetByToken (lookupDownWorld 2000) aliceToken.Token aliceState =
      .error (.other "dial tcp: connection refused") ∧
    AuthService.RefreshToken demoCfg demoLib (lookupDownWorld 2000) aliceToken.Token aliceState =
      (.error (.New "invalid refresh token"), aliceState) ∧
    AuthService.Logout (lookupDownWorld 2000) aliceToken.Token aliceState =
      (.ok (), aliceState) := by
  decide

theorem GetJSON_head (w : World) (key : String) (m : List (String × String)) (exp : Time)
    (rest : List CacheEntry) (s : State) (m2 : List (String × String))
    (hc : s.cache = ⟨key, .strMap m, exp⟩ :: rest) (h : Cache.GetJSON w key s = .ok m2) :
    m2 = m := by
  unfold Cache.GetJSON at h
  split at h
  · simp at h
  · simp only [hc, List.find?_cons_of_pos, decide_True] at h
    split at h
    · simp at h
    · simp only [Except.ok.injEq] at h
      exact h.symm

/-- C16: a user registers with one password; `ForgotPassword` for the email
succeeds and a `ResetPassword` with the token of that grant and a new password
succeeds.  With a hasher that verifies a password against its own hash and
rejects the old password against the hash of the new one, and `uuid.Parse`
reading back the printed id of the user, a `Login` with the old password
answers "invalid email or password" and, in a world without store failures
whose new identifiers are not taken, a `Login` with the new password returns
a token pair. -/
theorem login_after_reset (cfg : App) (lib : Lib) (w0 w1 w2 w3 : World) (req : RegisterRequest)
    (newpw : String) (s s1 s2 s3 : State) (r0 : TokenResponse)
    (hreg : AuthService.Register cfg lib w0 req s = (.ok r0, s1))
    (hforgot : AuthService.ForgotPassword w1 { Email := req.Email } s1 = (.ok (), s2))
    (hreset : AuthService.ResetPassword lib w2
      { Token := uuidString w1.resetToken, Password := newpw } s2 = (.ok (), s3))
    (hparse : lib.parse (uuidString w0.userID) = some w0.userID)
    (hverify : ∀ salt p h, lib.hash salt p = .ok h → lib.check p h = true)
    (hold : ∀ salt h, lib.hash salt newpw = .ok h → lib.check req.Password h = false)
    (hcalm : ∀ site, w3.fault site = none)
    (hfresh : ∀ r ∈ s3.refreshTokens, r.ID ≠ w3.tokenID ∧ r.Token ≠ uuidString w3.refreshToken) :
    (AuthService.Login cfg lib w3 { Email := req.Email, Password := req.Password } s3).1 =
      .error (.New "invalid email or password") ∧
    ∃ r, (AuthService.Login cfg lib w3 { Email := req.Email, Password := newpw } s3).1 =
      .ok r := by
  obtain ⟨hashed, acc, hnf, -, hids, -, hs1, -⟩ := Register_ok hreg
  have hemails := (GetByEmail_inv.2 hnf).2
  -- the grant names the registered user
  have hu1 : s1.users = s.users ++ [registeredUser w0 req hashed] := by rw [hs1]
  have hlook : ∃ u, UserRepository.GetByEmail w1 req.Email s1 = .ok u := by
    cases hg : UserRepository.GetByEmail w1 req.Email s1 with
    | ok u => exact ⟨u, rfl⟩
    | error e =>
      exfalso
      have hfalse : ∀ u ∈ s1.users, u.Email ≠ req.Email := by
        by_cases hne : e = .ErrRecordNotFound
        · subst hne
          exact (GetByEmail_inv.2 hg).2
        · simp [AuthService.ForgotPassword, hg, hne] at hforgot
      exact hfalse (registeredUser w0 req hashed) (by rw [hu1]; simp) rfl
  obtain ⟨u, hu⟩ := hlook
  have hueq : u = registeredUser w0 req hashed := by
    obtain ⟨-, hmem, hem⟩ := GetByEmail_inv.1 u hu
    rw [hu1] at hmem
    rcases List.mem_append.mp hmem with h1 | h1
    · exact absurd hem (hemails u h1)
    · exact List.mem_singleton.mp h1
  obtain ⟨hs2, hs2u, -⟩ := forgot_password_grant w1 { Email := req.Email } s1 s2 u hu hforgot
  obtain ⟨m, uid, user, hashed2, hm, hp, huser, hh2, hs3⟩ := ResetPassword_ok hreset
  have hmeq : m = [("user_id", uuidString u.ID), ("email", u.Email)] :=
    GetJSON_head w2 _ _ _ _ s2 m (by rw [hs2]) hm
  have huid : uid = w0.userID := by
    rw [hmeq, hueq] at hp
    simp only [mapGet, List.find?_cons_of_pos, decide_True, registeredUser] at hp
    rw [hparse] at hp
    exact (Option.some.inj hp).symm
  subst huid
  have huser2 : user = registeredUser w0 req hashed := by
    obtain ⟨-, hmem, hid⟩ := GetByID_ok huser
    rw [hs2u, hu1] at hmem
    rcases List.mem_append.mp hmem with h1 | h1
    · exact absurd hid (hids user h1).1
    · exact List.mem_singleton.mp h1
  have hs3u : s3.users = s.users ++
      [{ registeredUser w0 req hashed with
          PasswordHash := hashed2, UpdatedAt := w2.clock .rowUpdate }] := by
    rw [hs3]
    simp only [hs2u, hu1, List.map_append, List.map_singleton, huser2]
    congr 1
    · conv_rhs => rw [← List.map_id s.users]
      apply List.map_congr_left
      intro x hx
      simp [(hids x hx).1]
    · simp [registeredUser]
  have hfind : ∀ w : World, w.fault .userGetByEmail = none →
      UserRepository.GetByEmail w req.Email s3 =
        .ok { registeredUser w0 req hashed with
          PasswordHash := hashed2, UpdatedAt := w2.clock .rowUpdate } := by
    intro w hw
    obtain ⟨x, hx, hxm, hxe⟩ := @GetByEmail_found w req.Email s3 hw
      ⟨{ registeredUser w0 req hashed with
          PasswordHash := hashed2, UpdatedAt := w2.clock .rowUpdate },
        by rw [hs3u]; simp, rfl⟩
    rw [hs3u] at hxm
    rcases List.mem_append.mp hxm with h1 | h1
    · exact absurd hxe (hemails x h1)
    · rw [hx, List.mem_singleton.mp h1]
  constructor
  · simp [AuthService.Login, hfind w3 (hcalm _), utils.CheckPasswordHash, hold _ _ hh2]
  · obtain ⟨-, hgen⟩ := generateTokens_ok cfg lib w3
      { registeredUser w0 req hashed with
          PasswordHash := hashed2, UpdatedAt := w2.clock .rowUpdate } s3
      (hcalm .signToken) (hcalm .tokenCreate) hfresh
    have hc : lib.check newpw hashed2 = true := hverify _ _ _ hh2
    simp only [AuthService.Login, hfind w3 (hcalm _), utils.CheckPasswordHash, hc]
    rw [hgen]
    exact ⟨_, rfl⟩

/-- C16 at a concrete state: example 5 of the spec. -/
theorem login_after_reset_witness :
    (AuthService.ResetPassword demoLib world6000 grantedReq grantedState).1 = .ok () ∧
    (AuthService.Login demoCfg demoLib world6000 { Email := "a@x.com", Password := "secret1" }
      resetDoneState).1 = .error (.New "invalid email or password") ∧
    ∃ r, (AuthService.Login demoCfg demoLib world6000 { Email := "a@x.com", Password := "newpw1" }
      resetDoneState).1 = .ok r :=
  ⟨by decide,
   login_after_reset demoCfg demoLib world1000 world2000 world6000 world6000 aliceReq "newpw1"
    emptyState registeredState grantedState resetDoneState aliceResponse1000
    (by decide) (by decide) (by decide) (by decide)
    (by intro salt p h hh; simp [demoLib] at hh ⊢; exact hh.symm)
    (by intro salt h hh; simp [demoLib, aliceReq] at hh ⊢; subst hh; decide)
    (by intro site; rfl) (by decide)⟩

/-! ## Which errors reach the caller -/

theorem userCreate_error {w : World} {u : User} {s : State} {e : Err}
    (h : UserRepository.Create w u s = .error e) : ∃ m, e = .other m := by
  simp only [UserRepository.Create] at h
  split at h
  · simp only [Except.error.injEq] at h
    exact ⟨_, h.symm⟩
  · split at h
    · simp only [Except.error.injEq] at h
      exact ⟨_, h.symm⟩
    · simp at h

theorem cacheSetJSON_error {w : World} {key : String} {v : CacheVal} {ttl : Int} {s : State}
    {e : Err} (h : Cache.SetJSON w key v ttl s = .error e) : ∃ m, e = .other m := by
  unfold Cache.SetJSON at h
  split at h
  · simp only [Except.error.injEq] at h
    exact ⟨_, h.symm⟩
  · simp at h

theorem hashPassword_error {lib : Lib} {w : World} {p : String} {e : Err}
    (h : utils.HashPassword lib w p = .error e) : ∃ m, e = .other m := by
  unfold utils.HashPassword at h
  split at h
  · simp at h
  · simp only [Except.error.injEq] at h
    exact ⟨_, h.symm⟩

theorem GetByEmail_error {w : World} {email : String} {s : State} {e : Err}
    (h : UserRepository.GetByEmail w email s = .error e) :
    e = .ErrRecordNotFound ∨ ∃ m, e = .other m := by
  unfold UserRepository.GetByEmail at h
  split at h
  · simp only [Except.error.injEq] at h
    exact Or.inr ⟨_, h.symm⟩
  · split at h
    · simp at h
    · simp only [Except.error.injEq] at h
      exact Or.inl h.symm

/-- The record-not-found error of the store is returned by no path of
`Register`, `Login`, `Logout` and `ForgotPassword`. -/
theorem not_found_translated (cfg : App) (lib : Lib) (w : World) (s : State) :
    (∀ req, (AuthService.Register cfg lib w req s).1 ≠ .error .ErrRecordNotFound) ∧
    (∀ req, (AuthService.Login cfg lib w req s).1 ≠ .error .ErrRecordNotFound) ∧
    (∀ t, (AuthService.Logout w t s).1 ≠ .error .ErrRecordNotFound) ∧
    (∀ req, (AuthService.ForgotPassword w req s).1 ≠ .error .ErrRecordNotFound) := by
  refine ⟨fun req => ?_, fun req => ?_, fun t => ?_, fun req => ?_⟩
  · simp only [AuthService.Register]
    split
    · simp
    · split
      · rename_i hne; simpa using hne
      · split
        · rename_i e he
          obtain ⟨m, rfl⟩ := hashPassword_error he
          simp
        · split
          · rename_i e he
            obtain ⟨m, rfl⟩ := userCreate_error he
            simp
          · intro hg
            obtain ⟨m, hm⟩ := generateTokens_error hg
            simp at hm
  · simp only [AuthService.Login]
    split
    · rename_i e he
      rcases GetByEmail_error he with rfl | ⟨m, rfl⟩ <;> simp
    · split
      · simp
      · intro hg
        obtain ⟨m, hm⟩ := generateTokens_error hg
        simp at hm
  · simp only [AuthService.Logout]
    split
    · simp
    · split
      · rename_i e he
        obtain ⟨m, rfl⟩ := tokenDelete_error he
        simp
      · simp
  · simp only [AuthService.ForgotPassword]
    split
    · rename_i e he
      rcases GetByEmail_error he with rfl | ⟨m, rfl⟩ <;> simp
    · split
      · rename_i e he
        obtain ⟨m, rfl⟩ := cacheSetJSON_error he
        simp
      · simp

/-- C17, the failing input.  A reset grant is issued for Alice and her user row
is deleted; `ResetPassword` with the token of the grant returns the store's
record-not-found error as it is.  So does `RefreshToken` with the token of a
session whose owner's row is gone. -/
theorem raw_not_found_reaches_caller :
    AuthService.ResetPassword demoLib world6000 grantedReq
        (runCalls demoCfg demoLib
          [(world2000, .ForgotPassword aliceForgot), (world6000, .UserDelete alice.ID)]
          aliceAlone) =
      (.error .ErrRecordNotFound,
        runCalls demoCfg demoLib
          [(world2000, .ForgotPassword aliceForgot), (world6000, .UserDelete alice.ID)]
          aliceAlone) ∧
    AuthService.RefreshToken demoCfg demoLib world2000 aliceToken.Token
        { users := [], refreshTokens := [aliceToken], cache := [] } =
      (.error .ErrRecordNotFound, { users := [], refreshTokens := [aliceToken], cache := [] }) := by
  decide

/-! ## Course mutations and the cache -/

theorem find_filter_self (k : String) (l : List CacheEntry) :
    (l.filter (fun e => decide (e.key ≠ k))).find? (fun e => decide (e.key = k)) = none := by
  rw [List.find?_eq_none]
  intro e he
  simp only [List.mem_filter, decide_eq_true_eq] at he
  simpa using he.2

theorem find_filter_none (p q : CacheEntry → Bool) (l : List CacheEntry)
    (h : l.find? p = none) : (l.filter q).find? p = none := by
  rw [List.find?_eq_none] at h ⊢
  exact fun e he => h e (List.mem_filter.mp he).1

theorem cached_dropError_deleteAt (site : Site) (w : World) (k k2 : String) (s : State)
    (h : cached k s = none) : cached k (dropError (Cache.DeleteAt site w k2 s) s) = none := by
  unfold Cache.DeleteAt dropError
  split
  · rename_i s1 hs1
    split at hs1
    · simp at hs1
    · simp only [Except.ok.injEq] at hs1
      subst hs1
      exact find_filter_none _ _ _ h
  · exact h

/-- When the delete of the key of the course does not fail, the cache holds no
entry under that key after the deletes at the end of `Update` and `Delete`. -/
theorem cached_invalidate (w : World) (id : UUID) (s : State)
    (hf : w.fault .cacheDelete = none) :
    cached (courseKey id) (CourseService.invalidate w id s) = none := by
  unfold CourseService.invalidate
  apply cached_dropError_deleteAt
  apply cached_dropError_deleteAt
  simp only [Cache.Delete, hf, dropError, cached, courseKey]
  exact find_filter_self _ _

/-- Without an entry under the key of the course, `GetByID` is answered from the store. -/
theorem GetByID_of_miss (lib : Lib) (w : World) (id : UUID) (s : State)
    (h : cached (courseKey id) s = none) :
    (CourseService.GetByID lib w id s).1 = CourseService.fromStore w id s := by
  have hget : ∃ e, Cache.GetJSONCourse lib w ("course:" ++ uuidString id) s = .error e := by
    unfold Cache.GetJSONCourse
    unfold cached courseKey at h
    split
    · exact ⟨_, rfl⟩
    · simp only [h]
      exact ⟨_, rfl⟩
  obtain ⟨e, he⟩ := hget
  simp only [CourseService.GetByID, he, CourseService.fromStore]
  split
  · split <;> rfl
  · rfl

/-- C19, the counterexample: the delete of the key fails in the cache, `Update`
returns success, the entry written before the update is still there, and the
next `GetByID` returns its old title although the store has the new one. -/
theorem course_update_keeps_entry_when_delete_fails :
    (CourseService.Update cacheDeleteDownWorld courseA renameReq catalogState).1.isOk = true ∧
    (cached (courseKey courseA)
      (CourseService.Update cacheDeleteDownWorld courseA renameReq catalogState).2).isSome = true ∧
    (CourseService.GetByID demoLib world3000 courseA
      (CourseService.Update cacheDeleteDownWorld courseA renameReq catalogState).2).1.map
        CourseResponse.Title = .ok "Solidity 101" ∧
    (CourseService.fromStore world3000 courseA
      (CourseService.Update cacheDeleteDownWorld courseA renameReq catalogState).2).map
        CourseResponse.Title = .ok "Solidity 102" := by
  decide

/-- C19 as amended: when the delete of the key "course:" followed by the id
does not fail in the cache, a successful `CourseService.Update` and a
successful `CourseService.Delete` leave no entry under that key, and the next
`GetByID` of the id is answered from the store. -/
theorem course_mutation_clears_cache (lib : Lib) (w w2 : World) (id : UUID) (s : State)
    (hf : w.fault .cacheDelete = none) :
    (∀ req, (CourseService.Update w id req s).1.isOk = true →
      cached (courseKey id) (CourseService.Update w id req s).2 = none ∧
      (CourseService.GetByID lib w2 id (CourseService.Update w id req s).2).1 =
        CourseService.fromStore w2 id (CourseService.Update w id req s).2) ∧
    ((CourseService.Delete w id s).1.isOk = true →
      cached (courseKey id) (CourseService.Delete w id s).2 = none ∧
      (CourseService.GetByID lib w2 id (CourseService.Delete w id s).2).1 =
        CourseService.fromStore w2 id (CourseService.Delete w id s).2) := by
  constructor
  · intro req hok
    have hc : cached (courseKey id) (CourseService.Update w id req s).2 = none := by
      simp only [CourseService.Update] at hok ⊢
      cases hget : CourseRepository.GetByID w id s with
      | error e =>
        rw [hget] at hok
        by_cases hnf : e = .ErrRecordNotFound <;> simp [hnf, Except.isOk, Except.toBool] at hok
      | ok course =>
        rw [hget] at hok
        simp only at hok ⊢
        cases hupd : CourseRepository.Update w (CourseService.applyUpdate req course) s with
        | error e =>
          rw [hupd] at hok
          simp [Except.isOk, Except.toBool] at hok
        | ok p => exact cached_invalidate w id _ hf
    exact ⟨hc, GetByID_of_miss lib w2 id _ hc⟩
  · intro hok
    have hc : cached (courseKey id) (CourseService.Delete w id s).2 = none := by
      simp only [CourseService.Delete] at hok ⊢
      cases hget : CourseRepository.GetByID w id s with
      | error e =>
        rw [hget] at hok
        by_cases hnf : e = .ErrRecordNotFound <;> simp [hnf, Except.isOk, Except.toBool] at hok
      | ok course =>
        rw [hget] at hok
        simp only at hok ⊢
        cases hdel : CourseRepository.Delete w id s with
        | error e =>
          rw [hdel] at hok
          simp [Except.isOk, Except.toBool] at hok
        | ok s1 => exact cached_invalidate w id _ hf
    exact ⟨hc, GetByID_of_miss lib w2 id _ hc⟩

/-- C19 as amended, at a concrete state: with the cache reachable, the update
and the delete of the cached course leave no entry, and the next `GetByID`
returns the new title, or "course not found". -/
theorem course_mutation_clears_cache_witness :
    (cached (courseKey courseA)
        (CourseService.Update world3000 courseA renameReq catalogState).2 = none ∧
      (CourseService.GetByID demoLib world3000 courseA
        (CourseService.Update world3000 courseA renameReq catalogState).2).1 =
        CourseService.fromStore world3000 courseA
          (CourseService.Update world3000 courseA renameReq catalogState).2) ∧
    (cached (courseKey courseA) (CourseService.Delete world3000 courseA catalogState).2 = none ∧
      (CourseService.GetByID demoLib world3000 courseA
        (CourseService.Delete world3000 courseA catalogState).2).1 =
        CourseService.fromStore world3000 courseA
          (CourseService.Delete world3000 courseA catalogState).2) ∧
    (CourseService.GetByID demoLib world3000 courseA
      (CourseService.Update world3000 courseA renameReq catalogState).2).1.map
        CourseResponse.Title = .ok "Solidity 102" ∧
    (CourseService.GetByID demoLib world3000 courseA
      (CourseService.Delete world3000 courseA catalogState).2).1 =
        .error (.New "course not found") :=
  ⟨(course_mutation_clears_cache demoLib world3000 world3000 courseA catalogState
      (by decide)).1 renameReq (by decide),
   (course_mutation_clears_cache demoLib world3000 world3000 courseA catalogState
      (by decide)).2 (by decide),
   by decide, by decide⟩

/-! ## The cache of courses against the store -/

theorem find_filter_ne (k k2 : String) (l : List CacheEntry) (h : k ≠ k2) :
    (l.filter (fun e => decide (e.key ≠ k2))).find? (fun e => decide (e.key = k)) =
      l.find? (fun e => decide (e.key = k)) := by
  induction l with
  | nil => rfl
  | cons a l ih =>
    by_cases h1 : a.key = k2
    · have h2 : ¬ a.key = k := fun hk => h (hk.symm.trans h1)
      have h3 : (List.filter (fun e => decide (e.key ≠ k2)) (a :: l)) =
          List.filter (fun e => decide (e.key ≠ k2)) l := by
        simp [List.filter, h1]
      rw [h3, ih]
      simp [List.find?, h2]
    · have h3 : (List.filter (fun e => decide (e.key ≠ k2)) (a :: l)) =
          a :: List.filter (fun e => decide (e.key ≠ k2)) l := by
        simp [List.filter, h1]
      rw [h3]
      by_cases h2 : a.key = k
      · simp [List.find?, h2]
      · simp only [List.find?, h2, decide_False]
        exact ih

theorem authFrame_mono {bad bad2 : UUID → Prop} {s s2 : State} (h : ∀ x, bad x → bad2 x)
    (hf : AuthFrame bad s s2) : AuthFrame bad2 s s2 :=
  ⟨hf.1, hf.2.1, hf.2.2.1, fun x hx => hf.2.2.2 x (fun hb => hx (h x hb))⟩

theorem dropError_deleteAt_cases (site : Site) (w : World) (k : String) (s : State) :
    dropError (Cache.DeleteAt site w k s) s = s ∨
    dropError (Cache.DeleteAt site w k s) s =
      { s with cache := s.cache.filter (fun e => decide (e.key ≠ k)) } := by
  unfold Cache.DeleteAt dropError
  cases w.fault site with
  | some e => exact Or.inl rfl
  | none => exact Or.inr rfl

theorem dropError_deleteAt_cached (site : Site) (w : World) (k k2 : String) (s : State)
    (h : k ≠ k2) :
    cached k (dropError (Cache.DeleteAt site w k2 s) s) = cached k s := by
  rcases dropError_deleteAt_cases site w k2 s with h2 | h2 <;> rw [h2]
  exact find_filter_ne _ _ _ h

theorem dropError_delete_eq (w : World) (k : String) (s : State) :
    dropError (Cache.Delete w k s) s = dropError (Cache.DeleteAt .cacheDelete w k s) s := rfl

theorem courseCreate_ok {w : World} {c c1 : Course} {s s1 : State}
    (h : CourseRepository.Create w c s = .ok (s1, c1)) :
    ∃ x : Course, s1 = { s with courses := s.courses ++ [x] } ∧ ∀ r ∈ s.courses, r.ID ≠ x.ID := by
  simp only [CourseRepository.Create] at h
  split at h
  · simp at h
  · split at h
    · simp at h
    · rename_i hd
      simp only [Except.ok.injEq, Prod.mk.injEq] at h
      refine ⟨_, h.1.symm, ?_⟩
      intro r hr
      simp only [List.any_eq_true, not_exists, not_and, decide_eq_true_eq] at hd
      exact hd r hr

theorem courseUpdate_ok {w : World} {c c1 : Course} {s s1 : State}
    (h : CourseRepository.Update w c s = .ok (s1, c1)) :
    ∃ x : Course,
      (x.ID = c.ID ∧
        s1 = { s with courses := s.courses.map (fun r => if r.ID = x.ID then x else r) }) ∨
      (s1 = { s with courses := s.courses ++ [x] } ∧ ∀ r ∈ s.courses, r.ID ≠ x.ID) := by
  simp only [CourseRepository.Update] at h
  split at h
  · simp at h
  · split at h
    · obtain ⟨x, hx⟩ := courseCreate_ok h
      exact ⟨x, Or.inr hx⟩
    · split at h
      · simp only [Except.ok.injEq, Prod.mk.injEq] at h
        exact ⟨Course.columns { c with UpdatedAt := w.clock .rowUpdate },
          Or.inl ⟨rfl, h.1.symm⟩⟩
      · rename_i hd
        simp only [Except.ok.injEq, Prod.mk.injEq] at h
        refine ⟨_, Or.inr ⟨h.1.symm, ?_⟩⟩
        intro r hr
        simp only [List.any_eq_true, not_exists, not_and, decide_eq_true_eq] at hd
        exact hd r hr

theorem listKey_ne_courseKey (page pageSize : Int) (id : UUID) :
    listKey page pageSize ≠ courseKey id := by
  intro h
  have := congrArg String.data h
  simp [listKey, courseKey, String.data_append] at this

theorem listKey_ne_list (page pageSize : Int) : listKey page pageSize ≠ "courses:list" := by
  intro h
  have := congrArg String.data h
  simp [listKey, String.data_append] at this

theorem listKey_ne_featured (page pageSize : Int) :
    listKey page pageSize ≠ "courses:featured" := by
  intro h
  have := congrArg String.data h
  simp [listKey, String.data_append] at this

theorem GetJSONAs_congr {α : Type} (decode : CacheVal → Except String α) (w : World)
    (key : String) (s s2 : State) (h : cached key s2 = cached key s) :
    Cache.GetJSONAs decode w key s2 = Cache.GetJSONAs decode w key s := by
  unfold cached at h
  unfold Cache.GetJSONAs
  rw [h]

theorem GetJSONAs_of_miss {α : Type} (decode : CacheVal → Except String α) (w : World)
    (key : String) (s : State) (h : cached key s = none) :
    ∃ e, Cache.GetJSONAs decode w key s = .error e := by
  unfold cached at h
  unfold Cache.GetJSONAs
  split
  · exact ⟨_, rfl⟩
  · simp only [h]
    exact ⟨_, rfl⟩

theorem dropError_deleteAt_self (site : Site) (w : World) (k : String) (s : State)
    (hf : w.fault site = none) :
    cached k (dropError (Cache.DeleteAt site w k s) s) = none := by
  simp only [Cache.DeleteAt, hf, dropError, cached]
  exact find_filter_self _ _

theorem invalidate_cached_key (w : World) (id : UUID) (k : String) (s : State)
    (h1 : k ≠ courseKey id) (h2 : k ≠ "courses:list") (h3 : k ≠ "courses:featured") :
    cached k (CourseService.invalidate w id s) = cached k s := by
  simp only [CourseService.invalidate, dropError_delete_eq]
  rw [dropError_deleteAt_cached _ _ _ _ _ h3, dropError_deleteAt_cached _ _ _ _ _ h2]
  exact dropError_deleteAt_cached _ _ _ _ _ h1

theorem invalidate_featured (w : World) (id : UUID) (s : State)
    (hf : w.fault .cacheDeleteFeatured = none) :
    cached "courses:featured" (CourseService.invalidate w id s) = none := by
  simp only [CourseService.invalidate]
  exact dropError_deleteAt_self _ w _ _ hf

/-- Where `CourseService.Create` leaves the cache: as it was, or after the two
deletes that follow the insert. -/
theorem CourseCreate_cases (w : World) (req : CreateCourseRequest) (s : State) :
    ((CourseService.Create w req s).1.isOk = false ∧ (CourseService.Create w req s).2 = s) ∨
    ∃ s1, s1.cache = s.cache ∧
      (CourseService.Create w req s).2 =
        dropError (Cache.DeleteAt .cacheDeleteFeatured w "courses:featured"
          (dropError (Cache.DeleteAt .cacheDeleteList w "courses:list" s1) s1))
          (dropError (Cache.DeleteAt .cacheDeleteList w "courses:list" s1) s1) := by
  simp only [CourseService.Create]
  split
  · exact Or.inl ⟨rfl, rfl⟩
  · rename_i s1 course1 hc
    obtain ⟨x, hs1, -⟩ := courseCreate_ok hc
    exact Or.inr ⟨s1, by rw [hs1], rfl⟩

/-- Where `CourseService.Update` leaves the cache. -/
theorem CourseUpdate_cases (w : World) (id : UUID) (req : UpdateCourseRequest) (s : State) :
    ((CourseService.Update w id req s).1.isOk = false ∧ (CourseService.Update w id req s).2 = s) ∨
    ∃ s1, s1.cache = s.cache ∧
      (CourseService.Update w id req s).2 = CourseService.invalidate w id s1 := by
  simp only [CourseService.Update]
  split
  · split <;> exact Or.inl ⟨rfl, rfl⟩
  · split
    · exact Or.inl ⟨rfl, rfl⟩
    · rename_i s1 course1 hupd
      obtain ⟨x, hx⟩ := courseUpdate_ok hupd
      refine Or.inr ⟨s1, ?_, rfl⟩
      rcases hx with ⟨-, hx⟩ | ⟨hx, -⟩ <;> rw [hx]

/-- Where `CourseService.Delete` leaves the cache. -/
theorem CourseDelete_cases (w : World) (id : UUID) (s : State) :
    ((CourseService.Delete w id s).1.isOk = false ∧ (CourseService.Delete w id s).2 = s) ∨
    ∃ s1, s1.cache = s.cache ∧
      (CourseService.Delete w id s).2 = CourseService.invalidate w id s1 := by
  simp only [CourseService.Delete]
  split
  · split <;> exact Or.inl ⟨rfl, rfl⟩
  · split
    · exact Or.inl ⟨rfl, rfl⟩
    · rename_i s1 hdel
      refine Or.inr ⟨s1, ?_, rfl⟩
      unfold CourseRepository.Delete at hdel
      split at hdel
      · simp at hdel
      · simp only [Except.ok.injEq] at hdel
        rw [← hdel]

theorem cached_of_cache_eq (k : String) {s s1 : State} (h : s1.cache = s.cache) :
    cached k s1 = cached k s := by
  simp only [cached, h]

/-- Without an entry under "courses:featured", `GetFeatured` is answered from the store. -/
theorem GetFeatured_of_error (lib : Lib) (w : World) (s : State) (e : Err)
    (h : Cache.GetJSONAs lib.asCourseList w "courses:featured" s = .error e) :
    (CourseService.GetFeatured lib w s).1 = CourseService.featuredFromStore lib w s := by
  simp only [CourseService.GetFeatured, h, CourseService.featuredFromStore]
  split <;> rfl

/-- A page that the cache answers is what `CourseService.List` returns. -/
theorem List_of_hit (lib : Lib) (w : World) (page pageSize : Int) (s : State)
    (p : Slice CourseResponse × Int)
    (h : Cache.GetJSONAs lib.asCoursePage w (listKey page pageSize) s = .ok p) :
    (CourseService.List lib w page pageSize "" s).1 = .ok p := by
  simp only [CourseService.List, h, if_true]

/-- When the cache does not answer, `CourseService.List` is answered from the store. -/
theorem List_of_error (lib : Lib) (w : World) (page pageSize : Int) (s : State) (e : Err)
    (h : Cache.GetJSONAs lib.asCoursePage w (listKey page pageSize) s = .error e) :
    (CourseService.List lib w page pageSize "" s).1 =
      CourseService.listFromStore lib w page pageSize "" s := by
  simp only [CourseService.List, h, if_true, CourseService.listFromStore]
  split <;> rfl

/-- A filtered `CourseService.List` is always answered from the store. -/
theorem List_filtered (lib : Lib) (w : World) (page pageSize : Int) (category : String)
    (s : State) (hc : category ≠ "") :
    (CourseService.List lib w page pageSize category s).1 =
      CourseService.listFromStore lib w page pageSize category s := by
  simp only [CourseService.List, hc, if_false, CourseService.listFromStore]
  split <;> rfl

theorem listsAfterMutation_of (lib : Lib) (s s2 : State)
    (h1 : cached "courses:featured" s2 = none)
    (h2 : ∀ page pageSize, cached (listKey page pageSize) s2 = cached (listKey page pageSize) s) :
    ListsAfterMutation lib s s2 := by
  refine ⟨h1, fun w2 => ?_, h2, fun w2 page pageSize p hp => ?_⟩
  · obtain ⟨e, he⟩ := GetJSONAs_of_miss lib.asCourseList w2 "courses:featured" s2 h1
    exact GetFeatured_of_error lib w2 s2 e he
  · apply List_of_hit
    rw [GetJSONAs_congr _ _ _ _ _ (h2 page pageSize)]
    exact hp

theorem listsAfterMutation_invalidate (lib : Lib) (w : World) (id : UUID) (s s1 : State)
    (hc : s1.cache = s.cache) (hf : w.fault .cacheDeleteFeatured = none) :
    ListsAfterMutation lib s (CourseService.invalidate w id s1) := by
  apply listsAfterMutation_of
  · exact invalidate_featured w id s1 hf
  · intro page pageSize
    rw [invalidate_cached_key w id _ s1 (listKey_ne_courseKey _ _ _) (listKey_ne_list _ _)
      (listKey_ne_featured _ _)]
    exact cached_of_cache_eq _ hc

/-- C21, the counterexample: the first page of the list is in the cache, a
second course is created, and `List` still returns the page cached before the
creation (one course) although the store now yields two courses. -/
theorem course_create_leaves_cached_page :
    (CourseService.Create worldCourseB courseReqB pagedState).1.isOk = true ∧
    (CourseService.List demoLib world3000 1 10 "" grownState).1 =
      (CourseService.List demoLib world2000 1 10 "" catalogState).1 ∧
    Except.map (fun p => (p.1.map CourseResponse.Title, p.2))
      (CourseService.List demoLib world3000 1 10 "" grownState).1 = .ok (["Solidity 101"], 1) ∧
    Except.map (fun p => (p.1.map CourseResponse.Title, p.2))
      (CourseService.listFromStore demoLib world3000 1 10 "" grownState) =
        .ok (["Rust for chains", "Solidity 101"], 2) := by
  decide

/-- C21 as amended: when the deletes of the detail key and of "courses:featured"
do not fail in the cache, a successful `CourseService.Update` or `Delete` of a
course leaves no entry under the detail key of the course and none under
"courses:featured", so the next `GetByID` of the course and the next
`GetFeatured` are answered from the store, and a successful `Create` leaves no
entry under "courses:featured".  No key of a page of the list is deleted by any
of the three: the entry of every page is as before the call, and a page that
the cache answered before the call is what `List` still returns after it. -/
theorem course_mutation_invalidation (lib : Lib) (w : World) (s : State)
    (hd : w.fault .cacheDelete = none) (hf : w.fault .cacheDeleteFeatured = none) :
    (∀ req, (CourseService.Create w req s).1.isOk = true →
      ListsAfterMutation lib s (CourseService.Create w req s).2) ∧
    (∀ id req, (CourseService.Update w id req s).1.isOk = true →
      cached (courseKey id) (CourseService.Update w id req s).2 = none ∧
      (∀ w2, (CourseService.GetByID lib w2 id (CourseService.Update w id req s).2).1 =
        CourseService.fromStore w2 id (CourseService.Update w id req s).2) ∧
      ListsAfterMutation lib s (CourseService.Update w id req s).2) ∧
    (∀ id, (CourseService.Delete w id s).1.isOk = true →
      cached (courseKey id) (CourseService.Delete w id s).2 = none ∧
      (∀ w2, (CourseService.GetByID lib w2 id (CourseService.Delete w id s).2).1 =
        CourseService.fromStore w2 id (CourseService.Delete w id s).2) ∧
      ListsAfterMutation lib s (CourseService.Delete w id s).2) := by
  refine ⟨fun req hok => ?_, fun id req hok => ?_, fun id hok => ?_⟩
  · rcases CourseCreate_cases w req s with ⟨hno, -⟩ | ⟨s1, hc, hs⟩
    · rw [hno] at hok; exact absurd hok (by decide)
    · rw [hs]
      apply listsAfterMutation_of
      · exact dropError_deleteAt_self _ w _ _ hf
      · intro page pageSize
        rw [dropError_deleteAt_cached _ _ _ _ _ (listKey_ne_featured _ _),
          dropError_deleteAt_cached _ _ _ _ _ (listKey_ne_list _ _)]
        exact cached_of_cache_eq _ hc
  · rcases CourseUpdate_cases w id req s with ⟨hno, -⟩ | ⟨s1, hc, hs⟩
    · rw [hno] at hok; exact absurd hok (by decide)
    · rw [hs]
      have h0 := cached_invalidate w id s1 hd
      exact ⟨h0, fun w2 => GetByID_of_miss lib w2 id _ h0,
        listsAfterMutation_invalidate lib w id s s1 hc hf⟩
  · rcases CourseDelete_cases w id s with ⟨hno, -⟩ | ⟨s1, hc, hs⟩
    · rw [hno] at hok; exact absurd hok (by decide)
    · rw [hs]
      have h0 := cached_invalidate w id s1 hd
      exact ⟨h0, fun w2 => GetByID_of_miss lib w2 id _ h0,
        listsAfterMutation_invalidate lib w id s s1 hc hf⟩

/-- C21 as amended, at a concrete state: the update of the cached course in a
calm world leaves no detail entry and no featured entry, and the page of the
list cached before the update is still returned, with the old title. -/
theorem course_mutation_invalidation_witness :
    (cached (courseKey courseA)
        (CourseService.Update world3000 courseA renameReq pagedState).2 = none ∧
      (∀ w2, (CourseService.GetByID demoLib w2 courseA
          (CourseService.Update world3000 courseA renameReq pagedState).2).1 =
        CourseService.fromStore w2 courseA
          (CourseService.Update world3000 courseA renameReq pagedState).2) ∧
      ListsAfterMutation demoLib pagedState
        (CourseService.Update world3000 courseA renameReq pagedState).2) ∧
    Except.map (fun p => (p.1.map CourseResponse.Title, p.2))
      (CourseService.List demoLib world3000 1 10 ""
        (CourseService.Update world3000 courseA renameReq pagedState).2).1 =
      .ok (["Solidity 101"], 1) :=
  ⟨(course_mutation_invalidation demoLib world3000 pagedState (by decide) (by decide)).2.1
      courseA renameReq (by decide),
   by decide⟩

/-! ## Reads that the cache does not answer -/

theorem CategoryList_of_error (lib : Lib) (w : World) (s : State) (e : Err)
    (h : Cache.GetJSONAs lib.asCategoryList w "categories:all" s = .error e) :
    (CategoryService.List lib w s).1 = CategoryService.listFromStore w s := by
  simp only [CategoryService.List, h, CategoryService.listFromStore]
  split <;> rfl

/-- C22: when the cache read fails, for whatever reason, `CourseService.GetByID`,
`List`, `GetFeatured` and `CategoryService.List` return what the store path
alone yields, in every world, so also when the write-back to the cache fails:
the projection of what the store lookup loaded, or the error of the store
lookup (for `GetByID`, record-not-found is answered as "course not found").
The store path consults neither the cache nor the failures of the cache, and
when the store lookup itself does not fail these calls succeed (`GetByID` may
answer "course not found"). -/
theorem cache_failure_falls_back_to_store (lib : Lib) (w : World) (s : State) :
    ((∀ id e, Cache.GetJSONCourse lib w (courseKey id) s = .error e →
        (CourseService.GetByID lib w id s).1 = CourseService.fromStore w id s) ∧
      (∀ page pageSize e,
        Cache.GetJSONAs lib.asCoursePage w (listKey page pageSize) s = .error e →
        (CourseService.List lib w page pageSize "" s).1 =
          CourseService.listFromStore lib w page pageSize "" s) ∧
      (∀ e, Cache.GetJSONAs lib.asCourseList w "courses:featured" s = .error e →
        (CourseService.GetFeatured lib w s).1 = CourseService.featuredFromStore lib w s) ∧
      (∀ e, Cache.GetJSONAs lib.asCategoryList w "categories:all" s = .error e →
        (CategoryService.List lib w s).1 = CategoryService.listFromStore w s)) ∧
    ((∀ id, w.fault .courseGet = none →
        CourseService.fromStore w id s = .error (.New "course not found") ∨
        ∃ r, CourseService.fromStore w id s = .ok r) ∧
      (∀ page pageSize category, w.fault .courseList = none →
        ∃ r, CourseService.listFromStore lib w page pageSize category s = .ok r) ∧
      (w.fault .courseList = none → ∃ r, CourseService.featuredFromStore lib w s = .ok r) ∧
      (w.fault .categoryList = none →
        CategoryService.listFromStore w s =
          .ok (s.categories.map CategoryService.categoryResponse))) := by
  refine ⟨⟨fun id e he => ?_, fun page pageSize e he => List_of_error lib w page pageSize s e he,
    fun e he => GetFeatured_of_error lib w s e he,
    fun e he => CategoryList_of_error lib w s e he⟩,
    ⟨fun id hf => ?_, fun page pageSize category hf => ?_, fun hf => ?_, fun hf => ?_⟩⟩
  · simp only [courseKey] at he
    simp only [CourseService.GetByID, he, CourseService.fromStore]
    split
    · split <;> rfl
    · rfl
  · simp only [CourseService.fromStore, CourseRepository.GetByIDWithLessons, hf]
    cases CourseRepository.find id s with
    | none => exact Or.inl (by simp)
    | some c => exact Or.inr ⟨_, rfl⟩
  · simp only [CourseService.listFromStore, CourseRepository.ListByCategory,
      CourseRepository.List, hf]
    by_cases hc : category = "" <;> simp [hc]
  · simp only [CourseService.featuredFromStore, CourseRepository.List, hf]
    exact ⟨_, rfl⟩
  · simp only [CategoryService.listFromStore, CategoryRepository.List, hf]

/-- C22 at a concrete state: with every call to the cache failing, the four
reads return what the store yields. -/
theorem cache_failure_falls_back_to_store_witness :
    (CourseService.GetByID demoLib cacheOffWorld courseA grownState).1 =
      CourseService.fromStore cacheOffWorld courseA grownState ∧
    (CourseService.List demoLib cacheOffWorld 1 10 "" grownState).1 =
      CourseService.listFromStore demoLib cacheOffWorld 1 10 "" grownState ∧
    (CourseService.GetFeatured demoLib cacheOffWorld grownState).1 =
      CourseService.featuredFromStore demoLib cacheOffWorld grownState ∧
    (CategoryService.List demoLib cacheOffWorld categoryState).1 =
      CategoryService.listFromStore cacheOffWorld categoryState ∧
    Except.map (fun p => (p.1.map CourseResponse.Title, p.2))
      (CourseService.List demoLib cacheOffWorld 1 10 "" grownState).1 =
        .ok (["Rust for chains", "Solidity 101"], 2) :=
  ⟨(cache_failure_falls_back_to_store demoLib cacheOffWorld grownState).1.1 courseA
      (.other "redis: connection refused") (by decide),
   (cache_failure_falls_back_to_store demoLib cacheOffWorld grownState).1.2.1 1 10
      (.other "redis: connection refused") (by decide),
   (cache_failure_falls_back_to_store demoLib cacheOffWorld grownState).1.2.2.1
      (.other "redis: connection refused") (by decide),
   (cache_failure_falls_back_to_store demoLib cacheOffWorld categoryState).1.2.2.2
      (.other "redis: connection refused") (by decide),
   by decide⟩

/-! ## The cached list of categories -/

/-- The deletes of "categories:all" at the end of the category mutations. -/
theorem cached_categories_deleted (w : World) (s : State) (hd : w.fault .cacheDelete = none) :
    cached "categories:all" (dropError (Cache.Delete w "categories:all" s) s) = none :=
  dropError_deleteAt_self .cacheDelete w "categories:all" s hd

theorem CategoryCreate_cases (lib : Lib) (w : World) (req : CreateCategoryRequest) (s : State) :
    (CategoryService.Create lib w req s).1.isOk = false ∨
    ∃ s1, (CategoryService.Create lib w req s).2 =
      dropError (Cache.Delete w "categories:all" s1) s1 := by
  simp only [CategoryService.Create]
  split
  · exact Or.inl rfl
  · split
    · exact Or.inl rfl
    · split
      · exact Or.inl rfl
      · exact Or.inr ⟨_, rfl⟩

theorem CategoryUpdate_cases (w : World) (id : UUID) (req : UpdateCategoryRequest) (s : State) :
    (CategoryService.Update w id req s).1.isOk = false ∨
    ∃ s1, (CategoryService.Update w id req s).2 =
      dropError (Cache.Delete w "categories:all" s1) s1 := by
  simp only [CategoryService.Update]
  split
  · split <;> exact Or.inl rfl
  · split
    · exact Or.inl rfl
    · split
      · exact Or.inl rfl
      · exact Or.inr ⟨_, rfl⟩

theorem CategoryDelete_cases (w : World) (id : UUID) (s : State) :
    (CategoryService.Delete w id s).1.isOk = false ∨
    ∃ s1, (CategoryService.Delete w id s).2 =
      dropError (Cache.Delete w "categories:all" s1) s1 := by
  simp only [CategoryService.Delete]
  split
  · split <;> exact Or.inl rfl
  · split
    · exact Or.inl rfl
    · exact Or.inr ⟨_, rfl⟩

theorem categories_fresh_of_miss (lib : Lib) (s2 : State)
    (h : cached "categories:all" s2 = none) : CategoriesFresh lib s2 := by
  refine ⟨h, fun w2 => ?_⟩
  obtain ⟨e, he⟩ := GetJSONAs_of_miss lib.asCategoryList w2 "categories:all" s2 h
  refine ⟨CategoryList_of_error lib w2 s2 e he, fun hf => ?_⟩
  rw [CategoryList_of_error lib w2 s2 e he]
  simp only [CategoryService.listFromStore, CategoryRepository.List, hf]

/-! ## The routes of the user handler -/

/-- On the routes `GET /users/:id` and `PUT /users/:id` a request whose token
carries a role other than "admin" is answered 403 by `RoleMiddleware("admin")`,
whatever id it names; the handler is not reached. -/
theorem users_id_routes_admin_only (cfg : App) (lib : Lib) (w : World)
    (authHeader idParam : String) (body : Except String UpdateUserRequest) (s : State)
    (c : Context) (hc : middleware.AuthMiddleware cfg lib authHeader = .ok c)
    (hr : c.role ≠ some "admin") :
    routes.getUser cfg lib w authHeader idParam s = some utils.ForbiddenResponse ∧
    routes.putUser cfg lib w authHeader idParam body s = (some utils.ForbiddenResponse, s) := by
  have hrole : ∃ r, c.role = some r := by
    unfold middleware.AuthMiddleware at hc
    split at hc
    · simp at hc
    · split at hc
      · simp at hc
      · split at hc
        · simp at hc
        · split at hc
          · simp at hc
          · simp only [Except.ok.injEq] at hc
            rw [← hc]
            exact ⟨_, rfl⟩
  obtain ⟨r, hrr⟩ := hrole
  have hne : ¬ "admin" = r := fun h => hr (by rw [hrr, h])
  have hmid : middleware.RoleMiddleware ["admin"] c = some utils.ForbiddenResponse := by
    simp [middleware.RoleMiddleware, hrr, hne]
  simp only [routes.getUser, routes.putUser, hc, hmid, and_self]

/-- C24: Alice, a regular user, asks for her own record with a valid token.
The handler alone answers 200 with her record, as its comment says ("regular
users can only view themselves"), but the route puts `RoleMiddleware("admin")`
in front of the handler, and the routed endpoints `GET /users/:id` and
`PUT /users/:id` answer 403; the update is not made. -/
theorem regular_user_own_record_forbidden :
    middleware.AuthMiddleware demoCfg httpLib "Bearer token-of-alice" = .ok aliceContext ∧
    UserHandler.Get httpLib world2000 aliceContext (uuidString alice.ID) aliceAlone =
      some (utils.SuccessResponse (userView alice)) ∧
    routes.getUser demoCfg httpLib world2000 "Bearer token-of-alice" (uuidString alice.ID) aliceAlone =
      some utils.ForbiddenResponse ∧
    (UserHandler.Update httpLib world2000 aliceContext (uuidString alice.ID) renameBody
      aliceAlone).1 =
      some (utils.SuccessResponse (userView { alice with FullName := "Alice B." })) ∧
    routes.putUser demoCfg httpLib world2000 "Bearer token-of-alice" (uuidString alice.ID) renameBody
      aliceAlone = (some utils.ForbiddenResponse, aliceAlone) := by
  decide

/-! ## The key of a page of the course list -/

theorem toNat_ofNat_valid (n : Nat) (h : n.isValidChar) : (Char.ofNat n).toNat = n := by
  unfold Char.ofNat
  rw [dif_pos h]
  rfl

theorem keyNorm_valid (n : Int) : 0 ≤ keyNorm n ∧ (keyNorm n).toNat.isValidChar := by
  unfold keyNorm Nat.isValidChar
  split
  · rename_i h
    omega
  · omega

theorem runeString_eq (n : Int) :
    runeString n = String.singleton (Char.ofNat (keyNorm n).toNat) := by
  simp only [runeString, keyNorm]
  by_cases h : (0 ≤ wrap32 n ∧ wrap32 n < 0xD800) ∨ (0xE000 ≤ wrap32 n ∧ wrap32 n ≤ 0x10FFFF)
  · have h2 : (0 ≤ wrap32 n ∧ wrap32 n ≤ 0xD7FF) ∨ (0xE000 ≤ wrap32 n ∧ wrap32 n ≤ 0x10FFFF) := by
      omega
    rw [if_pos h, if_pos h2]
  · have h2 : ¬ ((0 ≤ wrap32 n ∧ wrap32 n ≤ 0xD7FF) ∨
        (0xE000 ≤ wrap32 n ∧ wrap32 n ≤ 0x10FFFF)) := by
      omega
    rw [if_neg h, if_neg h2]
    rfl

theorem runeString_eq_iff (a b : Int) : runeString a = runeString b ↔ keyNorm a = keyNorm b := by
  rw [runeString_eq, runeString_eq]
  constructor
  · intro h
    have h1 := congrArg String.data h
    simp only [String.singleton, String.data_push, List.nil_append, List.cons.injEq,
      and_true] at h1
    have h2 := congrArg Char.toNat h1
    rw [toNat_ofNat_valid _ (keyNorm_valid a).2, toNat_ofNat_valid _ (keyNorm_valid b).2] at h2
    have ha := (keyNorm_valid a).1
    have hb := (keyNorm_valid b).1
    omega
  · intro h
    rw [h]

theorem listKey_eq_iff (page pageSize page2 pageSize2 : Int) :
    listKey page pageSize = listKey page2 pageSize2 ↔
      keyNorm page = keyNorm page2 ∧ keyNorm pageSize = keyNorm pageSize2 := by
  rw [← runeString_eq_iff, ← runeString_eq_iff]
  constructor
  · intro h
    have h1 := congrArg String.data h
    simp only [listKey, runeString_eq, String.data_append, String.singleton, String.data_push,
      List.append_assoc] at h1
    simp only [runeString_eq, String.singleton]
    have h2 := List.append_cancel_left h1
    simp only [List.cons_append, List.nil_append, List.cons.injEq, true_and, and_true] at h2
    rw [h2.1, h2.2]
    exact ⟨rfl, rfl⟩
  · rintro ⟨h1, h2⟩
    simp only [listKey, h1, h2]

theorem keyNorm_small (n : Int) (h0 : 0 ≤ n) (h1 : n ≤ 0xD7FF) : keyNorm n = n := by
  have hw : wrap32 n = n := by
    unfold wrap32
    omega
  unfold keyNorm
  rw [hw, if_pos (Or.inl ⟨h0, h1⟩)]

/-- C26, the counterexample: the page -4294967231 is negative, and 4294967361 is
above 0x10FFFF, but cut to 32 bits both are 65, so both are spelled "A" in the
key, like page 65 and unlike page -1. -/
theorem page_keeps_key_after_truncation :
    ((-4294967231 : Int) < 0 ∧ (0x10FFFF : Int) < 4294967361) ∧
    runeString (-4294967231) = "A" ∧ runeString 4294967361 = "A" ∧
    listKey (-4294967231) 10 = listKey 65 10 ∧
    listKey (-4294967231) 10 ≠ listKey (-1) 10 ∧
    listKey 4294967361 10 ≠ listKey (-1) 10 := by
  decide

/-- C26 as amended: two pairs (page, size) get the same key exactly when
`keyNorm` agrees on the pages and on the sizes.  Hence the key is injective
for pages and sizes from 0 to 0xD7FF, and every number whose 32-bit cut is
negative, a surrogate (0xD800..0xDFFF) or above 0x10FFFF is spelled like -1
(the character U+FFFD); a negative number or a number above 0x10FFFF whose
32-bit cut is a valid code point is spelled as that code point. -/
theorem list_key_kernel (page pageSize page2 pageSize2 : Int) :
    (listKey page pageSize = listKey page2 pageSize2 ↔
      keyNorm page = keyNorm page2 ∧ keyNorm pageSize = keyNorm pageSize2) ∧
    (0 ≤ page ∧ page ≤ 0xD7FF → 0 ≤ pageSize ∧ pageSize ≤ 0xD7FF →
      0 ≤ page2 ∧ page2 ≤ 0xD7FF → 0 ≤ pageSize2 ∧ pageSize2 ≤ 0xD7FF →
      listKey page pageSize = listKey page2 pageSize2 → page = page2 ∧ pageSize = pageSize2) ∧
    ((wrap32 page < 0 ∨ (0xD800 ≤ wrap32 page ∧ wrap32 page ≤ 0xDFFF) ∨
        0x10FFFF < wrap32 page) →
      runeString page = runeString (-1) ∧ listKey page pageSize = listKey (-1) pageSize) ∧
    ((0 ≤ wrap32 page ∧ wrap32 page ≤ 0xD7FF) ∨
        (0xE000 ≤ wrap32 page ∧ wrap32 page ≤ 0x10FFFF) →
      listKey page pageSize = listKey (wrap32 page) pageSize) := by
  refine ⟨listKey_eq_iff _ _ _ _, fun hp hs hp2 hs2 h => ?_, fun h => ?_, fun h => ?_⟩
  · rw [listKey_eq_iff, keyNorm_small _ hp.1 hp.2, keyNorm_small _ hs.1 hs.2,
      keyNorm_small _ hp2.1 hp2.2, keyNorm_small _ hs2.1 hs2.2] at h
    exact h
  · have hk : keyNorm page = keyNorm (-1) := by
      have h1 : keyNorm (-1) = 0xFFFD := by decide
      rw [h1]
      unfold keyNorm
      rw [if_neg (by omega)]
    exact ⟨(runeString_eq_iff _ _).2 hk, (listKey_eq_iff _ _ _ _).2 ⟨hk, rfl⟩⟩
  · rw [listKey_eq_iff]
    refine ⟨?_, rfl⟩
    have hw : wrap32 (wrap32 page) = wrap32 page := by
      unfold wrap32
      omega
    unfold keyNorm
    rw [hw]

/-- C26 as amended, at concrete numbers: equal keys of small numbers, a number
spelled like -1, and a number above 0x10FFFF spelled as its 32-bit cut. -/
theorem list_key_kernel_witness :
    ((12 : Int) = 12 ∧ (10 : Int) = 10) ∧
    (runeString (-7) = runeString (-1) ∧ listKey (-7) 10 = listKey (-1) 10) ∧
    listKey 4294967361 10 = listKey (wrap32 4294967361) 10 :=
  ⟨(list_key_kernel 12 10 12 10).2.1 (by decide) (by decide) (by decide) (by decide) rfl,
   (list_key_kernel (-7) 10 0 0).2.2.1 (by decide),
   (list_key_kernel 4294967361 10 0 0).2.2.2 (by decide)⟩

/-! ## The frame of `RefreshToken` and of `ResetPassword` -/

theorem tokenDelete_state {w : World} {id : UUID} {s s1 : State}
    (h : RefreshTokenRepository.Delete w id s = .ok s1) :
    s1 = { s with refreshTokens := s.refreshTokens.filter (fun r => decide (r.ID ≠ id)) } := by
  unfold RefreshTokenRepository.Delete at h
  split at h
  · simp at h
  · simp only [Except.ok.injEq] at h
    rw [← h]

/-- C27: a successful `RefreshToken t` (the primary key and the unique token
string of the table holding) removes the one row whose token string is `t`
and appends one new row, which no row kept equals; the new row is owned by the
owner of the removed row and carries the refresh token string returned to the
caller.  Every other refresh-token row, every user row and the rest of the
state are unchanged, and the user view returned is that of the owner. -/
theorem refresh_token_rotation (cfg : App) (lib : Lib) (w : World) (t : String)
    (s s1 : State) (r : TokenResponse) (hu : TokensUnique s) (hid : TokenIDsUnique s)
    (h : AuthService.RefreshToken cfg lib w t s = (.ok r, s1)) :
    ∃ row user, row ∈ s.refreshTokens ∧ row.Token = t ∧
      (∀ x ∈ s.refreshTokens, x.Token = t → x = row) ∧
      user ∈ s.users ∧ user.ID = row.UserID ∧
      s1 = { s with
             refreshTokens :=
               (s.refreshTokens.filter (fun x => decide (x ≠ row)) ++ [issuedRow cfg w user]) } ∧
      issuedRow cfg w user ∉ s.refreshTokens.filter (fun x => decide (x ≠ row)) ∧
      (issuedRow cfg w user).UserID = row.UserID ∧
      (issuedRow cfg w user).Token = r.RefreshToken ∧
      s1.users = s.users ∧ r.User = userView user := by
  obtain ⟨row, user, s0, hrow, -, huser, hdel, hgen⟩ := RefreshToken_ok h
  obtain ⟨-, hmem, htok⟩ := GetByToken_ok hrow
  obtain ⟨-, humem, huid⟩ := GetByID_ok huser
  have hs0 := tokenDelete_state hdel
  have hfilter : s.refreshTokens.filter (fun x => decide (x.ID ≠ row.ID)) =
      s.refreshTokens.filter (fun x => decide (x ≠ row)) := by
    apply List.filter_congr
    intro x hx
    by_cases hxr : x = row
    · simp [hxr]
    · have : x.ID ≠ row.ID := fun hh => hxr (List.inj_on_of_nodup_map hid hx hmem hh)
      simp [hxr, this]
  rcases generateTokens_cases cfg lib w user s0 with ⟨m, hm⟩ | ⟨acc, -, -, hfresh, hok⟩
  · rw [hm] at hgen
    simp at hgen
  · rw [hok] at hgen
    simp only [Prod.mk.injEq, Except.ok.injEq] at hgen
    obtain ⟨hr, hs1⟩ := hgen
    refine ⟨row, user, hmem, htok, ?_, humem, huid, ?_, ?_, huid, ?_, ?_, ?_⟩
    · intro x hx hxt
      exact List.inj_on_of_nodup_map hu hx hmem (by rw [hxt, htok])
    · rw [← hs1, hs0]
      simp only [hfilter]
    · intro hin
      rw [← hfilter] at hin
      have := (hfresh (issuedRow cfg w user) (by rw [hs0]; exact hin)).1
      exact this rfl
    · rw [← hr]
      rfl
    · rw [← hs1, hs0]
    · rw [← hr]

/-- C27 at a concrete state: Alice rotates her one session at instant 2000. -/
theorem refresh_token_rotation_witness :
    ∃ row user, row ∈ aliceState.refreshTokens ∧ row.Token = aliceToken.Token ∧
      (∀ x ∈ aliceState.refreshTokens, x.Token = aliceToken.Token → x = row) ∧
      user ∈ aliceState.users ∧ user.ID = row.UserID ∧
      (AuthService.RefreshToken demoCfg demoLib world2000 aliceToken.Token aliceState).2 =
        { aliceState with
          refreshTokens :=
            (aliceState.refreshTokens.filter (fun x => decide (x ≠ row)) ++
              [issuedRow demoCfg world2000 user]) } ∧
      issuedRow demoCfg world2000 user ∉
        aliceState.refreshTokens.filter (fun x => decide (x ≠ row)) ∧
      (issuedRow demoCfg world2000 user).UserID = row.UserID ∧
      (issuedRow demoCfg world2000 user).Token = "3f2504e0-4f89-41d3-9a0c-0305e82c3301" ∧
      (AuthService.RefreshToken demoCfg demoLib world2000 aliceToken.Token aliceState).2.users =
        aliceState.users ∧
      userView alice = userView user :=
  refresh_token_rotation demoCfg demoLib world2000 aliceToken.Token aliceState
    (AuthService.RefreshToken demoCfg demoLib world2000 aliceToken.Token aliceState).2
    { AccessToken := "header.1b4e28ba-2fa1-11d2-883f-0016d3cca427.signature",
      RefreshToken := "3f2504e0-4f89-41d3-9a0c-0305e82c3301", ExpiresAt := 86400000002000,
      User := userView alice }
    (by decide) (by decide) (by decide)

/-- C28: when the user update of `ResetPassword` succeeds and the delete of the
grant then fails in the cache, the call returns the error of the cache, and in
the state it leaves the password hash of the user is already the hash of the
new password, the refresh-token rows are all still there, and the cache is
as it was, so the grant is still redeemable. -/
theorem reset_password_not_atomic (lib : Lib) (w : World) (req : ResetPasswordRequest)
    (s : State) (m : List (String × String)) (uid : UUID) (user : User) (hashed msg : String)
    (hget : Cache.GetJSON w ("reset_token:" ++ req.Token) s = .ok m)
    (hparse : lib.parse (mapGet m "user_id") = some uid)
    (huser : UserRepository.GetByID w uid s = .ok user)
    (hhash : lib.hash w.salt req.Password = .ok hashed)
    (hupd : (UserRepository.Update w { user with PasswordHash := hashed } s).isOk = true)
    (hdel : w.fault .cacheDelete = some msg) :
    (AuthService.ResetPassword lib w req s).1 = .error (.other msg) ∧
    (AuthService.ResetPassword lib w req s).2 =
      { s with users := s.users.map (fun r => if r.ID = uid then
          { user with PasswordHash := hashed, UpdatedAt := w.clock .rowUpdate } else r) } ∧
    (AuthService.ResetPassword lib w req s).2.refreshTokens = s.refreshTokens ∧
    (AuthService.ResetPassword lib w req s).2.cache = s.cache ∧
    Cache.GetJSON w ("reset_token:" ++ req.Token) (AuthService.ResetPassword lib w req s).2 =
      .ok m := by
  obtain ⟨-, hmem, hid⟩ := GetByID_ok huser
  have hh : utils.HashPassword lib w req.Password = .ok hashed := by
    simp only [utils.HashPassword, hhash]
  cases hu : UserRepository.Update w { user with PasswordHash := hashed } s with
  | error e =>
    rw [hu] at hupd
    simp [Except.isOk, Except.toBool] at hupd
  | ok p =>
    obtain ⟨s1, user1⟩ := p
    have hup := userUpdate_ok hu ⟨user, hmem, rfl, rfl⟩
    have hs1 : s1 = { s with users := s.users.map (fun r => if r.ID = uid then
        { user with PasswordHash := hashed, UpdatedAt := w.clock .rowUpdate } else r) } := by
      rw [hup.2, hup.1]
      simp [hid]
    have hres : AuthService.ResetPassword lib w req s = (.error (.other msg), s1) := by
      simp only [AuthService.ResetPassword, hget, hparse, huser, hh, hu, Cache.Delete, hdel]
    rw [hres]
    refine ⟨rfl, hs1, by rw [hs1], by rw [hs1], ?_⟩
    have hc : s1.cache = s.cache := by rw [hs1]
    simp only [Cache.GetJSON, hc] at hget ⊢
    exact hget

/-- C28 at a concrete state: Alice redeems her grant while the cache refuses
deletes; the call fails, her password is already the new one, her session and
her grant are still there. -/
theorem reset_password_not_atomic_witness :
    (AuthService.ResetPassword demoLib grantDeleteDownWorld resetReq resetState).1 =
      .error (.other "redis: connection refused") ∧
    (AuthService.ResetPassword demoLib grantDeleteDownWorld resetReq resetState).2 =
      { resetState with users := resetState.users.map (fun r => if r.ID = alice.ID then
          { alice with PasswordHash := "$newpw1",
                       UpdatedAt := grantDeleteDownWorld.clock .rowUpdate } else r) } ∧
    (AuthService.ResetPassword demoLib grantDeleteDownWorld resetReq resetState).2.refreshTokens =
      resetState.refreshTokens ∧
    (AuthService.ResetPassword demoLib grantDeleteDownWorld resetReq resetState).2.cache =
      resetState.cache ∧
    Cache.GetJSON grantDeleteDownWorld ("reset_token:" ++ resetReq.Token)
      (AuthService.ResetPassword demoLib grantDeleteDownWorld resetReq resetState).2 =
      .ok [("user_id", uuidString alice.ID), ("email", "a@x.com")] :=
  reset_password_not_atomic demoLib grantDeleteDownWorld resetReq resetState
    [("user_id", uuidString alice.ID), ("email", "a@x.com")] alice.ID alice "$newpw1"
    "redis: connection refused" (by decide) (by decide) (by decide) (by decide) (by decide)
    (by decide)

/-- C29: a successful `ResetPassword` (the primary key of the users table
holding) touches only the user named in the grant.  Every user row is kept;
the row of that user changes in its password hash and its update time and in
nothing else (id, email, full name, role, avatar and creation time are kept),
and no other row changes.  From the cache only the key of the grant is
deleted, from the refresh tokens only the rows of that user, and the rest of
the state is unchanged. -/
theorem reset_password_frame (lib : Lib) (w : World) (req : ResetPasswordRequest)
    (s s1 : State) (hpk : UserIDsUnique s)
    (h : AuthService.ResetPassword lib w req s = (.ok (), s1)) :
    ∃ m uid hashed, Cache.GetJSON w ("reset_token:" ++ req.Token) s = .ok m ∧
      lib.parse (mapGet m "user_id") = some uid ∧
      lib.hash w.salt req.Password = .ok hashed ∧
      (∃ user ∈ s.users, user.ID = uid) ∧
      s1 = { s with
             users := s.users.map (fun r => if r.ID = uid then
                { r with PasswordHash := hashed, UpdatedAt := w.clock .rowUpdate } else r),
             refreshTokens := s.refreshTokens.filter (fun r => decide (r.UserID ≠ uid)),
             cache := s.cache.filter (fun e => decide (e.key ≠ "reset_token:" ++ req.Token)) } ∧
      (∀ r ∈ s.users, r.ID ≠ uid → r ∈ s1.users) ∧
      (∀ r ∈ s.refreshTokens, r.UserID ≠ uid → r ∈ s1.refreshTokens) ∧
      (∀ e ∈ s.cache, e.key ≠ "reset_token:" ++ req.Token → e ∈ s1.cache) := by
  obtain ⟨m, uid, user, hashed, hm, hparse, huser, hhash, hs1⟩ := ResetPassword_ok h
  obtain ⟨-, hmem, hid⟩ := GetByID_ok huser
  have husers : s.users.map (fun r => if r.ID = uid then
        { user with PasswordHash := hashed, UpdatedAt := w.clock .rowUpdate } else r) =
      s.users.map (fun r => if r.ID = uid then
        { r with PasswordHash := hashed, UpdatedAt := w.clock .rowUpdate } else r) := by
    apply List.map_congr_left
    intro r hr
    by_cases hru : r.ID = uid
    · have : r = user := List.inj_on_of_nodup_map hpk hr hmem (by rw [hru, hid])
      simp [hru, this]
    · simp [hru]
  rw [husers] at hs1
  refine ⟨m, uid, hashed, hm, hparse, hhash, ⟨user, hmem, hid⟩, hs1, ?_, ?_, ?_⟩
  · intro r hr hne
    rw [hs1]
    simp only [List.mem_map]
    exact ⟨r, hr, by simp [hne]⟩
  · intro r hr hne
    rw [hs1]
    simp only [List.mem_filter, decide_eq_true_eq]
    exact ⟨hr, hne⟩
  · intro e he hne
    rw [hs1]
    simp only [List.mem_filter, decide_eq_true_eq]
    exact ⟨he, hne⟩

/-- C29 at a concrete state: Alice redeems her grant at instant 2000. -/
theorem reset_password_frame_witness :
    ∃ m uid hashed, Cache.GetJSON world2000 ("reset_token:" ++ resetReq.Token) resetState = .ok m ∧
      demoLib.parse (mapGet m "user_id") = some uid ∧
      demoLib.hash world2000.salt resetReq.Password = .ok hashed ∧
      (∃ user ∈ resetState.users, user.ID = uid) ∧
      (AuthService.ResetPassword demoLib world2000 resetReq resetState).2 =
        { resetState with
          users := resetState.users.map (fun r => if r.ID = uid then
            { r with PasswordHash := hashed, UpdatedAt := world2000.clock .rowUpdate } else r),
          refreshTokens := resetState.refreshTokens.filter (fun r => decide (r.UserID ≠ uid)),
          cache := resetState.cache.filter
            (fun e => decide (e.key ≠ "reset_token:" ++ resetReq.Token)) } ∧
      (∀ r ∈ resetState.users, r.ID ≠ uid →
        r ∈ (AuthService.ResetPassword demoLib world2000 resetReq resetState).2.users) ∧
      (∀ r ∈ resetState.refreshTokens, r.UserID ≠ uid →
        r ∈ (AuthService.ResetPassword demoLib world2000 resetReq resetState).2.refreshTokens) ∧
      (∀ e ∈ resetState.cache, e.key ≠ "reset_token:" ++ resetReq.Token →
        e ∈ (AuthService.ResetPassword demoLib world2000 resetReq resetState).2.cache) :=
  reset_password_frame demoLib world2000 resetReq resetState
    (AuthService.ResetPassword demoLib world2000 resetReq resetState).2 (by decide) (by decide)

/-! ## Slugs -/

theorem collapseHyphens_head (l : List Char) : (collapseHyphens l).head? = l.head? := by
  induction l with
  | nil => rfl
  | cons c rest ih =>
    simp only [collapseHyphens]
    split
    · rename_i h
      rw [ih, h.2, h.1]
      rfl
    · rfl

theorem collapseHyphens_mem (l : List Char) (c : Char) (h : c ∈ collapseHyphens l) : c ∈ l := by
  induction l with
  | nil => simp [collapseHyphens] at h
  | cons a rest ih =>
    simp only [collapseHyphens] at h
    split at h
    · exact List.mem_cons_of_mem _ (ih h)
    · rcases List.mem_cons.mp h with h1 | h1
      · rw [h1]; exact List.mem_cons_self _ _
      · exact List.mem_cons_of_mem _ (ih h1)

theorem collapseHyphens_chain (l : List Char) :
    (collapseHyphens l).Chain' (fun a b => ¬ (a = '-' ∧ b = '-')) := by
  induction l with
  | nil => exact List.chain'_nil
  | cons c rest ih =>
    simp only [collapseHyphens]
    split
    · exact ih
    · rename_i h
      rw [List.chain'_cons']
      refine ⟨?_, ih⟩
      intro y hy
      rw [collapseHyphens_head] at hy
      intro hcy
      apply h
      refine ⟨hcy.1, ?_⟩
      simp only [Option.mem_def] at hy
      rw [hy, hcy.2]

theorem trimHyphens_eq (l : List Char) :
    trimHyphens l =
      (l.dropWhile (fun c => decide (c = '-'))).rdropWhile (fun c => decide (c = '-')) := rfl

theorem trimHyphens_within (l : List Char) : trimHyphens l <:+: l := by
  rw [trimHyphens_eq]
  exact (List.rdropWhile_prefix _ _).isInfix.trans (List.dropWhile_suffix _).isInfix

theorem trimHyphens_head (l : List Char) : (trimHyphens l).head? ≠ some '-' := by
  rw [trimHyphens_eq]
  intro h
  have hne : (l.dropWhile (fun c => decide (c = '-'))).rdropWhile
      (fun c => decide (c = '-')) ≠ [] := by
    intro h0
    rw [h0] at h
    simp at h
  have hy : l.dropWhile (fun c => decide (c = '-')) ≠ [] := by
    intro h0
    rw [h0] at hne
    simp [List.rdropWhile] at hne
  have h1 := List.IsPrefix.head (List.rdropWhile_prefix (fun c => decide (c = '-'))
    (l.dropWhile (fun c => decide (c = '-')))) hne
  have h2 := List.head_dropWhile_not (fun c => decide (c = '-')) l hy
  rw [List.head?_eq_head hne, Option.some.injEq, h1] at h
  rw [h] at h2
  simp at h2

theorem trimHyphens_last (l : List Char) : (trimHyphens l).getLast? ≠ some '-' := by
  rw [trimHyphens_eq]
  intro h
  have hne : (l.dropWhile (fun c => decide (c = '-'))).rdropWhile
      (fun c => decide (c = '-')) ≠ [] := by
    intro h0
    rw [h0] at h
    simp at h
  have h1 := List.rdropWhile_last_not (fun c => decide (c = '-'))
    (l.dropWhile (fun c => decide (c = '-'))) hne
  rw [List.getLast?_eq_getLast _ hne, Option.some.injEq] at h
  rw [h] at h1
  simp at h1

/-- The output of `generateSlug` is in slug normal form. -/
theorem generateSlug_normal (lib : Lib) (name : String) : SlugNormal (generateSlug lib name) := by
  simp only [SlugNormal, generateSlug]
  refine ⟨?_, trimHyphens_head _, trimHyphens_last _, ?_⟩
  · intro c hc
    have h1 := (trimHyphens_within _).subset hc
    have h2 := collapseHyphens_mem _ _ h1
    exact (List.mem_filter.mp h2).2
  · exact List.Chain'.infix (collapseHyphens_chain _) (trimHyphens_within _)

theorem categoryCreate_ok {w : World} {c c1 : Category} {s s1 : State}
    (h : CategoryRepository.Create w c s = .ok (s1, c1)) :
    c1.Name = c.Name ∧ c1.Description = c.Description ∧ c1.Slug = c.Slug ∧
      s1 = { s with categories := s.categories ++ [c1] } := by
  simp only [CategoryRepository.Create] at h
  split at h
  · simp at h
  · split at h
    · simp at h
    · simp only [Except.ok.injEq, Prod.mk.injEq] at h
      obtain ⟨h1, h2⟩ := h
      subst h2
      refine ⟨?_, ?_, ?_, h1.symm⟩ <;> (simp only [Category.BeforeCreate]; split <;> rfl)

theorem CategoryCreate_ok {lib : Lib} {w : World} {req : CreateCategoryRequest} {s s1 : State}
    {resp : CategoryResponse} (h : CategoryService.Create lib w req s = (.ok resp, s1)) :
    ∃ row, resp = CategoryService.categoryResponse row ∧
      row.Name = req.Name ∧ row.Description = req.Description ∧
      row.Slug = (if req.Slug = "" then generateSlug lib req.Name else req.Slug) ∧
      s1.categories = s.categories ++ [row] := by
  simp only [CategoryService.Create] at h
  generalize (if req.Slug = "" then generateSlug lib req.Name else req.Slug) = slug at h ⊢
  split at h
  · simp at h
  · split at h
    · simp at h
    · split at h
      · simp at h
      · rename_i s0 category1 hc
        simp only [Prod.mk.injEq, Except.ok.injEq] at h
        obtain ⟨h1, h2, h3, h4⟩ := categoryCreate_ok hc
        refine ⟨category1, h.1.symm, h1, h2, h3, ?_⟩
        rw [← h.2, dropError_delete_eq]
        rcases dropError_deleteAt_cases .cacheDelete w "categories:all" s0 with hd | hd
        · rw [hd, h4]
        · rw [hd, h4]

/-- C30: for every input string, `generateSlug` returns a string in slug normal
form: only the characters a–z, 0–9 and '-', no '-' at the start or at the end,
and no two '-' in a row (the string may be empty).  A successful
`CategoryService.Create` whose request has an empty slug stores the category
with the generated slug of its name, and answers with it. -/
theorem generated_slug_normal_form (lib : Lib) (w : World) (req : CreateCategoryRequest)
    (s s1 : State) (resp : CategoryResponse) :
    (∀ name, SlugNormal (generateSlug lib name)) ∧
    (req.Slug = "" → CategoryService.Create lib w req s = (.ok resp, s1) →
      resp.Slug = generateSlug lib req.Name ∧ SlugNormal resp.Slug ∧
      ∃ row, s1.categories = s.categories ++ [row] ∧ row.ID = resp.ID ∧
        row.Name = req.Name ∧ row.Slug = generateSlug lib req.Name) := by
  refine ⟨fun name => generateSlug_normal lib name, fun hslug h => ?_⟩
  obtain ⟨row, hresp, hname, -, hrow, hcat⟩ := CategoryCreate_ok h
  rw [if_pos hslug] at hrow
  have hs : resp.Slug = generateSlug lib req.Name := by
    rw [hresp]
    exact hrow
  refine ⟨hs, ?_, row, hcat, ?_, hname, hrow⟩
  · rw [hs]; exact generateSlug_normal lib req.Name
  · rw [hresp]; rfl

/-- C30 at concrete inputs: the category "Smart Contracts & DeFi" is stored
under the slug "smart-contracts-defi", and the slug of "!!!" is empty. -/
theorem generated_slug_normal_form_witness :
    (categoryReq.Slug = "" ∧
      CategoryService.Create demoLib worldCategory categoryReq aliceAlone =
        (.ok (CategoryService.categoryResponse categoryRow),
          { aliceAlone with categories := [categoryRow] })) ∧
    ((CategoryService.categoryResponse categoryRow).Slug =
        generateSlug demoLib categoryReq.Name ∧
      SlugNormal (CategoryService.categoryResponse categoryRow).Slug ∧
      ∃ row, [categoryRow] = aliceAlone.categories ++ [row] ∧
        row.ID = (CategoryService.categoryResponse categoryRow).ID ∧
        row.Name = categoryReq.Name ∧ row.Slug = generateSlug demoLib categoryReq.Name) ∧
    generateSlug demoLib categoryReq.Name = "smart-contracts-defi" ∧
    generateSlug demoLib "  --Hello   World!!--  " = "hello-world" ∧
    generateSlug demoLib "!!!" = "" :=
  ⟨⟨by decide, by decide⟩,
   (generated_slug_normal_form demoLib worldCategory categoryReq aliceAlone
      { aliceAlone with categories := [categoryRow] }
      (CategoryService.categoryResponse categoryRow)).2 (by decide) (by decide),
   by decide, by decide, by decide⟩

/-! ## Which pairs share the key of a page -/

theorem keyNorm_eq_iff (a b : Int) : keyNorm a = keyNorm b ↔ SameSpelling a b := by
  unfold keyNorm SameSpelling SpelledReplacement
  generalize wrap32 a = x
  generalize wrap32 b = y
  split_ifs with h1 h2 h2 <;> constructor <;> intro h <;> omega

/-- C25, the counterexample: the pairs (10, 10) and (11, 10) get different keys
(the page is spelled as a line feed in the one and as a vertical tab in the
other). -/
theorem list_key_distinct_at_ten :
    listKey 10 10 ≠ listKey 11 10 ∧ runeString 10 = "\n" ∧ runeString 11 = "\x0b" := by
  decide

/-- C25 as amended: the key spells each number as one character, so it is not
readable, but it does not collide for values of 10 and above as such.  Two
pairs (page, size) get the same key exactly when the two pages are spelled
alike and the two sizes are spelled alike, where two numbers are spelled alike
when they are equal after the cut to 32 bits or are both spelled as U+FFFD (a
number is spelled as U+FFFD when its 32-bit cut is 0xFFFD itself or is no
valid code point: negative, a surrogate, or above 0x10FFFF).  In particular,
for pages and sizes from 0 to 0xD7FF two different pairs get different keys. -/
theorem list_key_injective_on_scalars (page pageSize page2 pageSize2 : Int) :
    (listKey page pageSize = listKey page2 pageSize2 ↔
      SameSpelling page page2 ∧ SameSpelling pageSize pageSize2) ∧
    (0 ≤ page ∧ page ≤ 0xD7FF → 0 ≤ pageSize ∧ pageSize ≤ 0xD7FF →
      0 ≤ page2 ∧ page2 ≤ 0xD7FF → 0 ≤ pageSize2 ∧ pageSize2 ≤ 0xD7FF →
      page ≠ page2 ∨ pageSize ≠ pageSize2 →
      listKey page pageSize ≠ listKey page2 pageSize2) := by
  refine ⟨?_, fun hp hs hp2 hs2 hne h => ?_⟩
  · rw [listKey_eq_iff, keyNorm_eq_iff, keyNorm_eq_iff]
  · rw [listKey_eq_iff, keyNorm_small _ hp.1 hp.2, keyNorm_small _ hs.1 hs.2,
      keyNorm_small _ hp2.1 hp2.2, keyNorm_small _ hs2.1 hs2.2] at h
    rcases hne with hne | hne
    · exact hne h.1
    · exact hne h.2

/-- C25 as amended, at concrete numbers: the pairs (10, 10) and (11, 10), and
(10, 25) and (10, 26), get different keys; the pages -1, -2 and 65533 share
their key; the pages 65 and 4294967361 share theirs; the pages 65 and 66 do not. -/
theorem list_key_injective_on_scalars_witness :
    listKey 10 10 ≠ listKey 11 10 ∧
    listKey 10 25 ≠ listKey 10 26 ∧
    listKey (-1) 10 = listKey (-2) 10 ∧
    listKey 65533 10 = listKey (-1) 10 ∧
    listKey 65 10 = listKey 4294967361 10 ∧
    ¬ (SameSpelling 65 66 ∧ SameSpelling 10 10) ∧
    listKey 65 10 ≠ listKey 66 10 :=
  ⟨(list_key_injective_on_scalars 10 10 11 10).2 (by decide) (by decide) (by decide) (by decide)
      (Or.inl (by decide)),
   (list_key_injective_on_scalars 10 25 10 26).2 (by decide) (by decide) (by decide) (by decide)
      (Or.inr (by decide)),
   (list_key_injective_on_scalars (-1) 10 (-2) 10).1.mpr ⟨by decide, by decide⟩,
   (list_key_injective_on_scalars 65533 10 (-1) 10).1.mpr ⟨by decide, by decide⟩,
   (list_key_injective_on_scalars 65 10 4294967361 10).1.mpr ⟨by decide, by decide⟩,
   by decide,
   fun h => absurd ((list_key_injective_on_scalars 65 10 66 10).1.mp h) (by decide)⟩

/-! ### When the category mutations succeed -/

theorem CategoryDelete_succeeds (w : World) (id : UUID) (s : State)
    (hf1 : w.fault .categoryGetByID = none) (hf2 : w.fault .categoryDelete = none)
    (hex : ∃ c ∈ s.categories, c.ID = id) :
    (CategoryService.Delete w id s).1 = .ok () := by
  simp only [CategoryService.Delete, CategoryRepository.GetByID, hf1]
  cases hq : firstRow Category.ID (fun c => decide (c.ID = id)) s.categories with
  | none =>
    exfalso
    rw [firstRow_eq_none] at hq
    obtain ⟨c, hc, hid⟩ := hex
    have := hq c hc
    simp [hid] at this
  | some c => simp only [CategoryRepository.Delete, hf2]

theorem CategoryCreate_succeeds (lib : Lib) (w : World) (req : CreateCategoryRequest)
    (s : State) (hf1 : w.fault .categoryGetBySlug = none) (hf2 : w.fault .categoryCreate = none)
    (hfree : ∀ r ∈ s.categories, r.ID ≠ w.categoryID ∧ r.Name ≠ req.Name ∧
      r.Slug ≠ (if req.Slug = "" then generateSlug lib req.Name else req.Slug)) :
    (CategoryService.Create lib w req s).1.isOk = true := by
  simp only [CategoryService.Create]
  generalize (if req.Slug = "" then generateSlug lib req.Name else req.Slug) = slug at hfree ⊢
  have hq : firstRow Category.ID (fun c => decide (c.Slug = slug)) s.categories = none := by
    rw [firstRow_eq_none]
    intro r hr
    simp [(hfree r hr).2.2]
  have hany : (s.categories.any fun r =>
      decide (r.ID = w.categoryID) || decide (r.Name = req.Name) || decide (r.Slug = slug))
      = false := by
    rw [List.any_eq_false]
    intro r hr
    simp [(hfree r hr).1, (hfree r hr).2.1, (hfree r hr).2.2]
  simp [CategoryRepository.GetBySlug, hf1, hq, CategoryRepository.Create, hf2,
    Category.BeforeCreate, hany, Except.isOk, Except.toBool]

theorem CategoryApplyUpdate_ok (w : World) (id : UUID) (req : UpdateCategoryRequest)
    (category : Category) (s : State) (hf : w.fault .categoryGetBySlug = none)
    (hid : category.ID = id)
    (hfree : ∀ r ∈ s.categories, r.ID ≠ id →
      r.Slug ≠ (if req.Slug ≠ "" then req.Slug else category.Slug)) :
    ∃ c, CategoryService.applyUpdate w id req category s = .ok c ∧ c.ID = id ∧
      c.Name = (if req.Name ≠ "" then req.Name else category.Name) ∧
      c.Slug = (if req.Slug ≠ "" then req.Slug else category.Slug) := by
  simp only [CategoryService.applyUpdate]
  by_cases hs : req.Slug = ""
  · simp only [hs, ne_eq, not_true_eq_false, if_false]
    refine ⟨_, rfl, ?_, ?_, ?_⟩
    · split <;> split <;> exact hid
    · split <;> split <;> rfl
    · split <;> split <;> rfl
  · simp only [ne_eq, hs, not_false_eq_true, if_true] at hfree ⊢
    simp only [CategoryRepository.GetBySlug, hf]
    cases hq : firstRow Category.ID (fun c => decide (c.Slug = req.Slug)) s.categories with
    | none =>
      simp only [not_true_eq_false, if_false]
      refine ⟨_, rfl, ?_, ?_, ?_⟩
      · split <;> split <;> exact hid
      · split <;> split <;> rfl
      · rfl
    | some existing =>
      have hex := firstRow_some _ _ _ _ hq
      simp only [decide_eq_true_eq] at hex
      have hid2 : existing.ID = id := by
        by_contra hne
        exact hfree existing hex.1 hne hex.2
      simp only [hid2, not_true_eq_false, if_false]
      refine ⟨_, rfl, ?_, ?_, ?_⟩
      · split <;> split <;> exact hid
      · split <;> split <;> rfl
      · rfl

theorem CategoryUpdate_succeeds (w : World) (id : UUID) (req : UpdateCategoryRequest)
    (category : Category) (s : State)
    (hf2 : w.fault .categoryGetBySlug = none) (hf3 : w.fault .categoryUpdate = none)
    (hid : id ≠ UUIDNil) (hrow : CategoryRepository.GetByID w id s = .ok category)
    (hfree : ∀ r ∈ s.categories, r.ID ≠ id →
      r.Name ≠ (if req.Name ≠ "" then req.Name else category.Name) ∧
      r.Slug ≠ (if req.Slug ≠ "" then req.Slug else category.Slug)) :
    (CategoryService.Update w id req s).1.isOk = true := by
  have hcid : category.ID = id := by
    unfold CategoryRepository.GetByID at hrow
    split at hrow
    · simp at hrow
    · split at hrow
      · rename_i c hq
        simp only [Except.ok.injEq] at hrow
        rw [← hrow]
        have := (firstRow_some _ _ _ _ hq).2
        simpa using this
      · simp at hrow
  obtain ⟨c, hc, hc1, hc2, hc3⟩ := CategoryApplyUpdate_ok w id req category s hf2 hcid
    (fun r hr hne => (hfree r hr hne).2)
  have hcne : ¬ c.ID = UUIDNil := by rw [hc1]; exact hid
  have hany : (s.categories.any fun r =>
      decide (r.ID ≠ c.ID) && (decide (r.Name = c.Name) || decide (r.Slug = c.Slug))) = false := by
    rw [List.any_eq_false]
    intro r hr
    by_cases hne : r.ID = id
    · simp [hne, hc1]
    · have h1 := (hfree r hr hne).1
      have h2 := (hfree r hr hne).2
      rw [← hc2] at h1
      rw [← hc3] at h2
      simp [h1, h2]
  simp only [CategoryService.Update, hrow, hc, CategoryRepository.Update, hf3, hcne, if_false,
    hany, Bool.false_eq_true]
  by_cases hex : (s.categories.any fun r => decide (r.ID = c.ID)) = true <;>
    simp [hex, Except.isOk, Except.toBool]

/-- C23: every successful `CategoryService.Create`, `Update` and `Delete` whose
delete of "categories:all" does not fail in the cache leaves no entry under
that key, so the next `CategoryService.List` is answered from the store: it
returns the projection of the categories the store holds at that moment (or
the error of the store), never a list cached before the mutation.  The three
calls do succeed when the store does not fail and the table allows the write:
`Create` when no row has the new id, the name or the slug; `Update` of a row
that exists when no other row has the resulting name or slug; `Delete` of a
row that exists. -/
theorem category_mutation_clears_list (lib : Lib) (w : World) (s : State)
    (hd : w.fault .cacheDelete = none) :
    ((∀ req, (CategoryService.Create lib w req s).1.isOk = true →
        CategoriesFresh lib (CategoryService.Create lib w req s).2) ∧
      (∀ id req, (CategoryService.Update w id req s).1.isOk = true →
        CategoriesFresh lib (CategoryService.Update w id req s).2) ∧
      (∀ id, (CategoryService.Delete w id s).1.isOk = true →
        CategoriesFresh lib (CategoryService.Delete w id s).2)) ∧
    ((∀ req, w.fault .categoryGetBySlug = none → w.fault .categoryCreate = none →
        (∀ r ∈ s.categories, r.ID ≠ w.categoryID ∧ r.Name ≠ req.Name ∧
          r.Slug ≠ (if req.Slug = "" then generateSlug lib req.Name else req.Slug)) →
        (CategoryService.Create lib w req s).1.isOk = true ∧
        CategoriesFresh lib (CategoryService.Create lib w req s).2) ∧
      (∀ id req category, w.fault .categoryGetBySlug = none → w.fault .categoryUpdate = none →
        id ≠ UUIDNil → CategoryRepository.GetByID w id s = .ok category →
        (∀ r ∈ s.categories, r.ID ≠ id →
          r.Name ≠ (if req.Name ≠ "" then req.Name else category.Name) ∧
          r.Slug ≠ (if req.Slug ≠ "" then req.Slug else category.Slug)) →
        (CategoryService.Update w id req s).1.isOk = true ∧
        CategoriesFresh lib (CategoryService.Update w id req s).2) ∧
      (∀ id, w.fault .categoryGetByID = none → w.fault .categoryDelete = none →
        (∃ c ∈ s.categories, c.ID = id) →
        (CategoryService.Delete w id s).1 = .ok () ∧
        CategoriesFresh lib (CategoryService.Delete w id s).2)) := by
  have hcreate : ∀ req, (CategoryService.Create lib w req s).1.isOk = true →
      CategoriesFresh lib (CategoryService.Create lib w req s).2 := by
    intro req hok
    rcases CategoryCreate_cases lib w req s with hno | ⟨s1, hs⟩
    · rw [hno] at hok; exact absurd hok (by decide)
    · rw [hs]; exact categories_fresh_of_miss lib _ (cached_categories_deleted w s1 hd)
  have hupdate : ∀ id req, (CategoryService.Update w id req s).1.isOk = true →
      CategoriesFresh lib (CategoryService.Update w id req s).2 := by
    intro id req hok
    rcases CategoryUpdate_cases w id req s with hno | ⟨s1, hs⟩
    · rw [hno] at hok; exact absurd hok (by decide)
    · rw [hs]; exact categories_fresh_of_miss lib _ (cached_categories_deleted w s1 hd)
  have hdelete : ∀ id, (CategoryService.Delete w id s).1.isOk = true →
      CategoriesFresh lib (CategoryService.Delete w id s).2 := by
    intro id hok
    rcases CategoryDelete_cases w id s with hno | ⟨s1, hs⟩
    · rw [hno] at hok; exact absurd hok (by decide)
    · rw [hs]; exact categories_fresh_of_miss lib _ (cached_categories_deleted w s1 hd)
  refine ⟨⟨hcreate, hupdate, hdelete⟩, ?_, ?_, ?_⟩
  · intro req hf1 hf2 hfree
    have hok := CategoryCreate_succeeds lib w req s hf1 hf2 hfree
    exact ⟨hok, hcreate req hok⟩
  · intro id req category hf2 hf3 hid hrow hfree
    have hok := CategoryUpdate_succeeds w id req category s hf2 hf3 hid hrow hfree
    exact ⟨hok, hupdate id req hok⟩
  · intro id hf1 hf2 hex
    have hok := CategoryDelete_succeeds w id s hf1 hf2 hex
    exact ⟨hok, hdelete id (by rw [hok]; rfl)⟩

/-- C23 at a concrete state: the list of categories is in the cache; a second
category is created, the one category is renamed, the one category is
deleted.  Each call succeeds and leaves no cached list, and the next `List`
returns the two names, the new name, and no category. -/
theorem category_mutation_clears_list_witness :
    (cached "categories:all" categoryState).isSome = true ∧
    ((CategoryService.Create demoLib worldCategory2 categoryReq2 categoryState).1.isOk = true ∧
      CategoriesFresh demoLib
        (CategoryService.Create demoLib worldCategory2 categoryReq2 categoryState).2) ∧
    ((CategoryService.Update world3000 categoryRow.ID renameCategoryReq categoryState).1.isOk
        = true ∧
      CategoriesFresh demoLib
        (CategoryService.Update world3000 categoryRow.ID renameCategoryReq categoryState).2) ∧
    ((CategoryService.Delete world3000 categoryRow.ID categoryState).1 = .ok () ∧
      CategoriesFresh demoLib
        (CategoryService.Delete world3000 categoryRow.ID categoryState).2) ∧
    CategoriesFresh demoLib
      (CategoryService.Delete world3000 categoryRow.ID categoryState).2 ∧
    Except.map (fun l => l.map CategoryResponse.Name)
      (CategoryService.List demoLib world3000
        (CategoryService.Create demoLib worldCategory2 categoryReq2 categoryState).2).1 =
      .ok ["Smart Contracts & DeFi", "NFTs"] ∧
    Except.map (fun l => l.map CategoryResponse.Name)
      (CategoryService.List demoLib world3000
        (CategoryService.Update world3000 categoryRow.ID renameCategoryReq categoryState).2).1 =
      .ok ["DeFi"] ∧
    Except.map (fun l => l.map CategoryResponse.Name)
      (CategoryService.List demoLib world3000
        (CategoryService.Delete world3000 categoryRow.ID categoryState).2).1 = .ok [] :=
  ⟨by decide,
   (category_mutation_clears_list demoLib worldCategory2 categoryState (by decide)).2.1
      categoryReq2 (by decide) (by decide) (by decide),
   (category_mutation_clears_list demoLib world3000 categoryState (by decide)).2.2.1
      categoryRow.ID renameCategoryReq categoryRow (by decide) (by decide) (by decide)
      (by decide) (by decide),
   (category_mutation_clears_list demoLib world3000 categoryState (by decide)).2.2.2
      categoryRow.ID (by decide) (by decide) ⟨categoryRow, by decide, rfl⟩,
   (category_mutation_clears_list demoLib world3000 categoryState (by decide)).1.2.2
      categoryRow.ID (by decide),
   by decide, by decide, by decide⟩

/-! ### `ForgotPassword` when the cache refuses the grant -/

/-- The outcomes of `ForgotPassword`: success exactly when the lookup of the
email reports that no row was found, or finds a user and the write of the
grant does not fail; a failure of the lookup to reach the store and a failure
of the cache while storing the grant are returned to the caller, and nothing
is changed. -/
theorem forgot_password_outcome (w : World) (req : ForgotPasswordRequest) (s : State) :
    ((AuthService.ForgotPassword w req s).1 = .ok () ↔
      (UserRepository.GetByEmail w req.Email s = .error .ErrRecordNotFound ∨
        ((∃ u, UserRepository.GetByEmail w req.Email s = .ok u) ∧ w.fault .cacheSet = none))) ∧
    (∀ m, w.fault .userGetByEmail = some m →
      AuthService.ForgotPassword w req s = (.error (.other m), s)) ∧
    (∀ u m, UserRepository.GetByEmail w req.Email s = .ok u → w.fault .cacheSet = some m →
      AuthService.ForgotPassword w req s = (.error (.other m), s)) := by
  refine ⟨?_, ?_, ?_⟩
  · simp only [AuthService.ForgotPassword]
    cases hget : UserRepository.GetByEmail w req.Email s with
    | error e0 =>
      by_cases hnf : e0 = .ErrRecordNotFound
      · subst hnf
        simp
      · simp [hnf]
    | ok u =>
      cases hf : w.fault .cacheSet with
      | none => simp [Cache.SetJSON, hf]
      | some m => simp [Cache.SetJSON, hf]
  · intro m hm
    simp [AuthService.ForgotPassword, UserRepository.GetByEmail, hm]
  · intro u m hu hm
    simp [AuthService.ForgotPassword, hu, Cache.SetJSON, hm]

/-- While the write of a grant fails in the cache, the answer of
`ForgotPassword` tells a registered email from an unknown one: it is the error
of the cache for every email that a user has, and success for every email
that no user has. -/
theorem forgot_password_reveals_email (w : World) (s : State) (m : String)
    (hl : w.fault .userGetByEmail = none) (hm : w.fault .cacheSet = some m)
    (req : ForgotPasswordRequest) :
    ((∃ u ∈ s.users, u.Email = req.Email) →
      AuthService.ForgotPassword w req s = (.error (.other m), s)) ∧
    ((∀ u ∈ s.users, u.Email ≠ req.Email) →
      AuthService.ForgotPassword w req s = (.ok (), s)) := by
  constructor
  · rintro ⟨u, hu, he⟩
    cases hq : firstRow User.ID (fun r => decide (r.Email = req.Email)) s.users with
    | none =>
      exfalso
      rw [firstRow_eq_none] at hq
      have := hq u hu
      simp [he] at this
    | some u2 =>
      have hget : UserRepository.GetByEmail w req.Email s = .ok u2 := by
        simp only [UserRepository.GetByEmail, hl, hq]
      exact (forgot_password_outcome w req s).2.2 u2 m hget hm
  · intro hno
    have hq : firstRow User.ID (fun r => decide (r.Email = req.Email)) s.users = none := by
      rw [firstRow_eq_none]
      intro r hr
      simp [hno r hr]
    simp only [AuthService.ForgotPassword, UserRepository.GetByEmail, hl, hq, if_true]

/-- C14: the write of the grant fails in the cache.  For the email of Alice,
who is registered, `ForgotPassword` returns the error of the cache; for an
email that no user has, the same call in the same world and state returns
success.  The call does not always succeed, and whether it does tells the
caller that the email is registered, which the comment in the service ("Don't
reveal that the email doesn't exist") and in the handler ("Always return
success to prevent email enumeration") say it must not. -/
theorem forgot_password_cache_failure :
    AuthService.ForgotPassword cacheDownWorld aliceForgot aliceState =
      (.error (.other "redis: connection refused"), aliceState) ∧
    AuthService.ForgotPassword cacheDownWorld { Email := "unknown@x.com" } aliceState =
      (.ok (), aliceState) := by
  decide

end Web3Edu
